import Mathlib

/-!
# libpointmatcher: the ICP driver and its convergence checkers

A shallow embedding of `pointmatcher/Core.cpp` and
`pointmatcher/TransformationChecker.cpp`.

Modelling conventions.

* Matrices of the driver (clouds, transformations, weights) are matrices over `ℚ`:
  exact arithmetic, rounding is not modelled.
* The measured `values` and the `limits` of a checker are `Scalar`s: rationals
  extended with the IEEE special values (two infinities and NaN), so that the `isnan`
  guards and the division by `tail` keep their meaning.
* The max-iteration checker counts in the scalar type `T` (`float` or `double`), and its
  count can leave the range in which `T` holds every integer. Its limit and its increment
  are therefore rounded to the `digits` significand bits of `T`
  (`std::numeric_limits<T>::digits`: 24 for `float`, 53 for `double`), to nearest, ties to
  even. The exponent range is not modelled: counts and `int`s are far below the largest
  finite value. The sums and means of the other checkers are exact.
* Eigen (quaternion extraction, `angularDistance`, `norm`) is an external library and is
  taken as a parameter (`Eigen`).
* The stages of a strategy (filters, matcher, outlier filters, minimizer, inspector) are
  virtual objects implemented outside the core; they are functions over a shared stage
  state `σ` that may raise an exception. A `bool& iterate` argument is a `Bool` passed in
  and returned.
* Output on `cout` / `cerr` and the timer are not modelled.
* The two clouds of a call have the same number `k + 3` of feature rows, and the model is
  meant for clouds with at least one point: what the code does with an empty matrix, with a
  division by a zero count, or with clouds of different heights is decided inside Eigen and
  by the arithmetic of `T`, and is not described here.
-/

namespace PointMatcher

/-! ## Scalars -/

/-- A value of the scalar type `T` of a checker: a rational, an infinity, or NaN. -/
inductive Scalar where
  | fin (q : ℚ)
  | posInf
  | negInf
  | nan
deriving DecidableEq

/-- Rounding of a rational to the nearest integer, ties to the even one. -/
def roundHalfEven (m : ℚ) : Int :=
  if m - (⌊m⌋ : ℚ) < 1 / 2 then ⌊m⌋
  else if 1 / 2 < m - (⌊m⌋ : ℚ) then ⌊m⌋ + 1
  else if ⌊m⌋ % 2 = 0 then ⌊m⌋ else ⌊m⌋ + 1

/-- The spacing, around `x ≠ 0`, of the values of a binary floating-point type with `digits`
significand bits: `2 ^ (e - digits + 1)`, where `2 ^ e ≤ |x| < 2 ^ (e + 1)`. -/
def ulp (digits : Nat) (x : ℚ) : ℚ := (2 : ℚ) ^ (Int.log 2 |x| - (digits : Int) + 1)

/-- Rounding of a rational to a binary floating-point type with `digits` significand bits
(24 for `float`, 53 for `double`): the nearest multiple of the spacing, ties to the even
significand. -/
def roundTo (digits : Nat) (x : ℚ) : ℚ :=
  if x = 0 then 0 else (roundHalfEven (x / ulp digits x) : ℚ) * ulp digits x

namespace Scalar

/-- The value of type `T` nearest to a scalar: the rounding that ends an operation of a
type with `digits` significand bits. -/
def round (digits : Nat) : Scalar → Scalar
  | fin a => fin (roundTo digits a)
  | posInf => posInf
  | negInf => negInf
  | nan => nan

/-- Conversion `int → T`, as in `limits(0) = maxIterationCount`, for a type `T` with
`digits` significand bits. -/
def ofInt (digits : Nat) (i : Int) : Scalar := round digits (fin (i : ℚ))

/-- The literal `0` of type `T`. -/
def zero : Scalar := fin 0

/-- The literal `1` of type `T`. -/
def one : Scalar := fin 1

/-- Addition of scalars (`+=`, `++`). -/
def add : Scalar → Scalar → Scalar
  | fin a, fin b => fin (a + b)
  | nan, _ => nan
  | _, nan => nan
  | posInf, negInf => nan
  | negInf, posInf => nan
  | posInf, _ => posInf
  | _, posInf => posInf
  | negInf, _ => negInf
  | _, negInf => negInf

/-- Unary minus, as in `limits(2) = -minDeltaRotErr`. -/
def neg : Scalar → Scalar
  | fin a => fin (-a)
  | posInf => negInf
  | negInf => posInf
  | nan => nan

/-- The comparison `a < b`; false as soon as one side is NaN. -/
def lt : Scalar → Scalar → Bool
  | fin a, fin b => decide (a < b)
  | fin _, posInf => true
  | negInf, fin _ => true
  | negInf, posInf => true
  | _, _ => false

/-- The comparison `a > b`. -/
def gt (a b : Scalar) : Bool := lt b a

/-- The comparison `a >= b`; false as soon as one side is NaN. -/
def ge : Scalar → Scalar → Bool
  | fin a, fin b => decide (b ≤ a)
  | nan, _ => false
  | _, nan => false
  | posInf, _ => true
  | _, negInf => true
  | _, _ => false

/-- The test `isnan(a)`. -/
def isnan : Scalar → Bool
  | nan => true
  | _ => false

/-- Division of a scalar by an unsigned count converted to `T` (`values /= tail`). -/
def divNat : Scalar → Nat → Scalar
  | fin a, n =>
    if n = 0 then
      if a = 0 then nan else if 0 < a then posInf else negInf
    else fin (a / (n : ℚ))
  | posInf, _ => posInf
  | negInf, _ => negInf
  | nan, _ => nan

end Scalar

/-- Modelled from the spec: the helper `anyabs` of `Core.h` (not among the sources), the
absolute value of a scalar ("mean of |angularDistance|"). -/
def anyabs : Scalar → Scalar
  | Scalar.fin a => Scalar.fin |a|
  | Scalar.posInf => Scalar.posInf
  | Scalar.negInf => Scalar.posInf
  | Scalar.nan => Scalar.nan

/-! ## Exceptions and transformations -/

/-- The abnormal ends of a call: the `ConvergenceError` of the checkers, a failed `assert`,
an access outside a `std::vector` (undefined behaviour, made explicit), and any other
exception thrown by a stage implemented outside the core. -/
inductive Exception where
  | ConvergenceError (what : String)
  | AssertionFailure (what : String)
  | OutOfRange
  | other (what : String)
deriving DecidableEq

/-- A homogeneous transformation with `k + 3` rows: `k = 0` is the 2D case (3 × 3) and
`k = 1` the 3D case (4 × 4), the one for which `parameters.rows() == 4`. -/
abbrev TransformationParameters (k : Nat) := Matrix (Fin (k + 3)) (Fin (k + 3)) ℚ

/-- Eigen's `parameters.corner(Eigen::TopLeft, 3, 3)`. -/
def cornerTopLeft3 {k : Nat} (parameters : TransformationParameters k) :
    Matrix (Fin 3) (Fin 3) ℚ :=
  fun i j => parameters (Fin.castLE (Nat.le_add_left 3 k) i) (Fin.castLE (Nat.le_add_left 3 k) j)

/-- Eigen's `parameters.corner(Eigen::TopRight, parameters.rows() - 1, 1)`: the translation. -/
def cornerTopRight {k : Nat} (parameters : TransformationParameters k) : Fin (k + 2) → ℚ :=
  fun i => parameters (Fin.castSucc i) (Fin.last (k + 2))

/-- The state of a checker after `init` followed by one `check` per entry of `calls` (the
parameters and the value of `iterate` on entry of each call); `none` if a call raised. -/
def afterCalls {C P : Type} (init check : P → Bool → C → Except Exception (C × Bool))
    (c : C) (T0 : P) (iterate0 : Bool) (calls : List (P × Bool)) : Option C :=
  calls.foldl
    (fun acc call =>
      match acc with
      | none => none
      | some c' =>
        match check call.1 call.2 c' with
        | .ok (c'', _) => some c''
        | .error _ => none)
    (match init T0 iterate0 c with
     | .ok (c', _) => some c'
     | .error _ => none)

/-! ## Max iteration counter -/

/-- State of a `CounterTransformationChecker`: the inherited `values` and `limits`, and the
scalar type `T` of the instantiation, given by its number `digits` of significand bits
(`std::numeric_limits<T>::digits`; the class is instantiated for `float`, 24, and for
`double`, 53). -/
structure CounterTransformationChecker where
  digits : Nat
  values : Fin 1 → Scalar
  limits : Fin 1 → Scalar

namespace CounterTransformationChecker

/-- The constructor, for the scalar type with `digits` significand bits:
`limits.setZero(1); limits(0) = maxIterationCount`, a conversion `int → T`. The vector
`values` is only given its size by `init`; here it starts at zero. -/
def new (digits : Nat) (maxIterationCount : Int) : CounterTransformationChecker :=
  { digits := digits, values := ![Scalar.zero], limits := ![Scalar.ofInt digits maxIterationCount] }

/-- `CounterTransformationChecker::init`: `values.setZero(1)`. -/
def init {k : Nat} (_parameters : TransformationParameters k) (iterate : Bool)
    (c : CounterTransformationChecker) : Except Exception (CounterTransformationChecker × Bool) :=
  .ok ({ c with values := ![Scalar.zero] }, iterate)

/-- `CounterTransformationChecker::check`: `values(0)++`, an addition of `1` in `T`, then
`if (values(0) >= limits(0)) iterate = false`. -/
def check {k : Nat} (_parameters : TransformationParameters k) (iterate : Bool)
    (c : CounterTransformationChecker) : Except Exception (CounterTransformationChecker × Bool) :=
  let values : Fin 1 → Scalar := ![Scalar.round c.digits (Scalar.add (c.values 0) Scalar.one)]
  let iterate := if Scalar.ge (values 0) (c.limits 0) then false else iterate
  .ok ({ c with values := values }, iterate)

end CounterTransformationChecker

/-! ## Eigen -/

/-- The operations of Eigen used by the checkers, over a type of quaternions:
`Quaternion(Eigen::Matrix<T,3,3>)`, `Quaternion::angularDistance` and `Vector::norm`. -/
structure Eigen (Quaternion : Type) where
  ofMatrix : Matrix (Fin 3) (Fin 3) ℚ → Quaternion
  angularDistance : Quaternion → Quaternion → Scalar
  norm : (n : Nat) → (Fin n → ℚ) → Scalar

/-! ## Error (delta) checker -/

/-- State of an `ErrorTransformationChecker`: the inherited `values` and `limits`, and the
members `rotations`, `translations` and `tail`. -/
structure ErrorTransformationChecker (Quaternion : Type) (k : Nat) where
  values : Fin 4 → Scalar
  limits : Fin 4 → Scalar
  rotations : List Quaternion
  translations : List (Fin (k + 2) → ℚ)
  tail : Nat

namespace ErrorTransformationChecker

variable {Quaternion : Type} {k : Nat}

/-- The constructor: the four limits are `minDeltaRotErr`, `minDeltaTransErr` and their
opposites; the sequences start empty. -/
def new (minDeltaRotErr minDeltaTransErr : Scalar) (tail : Nat) :
    ErrorTransformationChecker Quaternion k :=
  { values := ![Scalar.zero, Scalar.zero, Scalar.zero, Scalar.zero]
    limits := ![minDeltaRotErr, minDeltaTransErr, Scalar.neg minDeltaRotErr,
                Scalar.neg minDeltaTransErr]
    rotations := []
    translations := []
    tail := tail }

/-- The 2D branch of `init`: `m = Identity(3,3)` with its top-left 2 × 2 corner overwritten by
the top-left 2 × 2 corner of `parameters`. -/
def identityPadded (parameters : TransformationParameters k) : Matrix (Fin 3) (Fin 3) ℚ :=
  fun i j =>
    if i.val < 2 ∧ j.val < 2 then cornerTopLeft3 parameters i j
    else (1 : Matrix (Fin 3) (Fin 3) ℚ) i j

/-- `ErrorTransformationChecker::init`. -/
def init (E : Eigen Quaternion) (parameters : TransformationParameters k) (iterate : Bool)
    (c : ErrorTransformationChecker Quaternion k) :
    Except Exception (ErrorTransformationChecker Quaternion k × Bool) :=
  let rotation :=
    if k + 3 = 4 then E.ofMatrix (cornerTopLeft3 parameters)
    else E.ofMatrix (identityPadded parameters)
  .ok ({ c with
          values := ![Scalar.zero, Scalar.zero, Scalar.zero, Scalar.zero]
          rotations := [rotation]
          translations := [cornerTopRight parameters] }, iterate)

/-- One pass of the body of the averaging loop at index `i + 1`, reading entries `i + 1` and
`i` of both sequences; `none` when an index is outside its vector. -/
def averagingStep (E : Eigen Quaternion) (rotations : List Quaternion)
    (translations : List (Fin (k + 2) → ℚ)) (i : Nat) (values : Fin 4 → Scalar) :
    Option (Fin 4 → Scalar) :=
  match rotations.get? (i + 1), rotations.get? i, translations.get? (i + 1),
      translations.get? i with
  | some r, some rPrev, some t, some tPrev =>
    some ![Scalar.add (values 0) (anyabs (E.angularDistance r rPrev)),
           Scalar.add (values 1) (anyabs (E.norm (k + 2) (t - tPrev))),
           Scalar.add (values 2) (E.angularDistance r rPrev),
           Scalar.add (values 3) (E.norm (k + 2) (t - tPrev))]
  | _, _, _, _ => none

/-- The loop `for (size_t i = rotations.size()-1; i >= rotations.size()-tail; i--)`, from
the current index on, with lower bound `lower = rotations.size() - tail`. At index `0` with
`lower = 0` the body would read entry `i - 1` with the index wrapped around: outside the
vector. -/
def averagingLoop (E : Eigen Quaternion) (rotations : List Quaternion)
    (translations : List (Fin (k + 2) → ℚ)) (lower : Nat) :
    Nat → (Fin 4 → Scalar) → Option (Fin 4 → Scalar)
  | 0, values => if lower ≤ 0 then none else some values
  | i + 1, values =>
    if lower ≤ i + 1 then
      match averagingStep E rotations translations i values with
      | some values' => averagingLoop E rotations translations lower i values'
      | none => none
    else some values

/-- The part of `check` that computes `values`: the two `push_back`, `values.setZero(4)` and,
when `rotations.size() > tail`, the averaging loop followed by `values /= tail`. -/
def measure (E : Eigen Quaternion) (parameters : TransformationParameters k)
    (c : ErrorTransformationChecker Quaternion k) :
    Option (ErrorTransformationChecker Quaternion k) :=
  let rotations := c.rotations ++ [E.ofMatrix (cornerTopLeft3 parameters)]
  let translations := c.translations ++ [cornerTopRight parameters]
  let zero : Fin 4 → Scalar := ![Scalar.zero, Scalar.zero, Scalar.zero, Scalar.zero]
  if rotations.length > c.tail then
    match averagingLoop E rotations translations (rotations.length - c.tail)
        (rotations.length - 1) zero with
    | some sums =>
      some { c with
              rotations := rotations
              translations := translations
              values := fun j => Scalar.divNat (sums j) c.tail }
    | none => none
  else
    some { c with rotations := rotations, translations := translations, values := zero }

/-- `ErrorTransformationChecker::check`. -/
def check (E : Eigen Quaternion) (parameters : TransformationParameters k) (iterate : Bool)
    (c : ErrorTransformationChecker Quaternion k) :
    Except Exception (ErrorTransformationChecker Quaternion k × Bool) :=
  match measure E parameters c with
  | none => .error Exception.OutOfRange
  | some c' =>
    let iterate :=
      if c'.rotations.length > c'.tail then
        if Scalar.lt (c'.values 0) (c'.limits 0) && Scalar.lt (c'.values 1) (c'.limits 1) then false
        else iterate
      else iterate
    if Scalar.isnan (c'.values 0) then
      .error (Exception.ConvergenceError "abs rotation norm not a number")
    else if Scalar.isnan (c'.values 1) then
      .error (Exception.ConvergenceError "abs translation norm not a number")
    else if Scalar.lt (c'.values 2) (c'.limits 2) && Scalar.lt (c'.values 3) (c'.limits 3) then
      .error (Exception.ConvergenceError "error is increasing")
    else .ok (c', iterate)

end ErrorTransformationChecker

/-! ## Bound checker -/

/-- State of a `BoundTransformationChecker`: the inherited `values` and `limits`, and the
members `initialRotation` and `initialTranslation`. -/
structure BoundTransformationChecker (Quaternion : Type) (k : Nat) where
  values : Fin 2 → Scalar
  limits : Fin 2 → Scalar
  initialRotation : Quaternion
  initialTranslation : Fin (k + 2) → ℚ

namespace BoundTransformationChecker

variable {Quaternion : Type} {k : Nat}

/-- `BoundTransformationChecker::init`; the `assert(parameters.rows() == 4)` aborts. -/
def init (E : Eigen Quaternion) (parameters : TransformationParameters k) (iterate : Bool)
    (c : BoundTransformationChecker Quaternion k) :
    Except Exception (BoundTransformationChecker Quaternion k × Bool) :=
  if k + 3 = 4 then
    .ok ({ c with
            values := ![Scalar.zero, Scalar.zero]
            initialRotation := E.ofMatrix (cornerTopLeft3 parameters)
            initialTranslation := cornerTopRight parameters }, iterate)
  else .error (Exception.AssertionFailure "parameters.rows() == 4")

/-- The text of the `ConvergenceError` of the bound checker; the rendering of the numbers is
not modelled. -/
def message : String := "limit out of bounds: "

/-- `BoundTransformationChecker::check`. -/
def check (E : Eigen Quaternion) (parameters : TransformationParameters k) (iterate : Bool)
    (c : BoundTransformationChecker Quaternion k) :
    Except Exception (BoundTransformationChecker Quaternion k × Bool) :=
  let currentRotation := E.ofMatrix (cornerTopLeft3 parameters)
  let currentTranslation := cornerTopRight parameters
  let values : Fin 2 → Scalar :=
    ![E.angularDistance currentRotation c.initialRotation,
      E.norm (k + 2) (currentTranslation - c.initialTranslation)]
  if Scalar.gt (values 0) (c.limits 0) || Scalar.gt (values 1) (c.limits 1) then
    .error (Exception.ConvergenceError message)
  else .ok ({ c with values := values }, iterate)

end BoundTransformationChecker

/-! ## The checker collection -/

/-- A convergence checker: one of the three checkers of `TransformationChecker.cpp`. The
virtual calls `init` and `check` dispatch on the constructor. -/
inductive TransformationChecker (Quaternion : Type) (k : Nat) where
  | counter (c : CounterTransformationChecker)
  | error (c : ErrorTransformationChecker Quaternion k)
  | bound (c : BoundTransformationChecker Quaternion k)

namespace TransformationChecker

variable {Quaternion : Type} {k : Nat}

/-- The virtual call `(*it)->init(parameters, iterate)`. -/
def init (E : Eigen Quaternion) (parameters : TransformationParameters k) (iterate : Bool) :
    TransformationChecker Quaternion k →
      Except Exception (TransformationChecker Quaternion k × Bool)
  | counter c =>
    match CounterTransformationChecker.init parameters iterate c with
    | .ok (c', iterate') => .ok (counter c', iterate')
    | .error e => .error e
  | error c =>
    match ErrorTransformationChecker.init E parameters iterate c with
    | .ok (c', iterate') => .ok (error c', iterate')
    | .error e => .error e
  | bound c =>
    match BoundTransformationChecker.init E parameters iterate c with
    | .ok (c', iterate') => .ok (bound c', iterate')
    | .error e => .error e

/-- The virtual call `(*it)->check(parameters, iterate)`. -/
def check (E : Eigen Quaternion) (parameters : TransformationParameters k) (iterate : Bool) :
    TransformationChecker Quaternion k →
      Except Exception (TransformationChecker Quaternion k × Bool)
  | counter c =>
    match CounterTransformationChecker.check parameters iterate c with
    | .ok (c', iterate') => .ok (counter c', iterate')
    | .error e => .error e
  | error c =>
    match ErrorTransformationChecker.check E parameters iterate c with
    | .ok (c', iterate') => .ok (error c', iterate')
    | .error e => .error e
  | bound c =>
    match BoundTransformationChecker.check E parameters iterate c with
    | .ok (c', iterate') => .ok (bound c', iterate')
    | .error e => .error e

end TransformationChecker

namespace TransformationCheckers

variable {Quaternion : Type} {k : Nat}

/-- `TransformationCheckers::init`: every checker in order, `iterate` by reference. -/
def init (E : Eigen Quaternion) (parameters : TransformationParameters k) :
    Bool → List (TransformationChecker Quaternion k) →
      Except Exception (List (TransformationChecker Quaternion k) × Bool)
  | iterate, [] => .ok ([], iterate)
  | iterate, c :: rest =>
    match TransformationChecker.init E parameters iterate c with
    | .error e => .error e
    | .ok (c', iterate') =>
      match init E parameters iterate' rest with
      | .error e => .error e
      | .ok (rest', iterate'') => .ok (c' :: rest', iterate'')

/-- `TransformationCheckers::check`: every checker in order, `iterate` by reference. -/
def check (E : Eigen Quaternion) (parameters : TransformationParameters k) :
    Bool → List (TransformationChecker Quaternion k) →
      Except Exception (List (TransformationChecker Quaternion k) × Bool)
  | iterate, [] => .ok ([], iterate)
  | iterate, c :: rest =>
    match TransformationChecker.check E parameters iterate c with
    | .error e => .error e
    | .ok (c', iterate') =>
      match check E parameters iterate' rest with
      | .error e => .error e
      | .ok (rest', iterate'') => .ok (c' :: rest', iterate'')

end TransformationCheckers

/-! ## Data model of the driver -/

/-- A point cloud: `features` has one row per homogeneous coordinate and one column per point,
`descriptors` has one column per point. -/
structure DataPoints (k : Nat) where
  nbPts : Nat
  features : Matrix (Fin (k + 3)) (Fin nbPts) ℚ
  nbDescriptors : Nat
  descriptors : Matrix (Fin nbDescriptors) (Fin nbPts) ℚ

/-- The result of a matcher: `ids` and `dists`, of one shape. -/
structure Matches where
  rows : Nat
  cols : Nat
  ids : Matrix (Fin rows) (Fin cols) Int
  dists : Matrix (Fin rows) (Fin cols) ℚ

/-- A matrix of outlier weights of the shape of the matches it goes with; with the shape in
the type, the four `assert`s on the shapes of the weights in `icp` hold by construction. -/
abbrev OutlierWeights (rows cols : Nat) := Matrix (Fin rows) (Fin cols) ℚ

/-! ## Stages -/

/-- A call into a stage: it reads and updates the state `σ` of the stages and returns a
value or throws. -/
def StageM (σ α : Type) : Type := σ → Except Exception (α × σ)

instance (σ : Type) : Monad (StageM σ) where
  pure a := fun s => .ok (a, s)
  bind x f := fun s =>
    match x s with
    | .ok (a, s') => f a s'
    | .error e => .error e

/-- A call into a checker, which has its own state and leaves the stages alone. -/
def liftExcept {σ α : Type} (x : Except Exception α) : StageM σ α := fun s =>
  match x with
  | .ok a => .ok (a, s)
  | .error e => .error e

/-- Interface of a data-points filter; `iterate` is a `bool&`. -/
structure DataPointsFilter (σ : Type) (k : Nat) where
  preFilter : DataPoints k → Bool → StageM σ (DataPoints k × Bool)
  stepFilter : DataPoints k → Bool → StageM σ (DataPoints k × Bool)

/-- Interface of a transformation. -/
structure Transformation (σ : Type) (k : Nat) where
  compute : DataPoints k → TransformationParameters k → StageM σ (DataPoints k)

/-- Interface of a matcher; `iterate` is a `bool&`. -/
structure Matcher (σ : Type) (k : Nat) where
  init : DataPoints k → DataPoints k → Bool → StageM σ Bool
  findClosests : DataPoints k → DataPoints k → Bool → StageM σ (Matches × Bool)

/-- Interface of a feature-outlier filter; `iterate` is a `bool&`. -/
structure FeatureOutlierFilter (σ : Type) (k : Nat) where
  compute : DataPoints k → DataPoints k → (input : Matches) → Bool →
    StageM σ (OutlierWeights input.rows input.cols × Bool)

/-- Interface of the descriptor-outlier filter; `iterate` is a `bool&`. -/
structure DescriptorOutlierFilter (σ : Type) (k : Nat) where
  compute : DataPoints k → DataPoints k → (input : Matches) → Bool →
    StageM σ (OutlierWeights input.rows input.cols × Bool)

/-- Interface of the error minimizer; `iterate` is a `bool&`. The matches come before the
weights, whose shape they give. -/
structure ErrorMinimizer (σ : Type) (k : Nat) where
  compute : DataPoints k → DataPoints k → (input : Matches) →
    OutlierWeights input.rows input.cols → Bool →
    StageM σ (TransformationParameters k × Bool)

/-- Interface of the inspector. -/
structure Inspector (σ Quaternion : Type) (k : Nat) where
  init : StageM σ Unit
  dumpIteration : Nat → TransformationParameters k → DataPoints k → DataPoints k →
    (input : Matches) → OutlierWeights input.rows input.cols →
    OutlierWeights input.rows input.cols → List (TransformationChecker Quaternion k) →
    StageM σ Unit
  finish : Nat → StageM σ Unit

/-- The strategy: the stages of one registration. The four stages held by pointer that `icp`
asserts to be non-null are optional. -/
structure Strategy (σ Quaternion : Type) (k : Nat) where
  readingDataPointsFilters : List (DataPointsFilter σ k)
  referenceDataPointsFilters : List (DataPointsFilter σ k)
  transformations : List (Transformation σ k)
  matcher : Option (Matcher σ k)
  featureOutlierFilters : List (FeatureOutlierFilter σ k)
  descriptorOutlierFilter : Option (DescriptorOutlierFilter σ k)
  outlierMixingWeight : ℚ
  errorMinimizer : Option (ErrorMinimizer σ k)
  transformationCheckers : List (TransformationChecker Quaternion k)
  inspector : Option (Inspector σ Quaternion k)

/-! ## Stage collections -/

namespace DataPointsFilters

variable {σ : Type} {k : Nat}

/-- `DataPointsFilters::applyPre(DataPoints& cloud, bool iterate)`: `iterate` is received by
value, so what the filters do to it stays inside the call: only the cloud is returned. -/
def applyPre : List (DataPointsFilter σ k) → DataPoints k → Bool → StageM σ (DataPoints k)
  | [], cloud, _ => pure cloud
  | f :: rest, cloud, iterate => do
    let (filteredCloud, iterate') ← f.preFilter cloud iterate
    applyPre rest filteredCloud iterate'

/-- `DataPointsFilters::applyStep(DataPoints& cloud, bool iterate)`: `iterate` is received by
value, so what the filters do to it stays inside the call: only the cloud is returned. -/
def applyStep : List (DataPointsFilter σ k) → DataPoints k → Bool → StageM σ (DataPoints k)
  | [], cloud, _ => pure cloud
  | f :: rest, cloud, iterate => do
    let (filteredCloud, iterate') ← f.stepFilter cloud iterate
    applyStep rest filteredCloud iterate'

end DataPointsFilters

namespace Transformations

variable {σ : Type} {k : Nat}

/-- `Transformations::apply`. -/
def apply : List (Transformation σ k) → DataPoints k → TransformationParameters k →
    StageM σ (DataPoints k)
  | [], cloud, _ => pure cloud
  | t :: rest, cloud, parameters => do
    let transformedCloud ← t.compute cloud parameters
    apply rest transformedCloud parameters

end Transformations

namespace FeatureOutlierFilters

variable {σ : Type} {k : Nat}

/-- The loop of `FeatureOutlierFilters::compute` from the weights `w` accumulated so far:
`w.cwise() *= (*it)->compute(...)`, `iterate` by reference. -/
def computeFrom (filteredReading filteredReference : DataPoints k) (input : Matches) :
    List (FeatureOutlierFilter σ k) → OutlierWeights input.rows input.cols → Bool →
      StageM σ (OutlierWeights input.rows input.cols × Bool)
  | [], w, iterate => pure (w, iterate)
  | f :: rest, w, iterate => do
    let (w', iterate') ← f.compute filteredReading filteredReference input iterate
    computeFrom filteredReading filteredReference input rest (fun i j => w i j * w' i j) iterate'

/-- `FeatureOutlierFilters::compute`: the loop started from `OutlierWeights::Ones`. -/
def compute (filters : List (FeatureOutlierFilter σ k))
    (filteredReading filteredReference : DataPoints k) (input : Matches) (iterate : Bool) :
    StageM σ (OutlierWeights input.rows input.cols × Bool) :=
  computeFrom filteredReading filteredReference input filters (fun _ _ => 1) iterate

end FeatureOutlierFilters

/-! ## The driver -/

section Driver

variable {σ Quaternion : Type} {k : Nat}

/-- Eigen's `inverse()` in exact arithmetic. -/
def inverse {n : Nat} (A : Matrix (Fin n) (Fin n) ℚ) : Matrix (Fin n) (Fin n) ℚ :=
  A.det⁻¹ • A.adjugate

/-- The vector `meanReference`: `reference.features.rowwise().sum()` divided by
`nbPtsReference`. For a cloud without any point the code sums over an empty matrix and
divides by zero in `T`; the rational quotient is then `0` by convention, so the model
describes the code for clouds with at least one point only. -/
def meanReference (reference : DataPoints k) : Fin (k + 3) → ℚ :=
  fun i => (∑ j, reference.features i j) / (reference.nbPts : ℚ)

/-- The reference after the loop `for (i = 0; i < dim-1; i++)` that subtracts
`meanReference(i)` from row `i` of its features. -/
def centredReference (reference : DataPoints k) : DataPoints k :=
  { reference with
    features := fun i j =>
      if i.val < (k + 3) - 1 then reference.features i j - meanReference reference i
      else reference.features i j }

/-- The matrix `Tref`: the identity with `meanReference.start(dim-1)` written in the block
of `dim - 1` rows and one column that starts at row `0` and column `dim - 1`. -/
def Tref (reference : DataPoints k) : TransformationParameters k :=
  fun i j =>
    if i.val < (k + 3) - 1 ∧ j.val = (k + 3) - 1 then meanReference reference i
    else (1 : TransformationParameters k) i j

/-- The variables of `icp` that change in the loop: `iterate`, `transformationParameters`,
`iterationCount` and the checkers of the strategy, with two ghost lists: the corrections the
error minimizer has returned and the parameters handed to the checkers, oldest first. -/
structure LoopState (Quaternion : Type) (k : Nat) where
  iterate : Bool
  transformationParameters : TransformationParameters k
  iterationCount : Nat
  transformationCheckers : List (TransformationChecker Quaternion k)
  corrections : List (TransformationParameters k)
  checked : List (TransformationParameters k)

/-- The body of the `while (iterate)` loop of `icp`. -/
def loopBody (E : Eigen Quaternion) (strategy : Strategy σ Quaternion k)
    (matcher : Matcher σ k) (descriptorOutlierFilter : DescriptorOutlierFilter σ k)
    (errorMinimizer : ErrorMinimizer σ k) (inspector : Inspector σ Quaternion k)
    (tref : TransformationParameters k) (reading reference : DataPoints k)
    (st : LoopState Quaternion k) : StageM σ (LoopState Quaternion k) := do
  let stepReading ←
    DataPointsFilters.applyStep strategy.readingDataPointsFilters reading st.iterate
  let stepReference ←
    DataPointsFilters.applyStep strategy.referenceDataPointsFilters reference st.iterate
  let stepReading ←
    Transformations.apply strategy.transformations stepReading st.transformationParameters
  let (matched, iterate) ← matcher.findClosests stepReading stepReference st.iterate
  let (featureOutlierWeights, iterate) ←
    FeatureOutlierFilters.compute strategy.featureOutlierFilters stepReading stepReference
      matched iterate
  let (descriptorOutlierWeights, iterate) ←
    descriptorOutlierFilter.compute stepReading stepReference matched iterate
  let outlierWeights : OutlierWeights matched.rows matched.cols := fun i j =>
    featureOutlierWeights i j * strategy.outlierMixingWeight +
      descriptorOutlierWeights i j * (1 - strategy.outlierMixingWeight)
  inspector.dumpIteration st.iterationCount st.transformationParameters stepReference
    stepReading matched featureOutlierWeights descriptorOutlierWeights
    st.transformationCheckers
  let (correction, iterate) ←
    errorMinimizer.compute stepReading stepReference matched outlierWeights iterate
  let transformationParameters := st.transformationParameters * correction
  let (checkers, iterate) ←
    liftExcept
      (TransformationCheckers.check E (tref * transformationParameters) iterate
        st.transformationCheckers)
  pure
    { iterate := iterate
      transformationParameters := transformationParameters
      iterationCount := st.iterationCount + 1
      transformationCheckers := checkers
      corrections := st.corrections ++ [correction]
      checked := st.checked ++ [tref * transformationParameters] }

/-- The loop `while (iterate)`: `fuel` bounds the number of times the body may run; the
result is `none` when the body would have to run once more. -/
def icpLoop (E : Eigen Quaternion) (strategy : Strategy σ Quaternion k)
    (matcher : Matcher σ k) (descriptorOutlierFilter : DescriptorOutlierFilter σ k)
    (errorMinimizer : ErrorMinimizer σ k) (inspector : Inspector σ Quaternion k)
    (tref : TransformationParameters k) (reading reference : DataPoints k) :
    Nat → LoopState Quaternion k → σ → Option (Except Exception (LoopState Quaternion k × σ))
  | 0, st, s => if st.iterate then none else some (.ok (st, s))
  | fuel + 1, st, s =>
    if st.iterate then
      match loopBody E strategy matcher descriptorOutlierFilter errorMinimizer inspector tref
          reading reference st s with
      | .ok (st', s') =>
        icpLoop E strategy matcher descriptorOutlierFilter errorMinimizer inspector tref
          reading reference fuel st' s'
      | .error e => some (.error e)
    else some (.ok (st, s))

/-- What the initialisation phase of `icp` leaves: the pre-filtered clouds and the variables
of the loop. -/
structure InitState (Quaternion : Type) (k : Nat) where
  reading : DataPoints k
  reference : DataPoints k
  loop : LoopState Quaternion k

/-- The part of `icp` from `bool iterate(true)` to the loop: pre-filters, `init` of the
checkers, of the matcher and of the inspector, and the first `transformationParameters`.
The `reference` it receives is the centred one. -/
def icpInit (E : Eigen Quaternion) (strategy : Strategy σ Quaternion k)
    (matcher : Matcher σ k) (inspector : Inspector σ Quaternion k)
    (tref : TransformationParameters k)
    (initialTransformationParameters : TransformationParameters k)
    (reading reference : DataPoints k) : StageM σ (InitState Quaternion k) := do
  let iterate := true
  let reading ← DataPointsFilters.applyPre strategy.readingDataPointsFilters reading iterate
  let reference ←
    DataPointsFilters.applyPre strategy.referenceDataPointsFilters reference iterate
  let (checkers, iterate) ←
    liftExcept
      (TransformationCheckers.init E initialTransformationParameters iterate
        strategy.transformationCheckers)
  let iterate ← matcher.init reading reference iterate
  inspector.init
  pure
    { reading := reading
      reference := reference
      loop :=
        { iterate := iterate
          transformationParameters := inverse tref * initialTransformationParameters
          iterationCount := 0
          transformationCheckers := checkers
          corrections := []
          checked := [] } }

/-- What a call to `icp` that returns leaves: the transformation returned, the count given to
`inspector->finish`, the checkers of the strategy, and the two ghost lists of the loop. -/
structure IcpResult (Quaternion : Type) (k : Nat) where
  transformationParameters : TransformationParameters k
  iterationCount : Nat
  transformationCheckers : List (TransformationChecker Quaternion k)
  corrections : List (TransformationParameters k)
  checked : List (TransformationParameters k)

/-- The end of `icp`: `inspector->finish(iterationCount)` and
`return Tref * transformationParameters`. -/
def icpFinish (inspector : Inspector σ Quaternion k) (tref : TransformationParameters k)
    (st : LoopState Quaternion k) : StageM σ (IcpResult Quaternion k) := do
  inspector.finish st.iterationCount
  pure
    { transformationParameters := tref * st.transformationParameters
      iterationCount := st.iterationCount
      transformationCheckers := st.transformationCheckers
      corrections := st.corrections
      checked := st.checked }

/-- The function `icp` once the four `assert`s on the strategy have passed. The vector
`meanReading` and the matrix `Tread` are computed and never used; they are left out, which
is without effect for a reading with at least one point. -/
def icpRun (E : Eigen Quaternion) (fuel : Nat) (strategy : Strategy σ Quaternion k)
    (matcher : Matcher σ k) (descriptorOutlierFilter : DescriptorOutlierFilter σ k)
    (errorMinimizer : ErrorMinimizer σ k) (inspector : Inspector σ Quaternion k)
    (initialTransformationParameters : TransformationParameters k)
    (reading reference : DataPoints k) (s : σ) :
    Option (Except Exception (IcpResult Quaternion k × σ)) :=
  let tref := Tref reference
  match icpInit E strategy matcher inspector tref initialTransformationParameters reading
      (centredReference reference) s with
  | .error e => some (.error e)
  | .ok (i, s1) =>
    match icpLoop E strategy matcher descriptorOutlierFilter errorMinimizer inspector tref
        i.reading i.reference fuel i.loop s1 with
    | none => none
    | some (.error e) => some (.error e)
    | some (.ok (st, s2)) => some (icpFinish inspector tref st s2)

/-- `MetricSpaceAligner::icp`. With `fuel` the largest number of times the loop body may
run, the result is `none` when that is not enough, and otherwise what the call does: the
exception it ends with, or its result and the state it leaves the stages in. -/
def icp (E : Eigen Quaternion) (fuel : Nat)
    (initialTransformationParameters : TransformationParameters k)
    (reading reference : DataPoints k) (strategy : Strategy σ Quaternion k) (s : σ) :
    Option (Except Exception (IcpResult Quaternion k × σ)) :=
  match strategy.matcher with
  | none => some (.error (Exception.AssertionFailure "strategy.matcher"))
  | some matcher =>
    match strategy.descriptorOutlierFilter with
    | none => some (.error (Exception.AssertionFailure "strategy.descriptorOutlierFilter"))
    | some descriptorOutlierFilter =>
      match strategy.errorMinimizer with
      | none => some (.error (Exception.AssertionFailure "strategy.errorMinimizer"))
      | some errorMinimizer =>
        match strategy.inspector with
        | none => some (.error (Exception.AssertionFailure "strategy.inspector"))
        | some inspector =>
          icpRun E fuel strategy matcher descriptorOutlierFilter errorMinimizer inspector
            initialTransformationParameters reading reference s

end Driver

/-! ## A rational stand-in for Eigen -/

/-- A computable stand-in for Eigen over `ℚ`, used to run the checkers on concrete inputs:
a quaternion is kept as its rotation matrix, the entry `(1, 0)` (the sine of a rotation about
the last axis) stands for the angle and the 1-norm stands for the Euclidean norm. -/
def sampleEigen : Eigen (Matrix (Fin 3) (Fin 3) ℚ) where
  ofMatrix := fun m => m
  angularDistance := fun a b => Scalar.fin |a 1 0 - b 1 0|
  norm := fun _ v => Scalar.fin (∑ i, |v i|)

/-- A 3D transformation that differs from the identity by the entries `(1, 0) = s`,
`(0, 1) = -s` of its rotation block and by the first translation coordinate `t`. -/
def sampleTransformation (s t : ℚ) : TransformationParameters 1 :=
  !![1, -s, 0, t; s, 1, 0, 0; 0, 0, 1, 0; 0, 0, 0, 1]

/-! ## Sample stages

Stages that record the calls they receive, used to run the driver on concrete inputs. -/

/-- A call received by a sample stage. -/
inductive Call where
  | preFilter
  | stepFilter
  | transformation
  | matcherInit
  | findClosests
  | featureOutlierFilter
  | descriptorOutlierFilter
  | errorMinimizer
  | inspectorInit
  | dumpIteration (iterationCount : Nat)
  | finish (iterationCount : Nat)
deriving DecidableEq

/-- Record the call `c` and return `a`. -/
def logCall {α : Type} (c : Call) (a : α) : StageM (List Call) α :=
  fun s => .ok (a, s ++ [c])

/-- A filter that returns the cloud as it is and, when `clears` is set, clears `iterate`. -/
def sampleFilter (k : Nat) (clears : Bool) : DataPointsFilter (List Call) k where
  preFilter := fun cloud iterate => logCall Call.preFilter (cloud, iterate && !clears)
  stepFilter := fun cloud iterate => logCall Call.stepFilter (cloud, iterate && !clears)

/-- A matcher that finds no match and, when `clears` is set, clears `iterate` in `init`. -/
def sampleMatcher (k : Nat) (clears : Bool) : Matcher (List Call) k where
  init := fun _ _ iterate => logCall Call.matcherInit (iterate && !clears)
  findClosests := fun _ _ iterate =>
    logCall Call.findClosests
      ({ rows := 0, cols := 0, ids := fun i _ => i.elim0, dists := fun i _ => i.elim0 }, iterate)

/-- A descriptor-outlier filter that accepts every match. -/
def sampleDescriptorOutlierFilter (k : Nat) : DescriptorOutlierFilter (List Call) k where
  compute := fun _ _ _ iterate => logCall Call.descriptorOutlierFilter (fun _ _ => 1, iterate)

/-- An error minimizer that always returns `correction`. -/
def sampleErrorMinimizer {k : Nat} (correction : TransformationParameters k) :
    ErrorMinimizer (List Call) k where
  compute := fun _ _ _ _ iterate => logCall Call.errorMinimizer (correction, iterate)

/-- An inspector that records its calls. -/
def sampleInspector (Quaternion : Type) (k : Nat) : Inspector (List Call) Quaternion k where
  init := logCall Call.inspectorInit ()
  dumpIteration := fun iterationCount _ _ _ _ _ _ _ =>
    logCall (Call.dumpIteration iterationCount) ()
  finish := fun iterationCount => logCall (Call.finish iterationCount) ()

/-- A strategy made of the sample stages: the given filters on the reading, no filter on the
reference, no transformation, no feature-outlier filter. -/
def sampleStrategy {Quaternion : Type} {k : Nat}
    (readingDataPointsFilters : List (DataPointsFilter (List Call) k)) (matcherClears : Bool)
    (correction : TransformationParameters k)
    (transformationCheckers : List (TransformationChecker Quaternion k)) :
    Strategy (List Call) Quaternion k where
  readingDataPointsFilters := readingDataPointsFilters
  referenceDataPointsFilters := []
  transformations := []
  matcher := some (sampleMatcher k matcherClears)
  featureOutlierFilters := []
  descriptorOutlierFilter := some (sampleDescriptorOutlierFilter k)
  outlierMixingWeight := 1 / 2
  errorMinimizer := some (sampleErrorMinimizer correction)
  transformationCheckers := transformationCheckers
  inspector := some (sampleInspector Quaternion k)

/-- A cloud of one point, at the position `x` on the first axis, without descriptors. -/
def sampleCloud (k : Nat) (x : ℚ) : DataPoints k where
  nbPts := 1
  features := fun i _ => if i.val = 0 then x else if i.val = k + 2 then 1 else 0
  nbDescriptors := 0
  descriptors := fun i _ => i.elim0

/-- A 2D transformation: the identity rotation and the translation `(t, 0)`. -/
def sampleTransformation2D (t : ℚ) : TransformationParameters 0 :=
  !![1, 0, t; 0, 1, 0; 0, 0, 1]

/-- A feature-outlier filter that gives every match the weight `weight`. -/
def sampleFeatureOutlierFilter (k : Nat) (weight : ℚ) : FeatureOutlierFilter (List Call) k where
  compute := fun _ _ _ iterate => logCall Call.featureOutlierFilter (fun _ _ => weight, iterate)

/-- One match: the reference point `0` at distance `0`. -/
def sampleMatches : Matches where
  rows := 1
  cols := 1
  ids := fun _ _ => 0
  dists := fun _ _ => 0

/-- Two sample feature-outlier filters, each with the weights it returns. -/
def sampleWeightedFilters :
    List (FeatureOutlierFilter (List Call) 1 ×
      OutlierWeights sampleMatches.rows sampleMatches.cols) :=
  [(sampleFeatureOutlierFilter 1 (1 / 2), fun _ _ => 1 / 2),
   (sampleFeatureOutlierFilter 1 (1 / 3), fun _ _ => 1 / 3)]

/-! ## The averaging of the error checker, as specified -/

namespace ErrorTransformationChecker

variable {Quaternion : Type} {k : Nat}

/-- The control of the averaging loop alone: the values the index takes, in the order the body
runs on them, from the current index on; `none` when the index would wrap around below zero
(the body would run at index `0`). -/
def averagingIndices (lower : Nat) : Nat → Option (List Nat)
  | 0 => if lower ≤ 0 then none else some []
  | i + 1 =>
    if lower ≤ i + 1 then (averagingIndices lower i).map (fun l => (i + 1) :: l)
    else some []

/-- Follows the spec's words: the angular distance between `rotations[i]` and
`rotations[i-1]`. Indices outside the sequence give NaN; the claims only use indices inside. -/
def rotationStep (E : Eigen Quaternion) (rotations : List Quaternion) (i : Nat) : Scalar :=
  match rotations.get? i, rotations.get? (i - 1) with
  | some r, some rPrev => E.angularDistance r rPrev
  | _, _ => Scalar.nan

/-- Follows the spec's words: the norm of `translations[i] - translations[i-1]`. Indices
outside the sequence give NaN; the claims only use indices inside. -/
def translationStep (E : Eigen Quaternion) (translations : List (Fin (k + 2) → ℚ)) (i : Nat) :
    Scalar :=
  match translations.get? i, translations.get? (i - 1) with
  | some t, some tPrev => E.norm (k + 2) (t - tPrev)
  | _, _ => Scalar.nan

/-- Follows the spec's words: the term the pair `(i - 1, i)` contributes to each of the four
values: with absolute value for `values[0]` and `values[1]`, without for `values[2]` and
`values[3]`. -/
def stepTerm (E : Eigen Quaternion) (rotations : List Quaternion)
    (translations : List (Fin (k + 2) → ℚ)) (j : Fin 4) (i : Nat) : Scalar :=
  ![anyabs (rotationStep E rotations i), anyabs (translationStep E translations i),
    rotationStep E rotations i, translationStep E translations i] j

end ErrorTransformationChecker

/-! ## Specification predicates -/

/-- The list `cs` holds a counter, of a type with `digits` significand bits, whose stored
limit is `l` and that has counted `j` calls. -/
def HasCounter {Quaternion : Type} {k : Nat} (digits : Nat) (l : ℚ) (j : Nat)
    (cs : List (TransformationChecker Quaternion k)) : Prop :=
  ∃ c : CounterTransformationChecker, TransformationChecker.counter c ∈ cs ∧
    c.digits = digits ∧ c.values 0 = Scalar.fin (j : ℚ) ∧ c.limits 0 = Scalar.fin l

/-- The stages of a strategy cooperate: every call into a stage returns normally, and a stage
that is handed `iterate = true` by reference hands it back true. The data-points filters only
have to return: what they do to `iterate` is not asked. -/
structure Cooperative {σ Quaternion : Type} {k : Nat} (strategy : Strategy σ Quaternion k)
    (matcher : Matcher σ k) (descriptorOutlierFilter : DescriptorOutlierFilter σ k)
    (errorMinimizer : ErrorMinimizer σ k) (inspector : Inspector σ Quaternion k) : Prop where
  readingFilters : ∀ f ∈ strategy.readingDataPointsFilters, ∀ cloud iterate s,
    (∃ r s', f.preFilter cloud iterate s = .ok (r, s')) ∧
    (∃ r s', f.stepFilter cloud iterate s = .ok (r, s'))
  referenceFilters : ∀ f ∈ strategy.referenceDataPointsFilters, ∀ cloud iterate s,
    (∃ r s', f.preFilter cloud iterate s = .ok (r, s')) ∧
    (∃ r s', f.stepFilter cloud iterate s = .ok (r, s'))
  transformations : ∀ t ∈ strategy.transformations, ∀ cloud parameters s,
    ∃ r s', t.compute cloud parameters s = .ok (r, s')
  matcherInit : ∀ r q s, ∃ s', matcher.init r q true s = .ok (true, s')
  findClosests : ∀ r q s, ∃ m s', matcher.findClosests r q true s = .ok ((m, true), s')
  featureOutlierFilters : ∀ f ∈ strategy.featureOutlierFilters, ∀ r q input s,
    ∃ w s', f.compute r q input true s = .ok ((w, true), s')
  descriptorOutlierFilter : ∀ r q input s,
    ∃ w s', descriptorOutlierFilter.compute r q input true s = .ok ((w, true), s')
  errorMinimizer : ∀ r q input w s,
    ∃ correction s', errorMinimizer.compute r q input w true s = .ok ((correction, true), s')
  inspectorInit : ∀ s, ∃ s', inspector.init s = .ok ((), s')
  dumpIteration : ∀ n parameters q r input fw dw cs s,
    ∃ s', inspector.dumpIteration n parameters q r input fw dw cs s = .ok ((), s')
  finish : ∀ n s, ∃ s', inspector.finish n s = .ok ((), s')

/-- The bottom row of a homogeneous transformation is `(0, …, 0, 1)`. -/
def HomogeneousBottomRow {k : Nat} (M : TransformationParameters k) : Prop :=
  ∀ j, M (Fin.last (k + 2)) j = if j = Fin.last (k + 2) then 1 else 0

/-- What holds of the variables of the loop each time its condition is tested, `A` being the
first `transformationParameters`: the working transformation is `A` times the corrections
received so far, there is one correction per iteration, the checkers were handed, in the
iteration `i + 1`, `tref * A` times the first `i + 1` corrections, and every correction
satisfies `P`. -/
def LoopInvariant {Quaternion : Type} {k : Nat} (P : TransformationParameters k → Prop)
    (tref A : TransformationParameters k) (st : LoopState Quaternion k) : Prop :=
  st.transformationParameters = A * st.corrections.prod ∧
  st.iterationCount = st.corrections.length ∧
  st.checked = (List.range st.corrections.length).map
    (fun i => tref * (A * (st.corrections.take (i + 1)).prod)) ∧
  ∀ correction ∈ st.corrections, P correction

/-! ## The loop body in two parts -/

/-- Every weight of the matrix lies in `[0, 1]`. -/
def UnitWeights {rows cols : Nat} (w : OutlierWeights rows cols) : Prop :=
  ∀ i j, 0 ≤ w i j ∧ w i j ≤ 1

/-- What the loop body has computed when it reaches `inspector->dumpIteration`: the step
clouds, the matches, the three weight matrices and `iterate`. -/
structure Weighting (k : Nat) where
  stepReading : DataPoints k
  stepReference : DataPoints k
  matched : Matches
  featureOutlierWeights : OutlierWeights matched.rows matched.cols
  descriptorOutlierWeights : OutlierWeights matched.rows matched.cols
  outlierWeights : OutlierWeights matched.rows matched.cols
  iterate : Bool

/-- The first part of the loop body of `icp`, up to the mixing of the outlier weights: the
same calls as in `loopBody`, in the same order. -/
def weighting {σ Quaternion : Type} {k : Nat} (strategy : Strategy σ Quaternion k)
    (matcher : Matcher σ k) (descriptorOutlierFilter : DescriptorOutlierFilter σ k)
    (reading reference : DataPoints k) (st : LoopState Quaternion k) :
    StageM σ (Weighting k) := do
  let stepReading ←
    DataPointsFilters.applyStep strategy.readingDataPointsFilters reading st.iterate
  let stepReference ←
    DataPointsFilters.applyStep strategy.referenceDataPointsFilters reference st.iterate
  let stepReading ←
    Transformations.apply strategy.transformations stepReading st.transformationParameters
  let (matched, iterate) ← matcher.findClosests stepReading stepReference st.iterate
  let (featureOutlierWeights, iterate) ←
    FeatureOutlierFilters.compute strategy.featureOutlierFilters stepReading stepReference
      matched iterate
  let (descriptorOutlierWeights, iterate) ←
    descriptorOutlierFilter.compute stepReading stepReference matched iterate
  pure
    { stepReading := stepReading
      stepReference := stepReference
      matched := matched
      featureOutlierWeights := featureOutlierWeights
      descriptorOutlierWeights := descriptorOutlierWeights
      outlierWeights := fun i j =>
        featureOutlierWeights i j * strategy.outlierMixingWeight +
          descriptorOutlierWeights i j * (1 - strategy.outlierMixingWeight)
      iterate := iterate }

/-- The second part of the loop body of `icp`, from `inspector->dumpIteration` on: the
minimizer receives the mixed weights of the first part. -/
def minimizing {σ Quaternion : Type} {k : Nat} (E : Eigen Quaternion)
    (errorMinimizer : ErrorMinimizer σ k) (inspector : Inspector σ Quaternion k)
    (tref : TransformationParameters k) (st : LoopState Quaternion k) (w : Weighting k) :
    StageM σ (LoopState Quaternion k) := do
  inspector.dumpIteration st.iterationCount st.transformationParameters w.stepReference
    w.stepReading w.matched w.featureOutlierWeights w.descriptorOutlierWeights
    st.transformationCheckers
  let (correction, iterate) ←
    errorMinimizer.compute w.stepReading w.stepReference w.matched w.outlierWeights w.iterate
  let transformationParameters := st.transformationParameters * correction
  let (checkers, iterate) ←
    liftExcept
      (TransformationCheckers.check E (tref * transformationParameters) iterate
        st.transformationCheckers)
  pure
    { iterate := iterate
      transformationParameters := transformationParameters
      iterationCount := st.iterationCount + 1
      transformationCheckers := checkers
      corrections := st.corrections ++ [correction]
      checked := st.checked ++ [tref * transformationParameters] }

/-- The sample strategy with one feature-outlier filter of weight `1/2` and the counter of
limit 2 as its only checker. -/
def sampleWeightingStrategy : Strategy (List Call) (Matrix (Fin 3) (Fin 3) ℚ) 1 :=
  { sampleStrategy [] false 1
      [TransformationChecker.counter (CounterTransformationChecker.new 24 2)] with
    featureOutlierFilters := [sampleFeatureOutlierFilter 1 (1 / 2)] }

/-! ## The weights the feature-outlier filters return -/

namespace FeatureOutlierFilters

variable {σ : Type} {k : Nat}

/-- The weight matrices the filters of a list return during one call of
`FeatureOutlierFilters::compute`: the filters are called in registration order, each with the
value of `iterate` and the state of the stages that the one before left. -/
def returned (filteredReading filteredReference : DataPoints k) (input : Matches) :
    List (FeatureOutlierFilter σ k) → Bool →
      StageM σ (List (OutlierWeights input.rows input.cols) × Bool)
  | [], iterate => pure ([], iterate)
  | f :: rest, iterate => do
    let (w, iterate') ← f.compute filteredReading filteredReference input iterate
    let (ws, iterate'') ← returned filteredReading filteredReference input rest iterate'
    pure (w :: ws, iterate'')

end FeatureOutlierFilters

/-- A feature-outlier filter that gives every match the weight `1/2` and clears `iterate`. -/
def sampleClearingOutlierFilter (k : Nat) : FeatureOutlierFilter (List Call) k where
  compute := fun _ _ _ _ => logCall Call.featureOutlierFilter (fun _ _ => 1 / 2, false)

/-- A feature-outlier filter that reads `iterate`: every match gets the weight `1` while
`iterate` is set and the weight `1/3` once it is cleared. -/
def sampleIterateOutlierFilter (k : Nat) : FeatureOutlierFilter (List Call) k where
  compute := fun _ _ _ iterate =>
    logCall Call.featureOutlierFilter (fun _ _ => if iterate then 1 else 1 / 3, iterate)

/-! ## Theorems -/

theorem afterCalls_snoc {C P : Type} (init check : P → Bool → C → Except Exception (C × Bool))
    (c : C) (T0 : P) (iterate0 : Bool) (calls : List (P × Bool)) (call : P × Bool) :
    afterCalls init check c T0 iterate0 (calls ++ [call]) =
      match afterCalls init check c T0 iterate0 calls with
      | none => none
      | some c' =>
        match check call.1 call.2 c' with
        | .ok (c'', _) => some c''
        | .error _ => none := by
  simp [afterCalls, List.foldl_append]

/-! ### Rounding to the scalar type -/

theorem roundHalfEven_intCast (z : Int) : roundHalfEven (z : ℚ) = z := by
  simp [roundHalfEven]

theorem ulp_pos (digits : Nat) (x : ℚ) : 0 < ulp digits x := by
  unfold ulp; positivity

theorem roundTo_of_multiple (digits : Nat) (x : ℚ) (z : Int) (h : x / ulp digits x = z) :
    roundTo digits x = x := by
  unfold roundTo
  split
  · next h0 => exact h0.symm
  · rw [h, roundHalfEven_intCast, ← h]
    exact div_mul_cancel₀ _ (ulp_pos digits x).ne'

/-- Every natural number up to `2 ^ digits` is a value of the scalar type. -/
theorem roundTo_natCast (digits : Nat) (hd : 1 ≤ digits) (n : Nat) (hn : n ≤ 2 ^ digits) :
    roundTo digits (n : ℚ) = n := by
  rcases Nat.eq_zero_or_pos n with h0 | hpos
  · subst h0; simp [roundTo]
  have hlog : Nat.log 2 n ≤ digits := by
    calc Nat.log 2 n ≤ Nat.log 2 (2 ^ digits) := Nat.log_mono_right hn
      _ = digits := Nat.log_pow (by norm_num) _
  have hulp : ulp digits (n : ℚ) = (2 : ℚ) ^ ((Nat.log 2 n : Int) - (digits : Int) + 1) := by
    unfold ulp
    rw [abs_of_nonneg (by positivity), Int.log_natCast]
  rcases Nat.lt_or_ge (Nat.log 2 n) digits with hlt | hge
  · obtain ⟨d, hd'⟩ : ∃ d : Nat, digits = Nat.log 2 n + 1 + d :=
      ⟨digits - (Nat.log 2 n + 1), by omega⟩
    apply roundTo_of_multiple digits _ ((n * 2 ^ d : Nat) : Int)
    rw [hulp]
    have : ((Nat.log 2 n : Int) - (digits : Int) + 1) = -(d : Int) := by
      rw [hd']; push_cast; ring
    rw [this, zpow_neg, zpow_natCast]
    push_cast
    field_simp
  · have hl : Nat.log 2 n = digits := le_antisymm hlog hge
    have hn' : n = 2 ^ digits := by
      apply le_antisymm hn
      have := Nat.pow_log_le_self 2 hpos.ne'
      rwa [hl] at this
    obtain ⟨d, hd'⟩ : ∃ d : Nat, digits = d + 1 := ⟨digits - 1, by omega⟩
    apply roundTo_of_multiple digits _ ((2 ^ d : Nat) : Int)
    rw [hulp, hl, hn']
    have : ((digits : Int) - (digits : Int) + 1) = 1 := by ring
    rw [this, hd']
    push_cast
    rw [pow_succ]
    field_simp

theorem roundHalfEven_nonpos (m : ℚ) (h : m ≤ 0) : roundHalfEven m ≤ 0 := by
  have hf : ⌊m⌋ ≤ 0 := Int.floor_nonpos h
  unfold roundHalfEven
  split
  · exact hf
  · rcases hf.lt_or_eq with hlt | heq
    · split
      · omega
      · split <;> omega
    · have hm : 0 ≤ m := by
        have := Int.floor_le m
        rw [heq] at this
        simpa using this
      have hm0 : m = 0 := le_antisymm h hm
      subst hm0
      simp at *

/-- Rounding keeps a value that is not positive from becoming positive. -/
theorem roundTo_nonpos (digits : Nat) (x : ℚ) (h : x ≤ 0) : roundTo digits x ≤ 0 := by
  unfold roundTo
  split
  · exact le_refl _
  · apply mul_nonpos_of_nonpos_of_nonneg _ (ulp_pos digits x).le
    have : roundHalfEven (x / ulp digits x) ≤ 0 :=
      roundHalfEven_nonpos _ (div_nonpos_of_nonpos_of_nonneg h (ulp_pos digits x).le)
    exact_mod_cast this

/-- In `float`, `16777216 + 1` is `16777216`: the sum lies half-way between two values of
the type and the tie goes to the even significand. -/
theorem roundTo_float_succ : roundTo 24 (16777216 + 1) = 16777216 := by
  have hlog : Int.log 2 |((16777216 : ℚ) + 1)| = 24 := by
    have : ((16777216 : ℚ) + 1) = ((16777217 : Nat) : ℚ) := by norm_num
    rw [this, abs_of_nonneg (by positivity), Int.log_natCast]
    have : Nat.log 2 16777217 = 24 := by
      apply Nat.log_eq_of_pow_le_of_lt_pow <;> norm_num
    rw [this]; rfl
  have hulp : ulp 24 ((16777216 : ℚ) + 1) = 2 := by
    unfold ulp; rw [hlog]; norm_num
  have hfloor : ⌊((16777216 : ℚ) + 1) / 2⌋ = 8388608 := by
    rw [Int.floor_eq_iff]; constructor <;> norm_num
  unfold roundTo
  rw [if_neg (by norm_num), hulp]
  unfold roundHalfEven
  rw [hfloor]
  norm_num

/-- In `float`, `16777218` is a value of the type. -/
theorem roundTo_float_even : roundTo 24 16777218 = 16777218 := by
  have hlog : Int.log 2 |(16777218 : ℚ)| = 24 := by
    have : (16777218 : ℚ) = ((16777218 : Nat) : ℚ) := by norm_num
    rw [this, abs_of_nonneg (by positivity), Int.log_natCast]
    have : Nat.log 2 16777218 = 24 := by
      apply Nat.log_eq_of_pow_le_of_lt_pow <;> norm_num
    rw [this]; rfl
  apply roundTo_of_multiple 24 _ 8388609
  unfold ulp
  rw [hlog]
  norm_num

theorem Scalar.ofInt_eq (digits : Nat) (i : Int) :
    Scalar.ofInt digits i = Scalar.fin (roundTo digits (i : ℚ)) := rfl

/-- The `int` `16777217` is stored in a `float` as `16777216`. -/
theorem Scalar.ofInt_float_succ : Scalar.ofInt 24 16777217 = Scalar.fin 16777216 := by
  have h := roundTo_float_succ
  have e : (((16777217 : Int)) : ℚ) = 16777216 + 1 := by norm_num
  rw [Scalar.ofInt_eq, e, h]

/-- An `int` between `0` and `2 ^ digits` is converted without rounding. -/
theorem roundTo_intCast (digits : Nat) (hd : 1 ≤ digits) (N : Int) (h0 : 0 ≤ N)
    (hN : N ≤ 2 ^ digits) : roundTo digits (N : ℚ) = N := by
  obtain ⟨n, rfl⟩ := Int.eq_ofNat_of_zero_le h0
  have hn : n ≤ 2 ^ digits := by exact_mod_cast hN
  simpa using roundTo_natCast digits hd n hn

/-- For a limit of at most `2 ^ digits`, the stored limit is reached at the same counts as
the limit itself. -/
theorem roundTo_intCast_le_iff (digits : Nat) (hd : 1 ≤ digits) (N : Int)
    (hN : N ≤ 2 ^ digits) (m : Nat) :
    roundTo digits (N : ℚ) ≤ ((m + 1 : Nat) : ℚ) ↔ N ≤ (m : Int) + 1 := by
  rcases le_or_lt 0 N with h0 | hneg
  · rw [roundTo_intCast digits hd N h0 hN]
    exact_mod_cast Iff.rfl
  · have h1 : roundTo digits (N : ℚ) ≤ 0 :=
      roundTo_nonpos digits _ (by exact_mod_cast hneg.le)
    have h2 : (0 : ℚ) ≤ ((m + 1 : Nat) : ℚ) := by positivity
    constructor
    · intro _; omega
    · intro _; exact h1.trans h2

theorem Scalar.round_succ (digits : Nat) (hd : 1 ≤ digits) (j : Nat)
    (hj : j + 1 ≤ 2 ^ digits) :
    Scalar.round digits (Scalar.add (Scalar.fin (j : ℚ)) Scalar.one) =
      Scalar.fin ((j + 1 : Nat) : ℚ) := by
  have := roundTo_natCast digits hd (j + 1) hj
  simp only [Scalar.round, Scalar.add, Scalar.one]
  rw [← this]
  push_cast
  rfl

/-! ### The counter -/

/-- A counter built with a limit between `0` and `2 ^ digits` stores that limit. -/
theorem CounterTransformationChecker.new_limits (digits : Nat) (hd : 1 ≤ digits) (N : Int)
    (h0 : 0 ≤ N) (hN : N ≤ 2 ^ digits) :
    (CounterTransformationChecker.new digits N).limits 0 = Scalar.fin (N : ℚ) := by
  simp only [CounterTransformationChecker.new, Matrix.cons_val_zero, Scalar.ofInt_eq,
    roundTo_intCast digits hd N h0 hN]

theorem CounterTransformationChecker.afterCalls_eq {k : Nat} (c : CounterTransformationChecker)
    (hd : 1 ≤ c.digits) (T0 : TransformationParameters k) (iterate0 : Bool)
    (calls : List (TransformationParameters k × Bool)) (hlen : calls.length ≤ 2 ^ c.digits) :
    afterCalls init check c T0 iterate0 calls =
      some { digits := c.digits, values := ![Scalar.fin (calls.length : ℚ)],
             limits := c.limits } := by
  induction calls using List.reverseRecOn with
  | nil => simp [afterCalls, init, Scalar.zero]
  | append_singleton calls call ih =>
    have hlen' : calls.length + 1 ≤ 2 ^ c.digits := by simpa using hlen
    rw [afterCalls_snoc, ih (by omega)]
    simp only [check, Matrix.cons_val_zero, Scalar.round_succ c.digits hd calls.length hlen',
      List.length_append, List.length_singleton]

/-- C1 (as amended): for a counter of a scalar type with `digits ≥ 1` significand bits (24
for `float`, 53 for `double`), built with `maxIterationCount ≤ 2 ^ digits`, and for every
`k ≤ 2 ^ digits`: after `init`, whatever the parameters and the value of `iterate` given to
each call, the `k`-th call to `check` returns without raising, leaves `values(0) = k`, and
returns `iterate = false` when `k ≥ maxIterationCount` and the value `iterate` had on entry
otherwise. Here `k = calls.length + 1`, `calls` being the `k - 1` earlier calls. Moreover
`check` raises in no state at all. -/
theorem counter_kth_check {k : Nat} (digits : Nat) (hd : 1 ≤ digits) (maxIterationCount : Int)
    (hmax : maxIterationCount ≤ 2 ^ digits) (values0 : Fin 1 → Scalar)
    (T0 : TransformationParameters k) (iterate0 : Bool)
    (calls : List (TransformationParameters k × Bool))
    (hk : calls.length + 1 ≤ 2 ^ digits)
    (parameters : TransformationParameters k) (iterate : Bool) :
    (∃ c c',
      afterCalls CounterTransformationChecker.init CounterTransformationChecker.check
        { digits := digits, values := values0,
          limits := ![Scalar.ofInt digits maxIterationCount] } T0 iterate0 calls
        = some c ∧
      CounterTransformationChecker.check parameters iterate c
        = .ok (c', if maxIterationCount ≤ (calls.length + 1 : Int) then false else iterate) ∧
      c'.values 0 = Scalar.fin ((calls.length + 1 : Nat) : ℚ) ∧
      c'.limits 0 = Scalar.ofInt digits maxIterationCount) ∧
    ∀ c : CounterTransformationChecker,
      ∃ r, CounterTransformationChecker.check parameters iterate c = .ok r := by
  refine ⟨⟨_, { digits := digits, values := ![Scalar.fin ((calls.length + 1 : Nat) : ℚ)],
                limits := ![Scalar.ofInt digits maxIterationCount] },
    CounterTransformationChecker.afterCalls_eq _ hd T0 iterate0 calls (by simp only; omega),
    ?_, ?_, ?_⟩, fun c => ⟨_, rfl⟩⟩
  · have h := roundTo_intCast_le_iff digits hd maxIterationCount hmax calls.length
    simp only [CounterTransformationChecker.check, Matrix.cons_val_zero,
      Scalar.round_succ digits hd calls.length hk, Scalar.ofInt_eq, Scalar.ge, h, decide_eq_true_eq]
  · simp
  · simp

/-- C1, at an instance: a `float` counter of limit `3`, second call. -/
theorem counter_kth_check_witness :
    (1 : Nat) ≤ 24 ∧ (3 : Int) ≤ 2 ^ 24 ∧
    ((∃ c c',
      afterCalls CounterTransformationChecker.init CounterTransformationChecker.check
        { digits := 24, values := ![Scalar.nan],
          limits := ![Scalar.ofInt 24 3] } (1 : TransformationParameters 1) true
          [((1 : TransformationParameters 1), true)]
        = some c ∧
      CounterTransformationChecker.check (1 : TransformationParameters 1) true c
        = .ok (c', if (3 : Int) ≤ (([((1 : TransformationParameters 1), true)].length + 1 : Nat)
            : Int) then false else true) ∧
      c'.values 0 = Scalar.fin (([((1 : TransformationParameters 1), true)].length + 1 : Nat) : ℚ) ∧
      c'.limits 0 = Scalar.ofInt 24 3) ∧
    ∀ c : CounterTransformationChecker,
      ∃ r, CounterTransformationChecker.check (1 : TransformationParameters 1) true c = .ok r) :=
  ⟨by decide, by norm_num,
    counter_kth_check 24 (by decide) 3 (by norm_num) ![Scalar.nan] 1 true
      [((1 : TransformationParameters 1), true)] (by norm_num) 1 true⟩

/-- C1 as stated fails in the `float` instantiation, for the counter built with the limit
`16777217`, which is stored as `16777216`. The call number `16777216` clears `iterate`
although `16777216` is below the limit; and the call number `16777217` leaves
`values(0) = 16777216`, since `16777216 + 1` is not a `float`. -/
theorem counter_kth_check_counterexample :
    (∃ c c',
      afterCalls CounterTransformationChecker.init CounterTransformationChecker.check
        (CounterTransformationChecker.new 24 16777217) (1 : TransformationParameters 1) true
        (List.replicate 16777215 ((1 : TransformationParameters 1), true)) = some c ∧
      CounterTransformationChecker.check (1 : TransformationParameters 1) true c
        = .ok (c', false) ∧
      c'.values 0 = Scalar.fin 16777216 ∧ ¬ ((16777216 : Int) ≥ 16777217)) ∧
    (∃ c c',
      afterCalls CounterTransformationChecker.init CounterTransformationChecker.check
        (CounterTransformationChecker.new 24 16777217) (1 : TransformationParameters 1) true
        (List.replicate 16777216 ((1 : TransformationParameters 1), true)) = some c ∧
      CounterTransformationChecker.check (1 : TransformationParameters 1) true c
        = .ok (c', false) ∧
      c'.values 0 = Scalar.fin 16777216 ∧ c'.values 0 ≠ Scalar.fin 16777217) := by
  have hv : Scalar.round 24 (Scalar.add (Scalar.fin ((16777216 : Nat) : ℚ)) Scalar.one)
      = Scalar.fin 16777216 := by
    simp only [Scalar.round, Scalar.add, Scalar.one]
    have := roundTo_float_succ
    push_cast
    rw [this]
  have hv' : Scalar.round 24 (Scalar.add (Scalar.fin ((16777215 : Nat) : ℚ)) Scalar.one)
      = Scalar.fin 16777216 := by
    rw [Scalar.round_succ 24 (by decide) 16777215 (by norm_num)]
    norm_num
  constructor
  · have h := CounterTransformationChecker.afterCalls_eq
      (CounterTransformationChecker.new 24 16777217)
      (by decide) (1 : TransformationParameters 1) true
      (List.replicate 16777215 ((1 : TransformationParameters 1), true))
      (by rw [List.length_replicate]; norm_num [CounterTransformationChecker.new])
    rw [List.length_replicate] at h
    refine ⟨_, { digits := 24, values := ![Scalar.fin 16777216],
                 limits := ![Scalar.ofInt 24 16777217] }, h, ?_, ?_, ?_⟩
    · simp only [CounterTransformationChecker.check, CounterTransformationChecker.new,
        Matrix.cons_val_zero, hv', Scalar.ofInt_float_succ, Scalar.ge]
      norm_num
    · simp
    · norm_num
  · have h := CounterTransformationChecker.afterCalls_eq
      (CounterTransformationChecker.new 24 16777217)
      (by decide) (1 : TransformationParameters 1) true
      (List.replicate 16777216 ((1 : TransformationParameters 1), true))
      (by rw [List.length_replicate]; norm_num [CounterTransformationChecker.new])
    rw [List.length_replicate] at h
    refine ⟨_, { digits := 24, values := ![Scalar.fin 16777216],
                 limits := ![Scalar.ofInt 24 16777217] }, h, ?_, ?_, ?_⟩
    · simp only [CounterTransformationChecker.check, CounterTransformationChecker.new,
        Matrix.cons_val_zero, hv, Scalar.ofInt_float_succ, Scalar.ge]
      norm_num
    · simp
    · simp only [Matrix.cons_val_zero, ne_eq, Scalar.fin.injEq]
      norm_num

theorem cornerTopLeft3_sample (s t : ℚ) :
    cornerTopLeft3 (sampleTransformation s t) = !![1, -s, 0; s, 1, 0; 0, 0, 1] := by
  ext i j
  fin_cases i <;> fin_cases j <;> rfl

theorem cornerTopRight_sample (s t : ℚ) :
    cornerTopRight (sampleTransformation s t) = ![t, 0, 0] := by
  ext i
  fin_cases i <;> rfl

/-- A call whose returned `iterate` is known has returned normally. -/
theorem exists_ok_of_iterate {α : Type} (x : Except Exception (α × Bool)) (b : Bool)
    (h : (match x with
          | .ok r => some r.2
          | .error _ => none) = some b) : ∃ a, x = .ok (a, b) := by
  cases x with
  | error e => simp at h
  | ok r =>
    obtain ⟨a, b'⟩ := r
    simp only [Option.some.injEq] at h
    exact ⟨a, by rw [h]⟩

section DriverLemmas

variable {σ Quaternion : Type} {k : Nat}

theorem StageM.bind_eq_ok {α β : Type} (x : StageM σ α) (f : α → StageM σ β) (s : σ)
    (r : β × σ) :
    (x >>= f) s = .ok r ↔ ∃ a s', x s = .ok (a, s') ∧ f a s' = .ok r := by
  show (match x s with
        | .ok (a, s') => f a s'
        | .error e => .error e) = .ok r ↔ _
  cases h : x s with
  | error e => simp
  | ok p =>
    obtain ⟨a, s'⟩ := p
    constructor
    · intro hf
      exact ⟨a, s', rfl, hf⟩
    · rintro ⟨a', s'', hp, hf⟩
      simp only [Except.ok.injEq, Prod.mk.injEq] at hp
      obtain ⟨rfl, rfl⟩ := hp
      exact hf

theorem StageM.pure_apply {α : Type} (a : α) (s : σ) :
    (pure a : StageM σ α) s = .ok (a, s) := rfl

theorem liftExcept_eq_ok {α : Type} (x : Except Exception α) (s : σ) (r : α × σ) :
    liftExcept x s = .ok r ↔ x = .ok r.1 ∧ r.2 = s := by
  obtain ⟨a, s'⟩ := r
  cases x with
  | error e => simp [liftExcept]
  | ok a' => simp [liftExcept, eq_comm]

theorem loopBody_ok (E : Eigen Quaternion) (strategy : Strategy σ Quaternion k)
    (matcher : Matcher σ k) (descriptorOutlierFilter : DescriptorOutlierFilter σ k)
    (errorMinimizer : ErrorMinimizer σ k) (inspector : Inspector σ Quaternion k)
    (tref : TransformationParameters k) (reading reference : DataPoints k)
    (st st' : LoopState Quaternion k) (s s' : σ)
    (h : loopBody E strategy matcher descriptorOutlierFilter errorMinimizer inspector tref
      reading reference st s = .ok (st', s')) :
    ∃ correction iterate,
      TransformationCheckers.check E (tref * (st.transformationParameters * correction))
        iterate st.transformationCheckers = .ok (st'.transformationCheckers, st'.iterate) ∧
      st'.transformationParameters = st.transformationParameters * correction ∧
      st'.iterationCount = st.iterationCount + 1 ∧
      st'.corrections = st.corrections ++ [correction] ∧
      st'.checked = st.checked ++ [tref * (st.transformationParameters * correction)] ∧
      ∃ r q input w it0 s0 s0',
        errorMinimizer.compute r q input w it0 s0 = .ok ((correction, iterate), s0') := by
  unfold loopBody at h
  simp only [StageM.bind_eq_ok, StageM.pure_apply, liftExcept_eq_ok] at h
  obtain ⟨_, _, _, _, _, _, _, _, _, ⟨matched, it1⟩, _, _, ⟨fw, it2⟩, _, _, ⟨dw, it3⟩, _, _,
    _, _, _, ⟨correction, it4⟩, _, hem, ⟨checkers, it5⟩, _, ⟨hc, _⟩, hst⟩ := h
  simp only [Except.ok.injEq, Prod.mk.injEq] at hst
  obtain ⟨hst, _⟩ := hst
  subst hst
  exact ⟨correction, it4, hc, rfl, rfl, rfl, rfl, _, _, _, _, _, _, _, hem⟩

end DriverLemmas

theorem bound_iterate_eq {Quaternion : Type} {k : Nat} (E : Eigen Quaternion)
    (parameters : TransformationParameters k) (iterate : Bool)
    (c c' : BoundTransformationChecker Quaternion k) (iterate' : Bool)
    (h : BoundTransformationChecker.init E parameters iterate c = .ok (c', iterate') ∨
         BoundTransformationChecker.check E parameters iterate c = .ok (c', iterate')) :
    iterate' = iterate := by
  rcases h with h | h
  · unfold BoundTransformationChecker.init at h
    split at h
    · simp only [Except.ok.injEq, Prod.mk.injEq] at h
      exact h.2.symm
    · simp at h
  · unfold BoundTransformationChecker.check at h
    simp only at h
    split at h
    · simp at h
    · simp only [Except.ok.injEq, Prod.mk.injEq] at h
      exact h.2.symm

/-- C4: whatever the state, the transformation and the value of `iterate` on entry, when
`init` or `check` of the bound checker returns without raising, the value of `iterate` it
returns is the one it was given. -/
theorem bound_never_changes_iterate {Quaternion : Type} {k : Nat} (E : Eigen Quaternion)
    (parameters : TransformationParameters k) (iterate : Bool)
    (c c' : BoundTransformationChecker Quaternion k) (iterate' : Bool)
    (h : BoundTransformationChecker.init E parameters iterate c = .ok (c', iterate') ∨
         BoundTransformationChecker.check E parameters iterate c = .ok (c', iterate')) :
    iterate' = iterate := by
  rcases h with h | h
  · unfold BoundTransformationChecker.init at h
    split at h
    · simp only [Except.ok.injEq, Prod.mk.injEq] at h
      exact h.2.symm
    · simp at h
  · unfold BoundTransformationChecker.check at h
    simp only at h
    split at h
    · simp at h
    · simp only [Except.ok.injEq, Prod.mk.injEq] at h
      exact h.2.symm

/-- Witness of C4: a check of a bound checker that returns, with `iterate` unchanged. -/
theorem bound_never_changes_iterate_witness :
    BoundTransformationChecker.check sampleEigen (sampleTransformation 0 0) false
        { values := ![Scalar.zero, Scalar.zero]
          limits := ![Scalar.fin 1, Scalar.fin 1]
          initialRotation := 1
          initialTranslation := 0 }
      = .ok ({ values := ![Scalar.zero, Scalar.zero]
               limits := ![Scalar.fin 1, Scalar.fin 1]
               initialRotation := 1
               initialTranslation := 0 }, false) ∧
    false = false :=
  have h : BoundTransformationChecker.check sampleEigen (sampleTransformation 0 0) false
        { values := ![Scalar.zero, Scalar.zero]
          limits := ![Scalar.fin 1, Scalar.fin 1]
          initialRotation := 1
          initialTranslation := 0 }
      = .ok ({ values := ![Scalar.zero, Scalar.zero]
               limits := ![Scalar.fin 1, Scalar.fin 1]
               initialRotation := 1
               initialTranslation := 0 }, false) := by
    simp [BoundTransformationChecker.check, sampleEigen, cornerTopLeft3_sample,
      cornerTopRight_sample, Scalar.gt, Scalar.lt, Scalar.zero, Fin.sum_univ_succ]
  ⟨h, bound_never_changes_iterate sampleEigen _ false _ _ false (Or.inr h)⟩

theorem ErrorTransformationChecker.measure_fields {Quaternion : Type} {k : Nat}
    (E : Eigen Quaternion) (parameters : TransformationParameters k)
    (c c' : ErrorTransformationChecker Quaternion k) (h : measure E parameters c = some c') :
    c'.rotations.length = c.rotations.length + 1 ∧
    c'.translations.length = c.translations.length + 1 ∧
    c'.limits = c.limits ∧ c'.tail = c.tail := by
  unfold measure at h
  simp only at h
  split at h
  · split at h
    · simp only [Option.some.injEq] at h
      subst h
      simp
    · simp at h
  · simp only [Option.some.injEq] at h
    subst h
    simp

theorem ErrorTransformationChecker.check_ok {Quaternion : Type} {k : Nat}
    (E : Eigen Quaternion) (parameters : TransformationParameters k) (iterate iterate' : Bool)
    (c c' : ErrorTransformationChecker Quaternion k)
    (h : check E parameters iterate c = .ok (c', iterate')) :
    measure E parameters c = some c' ∧
    iterate' =
      if c'.rotations.length > c'.tail ∧ Scalar.lt (c'.values 0) (c'.limits 0) = true ∧
          Scalar.lt (c'.values 1) (c'.limits 1) = true
      then false else iterate := by
  unfold check at h
  split at h
  · simp at h
  · rename_i c'' hm
    simp only at h
    split at h
    · simp at h
    · split at h
      · simp at h
      · split at h
        · simp at h
        · simp only [Except.ok.injEq, Prod.mk.injEq] at h
          obtain ⟨h1, h2⟩ := h
          subst h1
          refine ⟨hm, ?_⟩
          rw [← h2]
          by_cases hl : c''.rotations.length > c''.tail
          · simp [hl]
          · simp [hl]

theorem ErrorTransformationChecker.afterCalls_fields {Quaternion : Type} {k : Nat}
    (E : Eigen Quaternion) (c0 : ErrorTransformationChecker Quaternion k)
    (T0 : TransformationParameters k) (iterate0 : Bool)
    (calls : List (TransformationParameters k × Bool)) :
    ∀ c, afterCalls (init E) (check E) c0 T0 iterate0 calls = some c →
      c.rotations.length = calls.length + 1 ∧ c.translations.length = calls.length + 1 ∧
      c.limits = c0.limits ∧ c.tail = c0.tail := by
  induction calls using List.reverseRecOn with
  | nil =>
    intro c h
    simp only [afterCalls, init, List.foldl_nil, Option.some.injEq] at h
    subst h
    simp
  | append_singleton calls call ih =>
    intro c h
    rw [afterCalls_snoc] at h
    split at h
    · simp at h
    · rename_i cPrev hPrev
      split at h
      · rename_i cNext itNext hcheck
        simp only [Option.some.injEq] at h
        subst h
        obtain ⟨hm, _⟩ := check_ok E _ _ _ _ _ hcheck
        obtain ⟨h1, h2, h3, h4⟩ := measure_fields E _ _ _ hm
        obtain ⟨i1, i2, i3, i4⟩ := ih cPrev hPrev
        simp only [List.length_append, List.length_singleton]
        exact ⟨by omega, by omega, h3.trans i3, h4.trans i4⟩
      · simp at h

/-- C10: after `init` and `k - 1` earlier calls that did not raise, when the `k`-th call to
`check` of an error checker built with `minDeltaRotErr`, `minDeltaTransErr`, `tail` does not
raise, the sequences hold `k + 1` entries, which is more than `tail` exactly when `k ≥ tail`,
and the returned `iterate` is `false` when `k ≥ tail`, `values(0) < minDeltaRotErr` and
`values(1) < minDeltaTransErr`, and the value it had on entry in every other case. Here
`k = calls.length + 1`. -/
theorem error_kth_check {Quaternion : Type} {k : Nat} (E : Eigen Quaternion)
    (minDeltaRotErr minDeltaTransErr : Scalar) (tail : Nat)
    (values0 : Fin 4 → Scalar) (rotations0 : List Quaternion)
    (translations0 : List (Fin (k + 2) → ℚ))
    (T0 : TransformationParameters k) (iterate0 : Bool)
    (calls : List (TransformationParameters k × Bool))
    (parameters : TransformationParameters k) (iterate iterate' : Bool)
    (c c' : ErrorTransformationChecker Quaternion k)
    (hcalls : afterCalls (ErrorTransformationChecker.init E) (ErrorTransformationChecker.check E)
        { values := values0
          limits := ![minDeltaRotErr, minDeltaTransErr, Scalar.neg minDeltaRotErr,
                      Scalar.neg minDeltaTransErr]
          rotations := rotations0
          translations := translations0
          tail := tail } T0 iterate0 calls = some c)
    (hcheck : ErrorTransformationChecker.check E parameters iterate c = .ok (c', iterate')) :
    c'.rotations.length = calls.length + 2 ∧
    c'.translations.length = calls.length + 2 ∧
    (c'.rotations.length > tail ↔ tail ≤ calls.length + 1) ∧
    iterate' =
      if tail ≤ calls.length + 1 ∧ Scalar.lt (c'.values 0) minDeltaRotErr = true ∧
          Scalar.lt (c'.values 1) minDeltaTransErr = true
      then false else iterate := by
  obtain ⟨i1, i2, i3, i4⟩ := ErrorTransformationChecker.afterCalls_fields E _ T0 iterate0 calls c hcalls
  obtain ⟨hm, hit⟩ := ErrorTransformationChecker.check_ok E _ _ _ _ _ hcheck
  obtain ⟨h1, h2, h3, h4⟩ := ErrorTransformationChecker.measure_fields E _ _ _ hm
  have hlen : c'.rotations.length = calls.length + 2 := by omega
  have htail : c'.tail = tail := h4.trans i4
  have hlim : c'.limits = ![minDeltaRotErr, minDeltaTransErr, Scalar.neg minDeltaRotErr,
      Scalar.neg minDeltaTransErr] := h3.trans i3
  refine ⟨hlen, by omega, by omega, ?_⟩
  rw [hit, hlim, htail, hlen]
  have : (calls.length + 2 > tail) = (tail ≤ calls.length + 1) := by
    apply propext
    omega
  simp only [Matrix.cons_val_zero, Matrix.cons_val_one, Matrix.head_cons, this]

/-- Witness of C10: with `tail = 1` and both thresholds `1`, the first check after `init`
on a transformation at distance `0.5` returns and clears `iterate`. -/
theorem error_kth_check_witness :
    ∃ c c',
      afterCalls (ErrorTransformationChecker.init sampleEigen)
        (ErrorTransformationChecker.check sampleEigen)
        { values := ![Scalar.zero, Scalar.zero, Scalar.zero, Scalar.zero]
          limits := ![Scalar.fin 1, Scalar.fin 1, Scalar.neg (Scalar.fin 1),
                      Scalar.neg (Scalar.fin 1)]
          rotations := []
          translations := []
          tail := 1 } (sampleTransformation 0 0) true [] = some c ∧
      ErrorTransformationChecker.check sampleEigen (sampleTransformation (1 / 2) 0) true c
        = .ok (c', false) ∧
      c'.rotations.length = 2 ∧
      (c'.rotations.length > 1 ↔ 1 ≤ 1) := by
  obtain ⟨c', hc'⟩ := exists_ok_of_iterate
    (ErrorTransformationChecker.check sampleEigen (sampleTransformation (1 / 2) 0) true
      { values := ![Scalar.zero, Scalar.zero, Scalar.zero, Scalar.zero]
        limits := ![Scalar.fin 1, Scalar.fin 1, Scalar.neg (Scalar.fin 1),
                    Scalar.neg (Scalar.fin 1)]
        rotations := [sampleEigen.ofMatrix (cornerTopLeft3 (sampleTransformation 0 0))]
        translations := [cornerTopRight (sampleTransformation 0 0)]
        tail := 1 }) false
    (by
      have habs : |(2 : ℚ)⁻¹| = 2⁻¹ := abs_of_pos (by norm_num)
      have h1 : ¬ ((2 : ℚ)⁻¹ < -1) := by norm_num
      have h2 : (2 : ℚ)⁻¹ < 1 := by norm_num
      simp [ErrorTransformationChecker.check, ErrorTransformationChecker.measure,
        ErrorTransformationChecker.averagingLoop, ErrorTransformationChecker.averagingStep,
        sampleEigen, cornerTopLeft3_sample, cornerTopRight_sample, Scalar.lt, Scalar.zero,
        Scalar.add, Scalar.divNat, Scalar.isnan, Scalar.neg, anyabs, Fin.sum_univ_succ,
        habs, h1, h2])
  have h := error_kth_check sampleEigen (Scalar.fin 1) (Scalar.fin 1) 1
    ![Scalar.zero, Scalar.zero, Scalar.zero, Scalar.zero] [] [] (sampleTransformation 0 0) true []
    (sampleTransformation (1 / 2) 0) true false _ c' rfl hc'
  exact ⟨_, c', rfl, hc', h.1, h.2.2.1⟩

section CheckerLemmas

variable {Quaternion : Type} {k : Nat}

/-- No checker turns `iterate` back on: a `check` entered with `iterate = false` returns
`false`. -/
theorem TransformationChecker.check_false (E : Eigen Quaternion)
    (parameters : TransformationParameters k) (c c' : TransformationChecker Quaternion k)
    (iterate' : Bool) (h : check E parameters false c = .ok (c', iterate')) :
    iterate' = false := by
  cases c with
  | counter c =>
    simp only [check, CounterTransformationChecker.check, ite_self, Except.ok.injEq,
      Prod.mk.injEq] at h
    exact h.2.symm
  | error c =>
    simp only [check] at h
    split at h
    · rename_i c'' it hc
      simp only [Except.ok.injEq, Prod.mk.injEq] at h
      have := (ErrorTransformationChecker.check_ok E _ _ _ _ _ hc).2
      rw [← h.2, this]
      simp
    · simp at h
  | bound c =>
    simp only [check] at h
    split at h
    · rename_i c'' it hc
      simp only [Except.ok.injEq, Prod.mk.injEq] at h
      rw [← h.2]
      exact bound_iterate_eq E parameters false c c'' it (Or.inr hc)
    · simp at h

theorem TransformationCheckers.check_all_false (E : Eigen Quaternion)
    (parameters : TransformationParameters k) (cs : List (TransformationChecker Quaternion k)) :
    ∀ cs' iterate', check E parameters false cs = .ok (cs', iterate') → iterate' = false := by
  induction cs with
  | nil =>
    intro cs' iterate' h
    simp only [check, Except.ok.injEq, Prod.mk.injEq] at h
    exact h.2.symm
  | cons c rest ih =>
    intro cs' iterate' h
    simp only [check] at h
    split at h
    · simp at h
    · rename_i c' it1 hc
      have := TransformationChecker.check_false E parameters c c' it1 hc
      subst this
      split at h
      · simp at h
      · rename_i rest' it2 hrest
        simp only [Except.ok.injEq, Prod.mk.injEq] at h
        rw [← h.2]
        exact ih rest' it2 hrest

end CheckerLemmas

section CounterInList

variable {σ Quaternion : Type} {k : Nat}

theorem CounterTransformationChecker.check_counts (parameters : TransformationParameters k)
    (iterate : Bool) (c : CounterTransformationChecker) (l : ℚ) (j : Nat)
    (hd : 1 ≤ c.digits) (hj : j + 1 ≤ 2 ^ c.digits)
    (hv : c.values 0 = Scalar.fin (j : ℚ)) (hl : c.limits 0 = Scalar.fin l) :
    ∃ c', check parameters iterate c
        = .ok (c', if l ≤ ((j + 1 : Nat) : ℚ) then false else iterate) ∧
      c'.digits = c.digits ∧
      c'.values 0 = Scalar.fin ((j + 1 : Nat) : ℚ) ∧ c'.limits 0 = Scalar.fin l := by
  refine ⟨{ c with values := ![Scalar.fin ((j + 1 : Nat) : ℚ)] }, ?_, rfl, ?_, hl⟩
  · simp only [check, hv, hl, Matrix.cons_val_zero, Scalar.round_succ c.digits hd j hj,
      Scalar.ge, decide_eq_true_eq]
  · simp

theorem TransformationCheckers.init_hasCounter (E : Eigen Quaternion)
    (parameters : TransformationParameters k) (l : ℚ) (c : CounterTransformationChecker)
    (hl : c.limits 0 = Scalar.fin l) (cs : List (TransformationChecker Quaternion k)) :
    ∀ iterate cs' iterate', TransformationChecker.counter c ∈ cs →
      init E parameters iterate cs = .ok (cs', iterate') → HasCounter c.digits l 0 cs' := by
  induction cs with
  | nil => intro _ _ _ hmem; simp at hmem
  | cons c0 rest ih =>
    intro iterate cs' iterate' hmem h
    simp only [init] at h
    split at h
    · simp at h
    · rename_i c0' it1 hc0
      split at h
      · simp at h
      · rename_i rest' it2 hrest
        simp only [Except.ok.injEq, Prod.mk.injEq] at h
        obtain ⟨rfl, _⟩ := h
        rcases List.mem_cons.mp hmem with heq | hin
        · subst heq
          simp only [TransformationChecker.init, CounterTransformationChecker.init,
            Except.ok.injEq, Prod.mk.injEq] at hc0
          refine ⟨{ c with values := ![Scalar.zero] }, ?_, rfl, ?_, hl⟩
          · rw [← hc0.1]; exact List.mem_cons_self _ _
          · simp [Scalar.zero]
        · obtain ⟨c1, h1, h2, h3, h4⟩ := ih it1 rest' it2 hin hrest
          exact ⟨c1, List.mem_cons_of_mem _ h1, h2, h3, h4⟩

theorem TransformationCheckers.check_hasCounter (E : Eigen Quaternion)
    (parameters : TransformationParameters k) (digits : Nat) (hd : 1 ≤ digits) (l : ℚ)
    (j : Nat) (hj : j + 1 ≤ 2 ^ digits)
    (cs : List (TransformationChecker Quaternion k)) :
    ∀ iterate cs' iterate', HasCounter digits l j cs →
      check E parameters iterate cs = .ok (cs', iterate') →
      HasCounter digits l (j + 1) cs' ∧ (l ≤ ((j + 1 : Nat) : ℚ) → iterate' = false) := by
  induction cs with
  | nil =>
    intro _ _ _ hc
    obtain ⟨c, hmem, _⟩ := hc
    simp at hmem
  | cons c0 rest ih =>
    intro iterate cs' iterate' hc h
    simp only [check] at h
    split at h
    · simp at h
    · rename_i c0' it1 hc0
      split at h
      · simp at h
      · rename_i rest' it2 hrest
        simp only [Except.ok.injEq, Prod.mk.injEq] at h
        obtain ⟨rfl, rfl⟩ := h
        obtain ⟨c, hmem, hdig, hv, hl⟩ := hc
        rcases List.mem_cons.mp hmem with heq | hin
        · subst heq
          obtain ⟨c', hcheck, hdig', hv', hl'⟩ :=
            CounterTransformationChecker.check_counts parameters iterate c l j
              (by rw [hdig]; exact hd) (by rw [hdig]; exact hj) hv hl
          simp only [TransformationChecker.check, hcheck, Except.ok.injEq, Prod.mk.injEq] at hc0
          obtain ⟨rfl, rfl⟩ := hc0
          refine ⟨⟨c', List.mem_cons_self _ _, hdig'.trans hdig, hv', hl'⟩, ?_⟩
          intro hN
          rw [if_pos hN] at hrest
          exact check_all_false E parameters rest rest' it2 hrest
        · obtain ⟨⟨c1, h1, h2, h3, h4⟩, hit⟩ :=
            ih it1 rest' it2 ⟨c, hin, hdig, hv, hl⟩ hrest
          exact ⟨⟨c1, List.mem_cons_of_mem _ h1, h2, h3, h4⟩, hit⟩

/-- The loop stops before the counter passes `M`, a count of at most `2 ^ digits` at which
the stored limit `l` is reached: from a state where a counter of stored limit `l` has counted
the `j` iterations made so far, enough fuel gives a result, and the count at the end of the
loop is at most `M`. -/
theorem icpLoop_counter_bound (E : Eigen Quaternion) (strategy : Strategy σ Quaternion k)
    (matcher : Matcher σ k) (descriptorOutlierFilter : DescriptorOutlierFilter σ k)
    (errorMinimizer : ErrorMinimizer σ k) (inspector : Inspector σ Quaternion k)
    (tref : TransformationParameters k) (reading reference : DataPoints k)
    (digits : Nat) (hd : 1 ≤ digits) (l : ℚ) (M : Nat) (hM : M ≤ 2 ^ digits)
    (hlM : l ≤ (M : ℚ)) :
    ∀ (fuel : Nat) (st : LoopState Quaternion k) (s : σ),
      HasCounter digits l st.iterationCount st.transformationCheckers →
      st.iterationCount ≤ M →
      (st.iterate = true → st.iterationCount < M) →
      M ≤ st.iterationCount + fuel →
      icpLoop E strategy matcher descriptorOutlierFilter errorMinimizer inspector tref reading
          reference fuel st s ≠ none ∧
      ∀ st' s', icpLoop E strategy matcher descriptorOutlierFilter errorMinimizer inspector tref
          reading reference fuel st s = some (.ok (st', s')) →
        st'.iterationCount ≤ M := by
  intro fuel
  induction fuel with
  | zero =>
    intro st s _ hle hlt hfuel
    cases hit : st.iterate with
    | true => have := hlt hit; omega
    | false =>
      simp only [icpLoop, hit, Bool.false_eq_true, ↓reduceIte, ne_eq, not_false_eq_true,
        Option.some.injEq, Except.ok.injEq, Prod.mk.injEq, true_and, reduceCtorEq]
      rintro st' s' ⟨rfl, _⟩
      exact hle
  | succ fuel ih =>
    intro st s hc hle hlt hfuel
    cases hit : st.iterate with
    | false =>
      simp only [icpLoop, hit, Bool.false_eq_true, ↓reduceIte, ne_eq, not_false_eq_true,
        Option.some.injEq, Except.ok.injEq, Prod.mk.injEq, true_and, reduceCtorEq]
      rintro st' s' ⟨rfl, _⟩
      exact hle
    | true =>
      have hj := hlt hit
      simp only [icpLoop, hit, ↓reduceIte]
      cases hb : loopBody E strategy matcher descriptorOutlierFilter errorMinimizer inspector
          tref reading reference st s with
      | error e => simp
      | ok p =>
        obtain ⟨st1, s1⟩ := p
        obtain ⟨correction, it, hcheck, _, hcount, _, _⟩ :=
          loopBody_ok E strategy matcher descriptorOutlierFilter errorMinimizer inspector tref
            reading reference st st1 s s1 hb
        obtain ⟨hc1, hstop⟩ :=
          TransformationCheckers.check_hasCounter E _ digits hd l st.iterationCount (by omega)
            _ _ _ _ hc hcheck
        simp only
        apply ih st1 s1
        · rw [hcount]; exact hc1
        · omega
        · intro hit1
          rw [hcount]
          by_contra hnot
          have hN : l ≤ ((st.iterationCount + 1 : Nat) : ℚ) := by
            have : M ≤ st.iterationCount + 1 := by omega
            have h2 : (M : ℚ) ≤ ((st.iterationCount + 1 : Nat) : ℚ) := by exact_mod_cast this
            exact hlM.trans h2
          rw [hstop hN] at hit1
          simp at hit1
        · omega

end CounterInList

section DriverRun

variable {σ Quaternion : Type} {k : Nat}

theorem icpInit_ok (E : Eigen Quaternion) (strategy : Strategy σ Quaternion k)
    (matcher : Matcher σ k) (inspector : Inspector σ Quaternion k)
    (tref T0 : TransformationParameters k) (reading reference : DataPoints k) (s s1 : σ)
    (i : InitState Quaternion k)
    (h : icpInit E strategy matcher inspector tref T0 reading reference s = .ok (i, s1)) :
    (∃ iterate, TransformationCheckers.init E T0 true strategy.transformationCheckers
        = .ok (i.loop.transformationCheckers, iterate)) ∧
    i.loop.transformationParameters = inverse tref * T0 ∧
    i.loop.iterationCount = 0 ∧ i.loop.corrections = [] ∧ i.loop.checked = [] := by
  unfold icpInit at h
  simp only [StageM.bind_eq_ok, StageM.pure_apply, liftExcept_eq_ok] at h
  obtain ⟨_, _, _, _, _, _, ⟨checkers, it1⟩, _, ⟨hc, _⟩, _, _, _, _, _, _, hst⟩ := h
  simp only [Except.ok.injEq, Prod.mk.injEq] at hst
  obtain ⟨hst, _⟩ := hst
  subst hst
  exact ⟨⟨it1, hc⟩, rfl, rfl, rfl, rfl⟩

theorem icpFinish_ok (inspector : Inspector σ Quaternion k) (tref : TransformationParameters k)
    (st : LoopState Quaternion k) (s s' : σ) (r : IcpResult Quaternion k)
    (h : icpFinish inspector tref st s = .ok (r, s')) :
    inspector.finish st.iterationCount s = .ok ((), s') ∧
    r = { transformationParameters := tref * st.transformationParameters
          iterationCount := st.iterationCount
          transformationCheckers := st.transformationCheckers
          corrections := st.corrections
          checked := st.checked } := by
  unfold icpFinish at h
  simp only [StageM.bind_eq_ok, StageM.pure_apply] at h
  obtain ⟨_, s2, hf, hst⟩ := h
  simp only [Except.ok.injEq, Prod.mk.injEq] at hst
  obtain ⟨rfl, rfl⟩ := hst
  exact ⟨hf, rfl⟩

theorem icpRun_ok (E : Eigen Quaternion) (fuel : Nat) (strategy : Strategy σ Quaternion k)
    (matcher : Matcher σ k) (descriptorOutlierFilter : DescriptorOutlierFilter σ k)
    (errorMinimizer : ErrorMinimizer σ k) (inspector : Inspector σ Quaternion k)
    (T0 : TransformationParameters k) (reading reference : DataPoints k) (s s' : σ)
    (r : IcpResult Quaternion k)
    (h : icpRun E fuel strategy matcher descriptorOutlierFilter errorMinimizer inspector T0
      reading reference s = some (.ok (r, s'))) :
    ∃ i s1 st s2,
      icpInit E strategy matcher inspector (Tref reference) T0 reading
        (centredReference reference) s = .ok (i, s1) ∧
      icpLoop E strategy matcher descriptorOutlierFilter errorMinimizer inspector
        (Tref reference) i.reading i.reference fuel i.loop s1 = some (.ok (st, s2)) ∧
      icpFinish inspector (Tref reference) st s2 = .ok (r, s') := by
  unfold icpRun at h
  simp only at h
  split at h
  · simp at h
  · rename_i i s1 hinit
    split at h
    · simp at h
    · simp at h
    · rename_i st s2 hloop
      simp only [Option.some.injEq] at h
      exact ⟨i, s1, st, s2, hinit, hloop, h⟩

theorem icp_eq_icpRun (E : Eigen Quaternion) (fuel : Nat) (strategy : Strategy σ Quaternion k)
    (matcher : Matcher σ k) (descriptorOutlierFilter : DescriptorOutlierFilter σ k)
    (errorMinimizer : ErrorMinimizer σ k) (inspector : Inspector σ Quaternion k)
    (hm : strategy.matcher = some matcher)
    (hd : strategy.descriptorOutlierFilter = some descriptorOutlierFilter)
    (he : strategy.errorMinimizer = some errorMinimizer)
    (hi : strategy.inspector = some inspector)
    (T0 : TransformationParameters k) (reading reference : DataPoints k) (s : σ) :
    icp E fuel T0 reading reference strategy s =
      icpRun E fuel strategy matcher descriptorOutlierFilter errorMinimizer inspector T0
        reading reference s := by
  simp only [icp, hm, hd, he, hi]

/-- Either an `assert` on the strategy fails and `icp` aborts, or `icp` is `icpRun` on the four
stages the strategy holds. -/
theorem icp_cases (E : Eigen Quaternion) (fuel : Nat) (strategy : Strategy σ Quaternion k)
    (T0 : TransformationParameters k) (reading reference : DataPoints k) (s : σ) :
    (∃ what, icp E fuel T0 reading reference strategy s
        = some (.error (Exception.AssertionFailure what))) ∨
    ∃ matcher descriptorOutlierFilter errorMinimizer inspector,
      strategy.matcher = some matcher ∧
      strategy.descriptorOutlierFilter = some descriptorOutlierFilter ∧
      strategy.errorMinimizer = some errorMinimizer ∧
      strategy.inspector = some inspector ∧
      icp E fuel T0 reading reference strategy s =
        icpRun E fuel strategy matcher descriptorOutlierFilter errorMinimizer inspector T0
          reading reference s := by
  cases hm : strategy.matcher with
  | none => left; exact ⟨_, by simp only [icp, hm]; rfl⟩
  | some matcher =>
    cases hd : strategy.descriptorOutlierFilter with
    | none => left; exact ⟨_, by simp only [icp, hm, hd]; rfl⟩
    | some descriptorOutlierFilter =>
      cases he : strategy.errorMinimizer with
      | none => left; exact ⟨_, by simp only [icp, hm, hd, he]; rfl⟩
      | some errorMinimizer =>
        cases hi : strategy.inspector with
        | none => left; exact ⟨_, by simp only [icp, hm, hd, he, hi]; rfl⟩
        | some inspector =>
          right
          exact ⟨matcher, descriptorOutlierFilter, errorMinimizer, inspector, rfl, rfl, rfl,
            rfl, by simp only [icp, hm, hd, he, hi]⟩

theorem icpRun_counter_bound (E : Eigen Quaternion) (l : ℚ) (M : Nat)
    (c : CounterTransformationChecker) (hd : 1 ≤ c.digits) (hl : c.limits 0 = Scalar.fin l)
    (hpos : 0 < M) (hM : M ≤ 2 ^ c.digits) (hlM : l ≤ (M : ℚ))
    (strategy : Strategy σ Quaternion k)
    (matcher : Matcher σ k) (descriptorOutlierFilter : DescriptorOutlierFilter σ k)
    (errorMinimizer : ErrorMinimizer σ k) (inspector : Inspector σ Quaternion k)
    (hmem : TransformationChecker.counter c ∈ strategy.transformationCheckers)
    (fuel : Nat) (hfuel : M ≤ fuel)
    (T0 : TransformationParameters k) (reading reference : DataPoints k) (s : σ) :
    icpRun E fuel strategy matcher descriptorOutlierFilter errorMinimizer inspector T0
        reading reference s ≠ none ∧
    ∀ r s', icpRun E fuel strategy matcher descriptorOutlierFilter errorMinimizer inspector T0
        reading reference s = some (.ok (r, s')) →
      r.iterationCount ≤ M := by
  have key : ∀ i s1,
      icpInit E strategy matcher inspector (Tref reference) T0 reading
        (centredReference reference) s = .ok (i, s1) →
      icpLoop E strategy matcher descriptorOutlierFilter errorMinimizer inspector
          (Tref reference) i.reading i.reference fuel i.loop s1 ≠ none ∧
      ∀ st' s', icpLoop E strategy matcher descriptorOutlierFilter errorMinimizer inspector
          (Tref reference) i.reading i.reference fuel i.loop s1 = some (.ok (st', s')) →
        st'.iterationCount ≤ M := by
    intro i s1 hinit
    obtain ⟨⟨it, hc⟩, _, h0, _, _⟩ := icpInit_ok E strategy matcher inspector _ T0 reading _ s s1 i hinit
    apply icpLoop_counter_bound E strategy matcher descriptorOutlierFilter errorMinimizer
      inspector (Tref reference) i.reading i.reference c.digits hd l M hM hlM
    · rw [h0]
      exact TransformationCheckers.init_hasCounter E T0 l c hl _ _ _ _ hmem hc
    · omega
    · intro _; omega
    · omega
  constructor
  · unfold icpRun
    simp only
    split
    · simp
    · rename_i i s1 hinit
      have := (key i s1 hinit).1
      split
      · rename_i hnone; exact absurd hnone this
      · simp
      · simp
  · intro r s' h
    obtain ⟨i, s1, st, s2, hinit, hloop, hfin⟩ := icpRun_ok E fuel strategy matcher
      descriptorOutlierFilter errorMinimizer inspector T0 reading reference s s' r h
    have := (key i s1 hinit).2 st s2 hloop
    rw [(icpFinish_ok inspector _ st s2 s' r hfin).2]
    exact this

end DriverRun

/-- C2 (as amended): for a scalar type with `digits ≥ 1` significand bits (24 for `float`,
53 for `double`) and `maxIterationCount ≤ 2 ^ digits`, whatever the other stages and
checkers do, when the checkers of the strategy contain a counter built with
`maxIterationCount`, `icp` needs no more than `max maxIterationCount 1` runs of its loop
body: with that much fuel it ends, and when it returns the `iterationCount` it hands to
`inspector->finish` is at most `max maxIterationCount 1`, hence at most `maxIterationCount`
when `maxIterationCount ≥ 1`. -/
theorem icp_iterations_le_max {σ Quaternion : Type} {k : Nat} (E : Eigen Quaternion)
    (digits : Nat) (hd : 1 ≤ digits)
    (maxIterationCount : Int) (hmax : maxIterationCount ≤ 2 ^ digits)
    (values0 : Fin 1 → Scalar) (strategy : Strategy σ Quaternion k)
    (hmem : TransformationChecker.counter
        { digits := digits, values := values0,
          limits := ![Scalar.ofInt digits maxIterationCount] }
      ∈ strategy.transformationCheckers)
    (fuel : Nat) (hfuel : (max maxIterationCount 1).toNat ≤ fuel)
    (T0 : TransformationParameters k) (reading reference : DataPoints k) (s : σ) :
    icp E fuel T0 reading reference strategy s ≠ none ∧
    ∀ r s', icp E fuel T0 reading reference strategy s = some (.ok (r, s')) →
      (r.iterationCount : Int) ≤ max maxIterationCount 1 ∧
      (1 ≤ maxIterationCount → (r.iterationCount : Int) ≤ maxIterationCount) := by
  rcases icp_cases E fuel strategy T0 reading reference s with ⟨what, h⟩ | h
  · rw [h]
    simp
  · obtain ⟨matcher, descriptorOutlierFilter, errorMinimizer, inspector, _, _, _, _, h⟩ := h
    rw [h]
    have h1le : (1 : Int) ≤ max maxIterationCount 1 := le_max_right _ _
    have hpos : 0 < (max maxIterationCount 1).toNat := by omega
    have hM : (max maxIterationCount 1).toNat ≤ 2 ^ digits := by
      have h2 : max maxIterationCount 1 ≤ ((2 ^ digits : Nat) : Int) := by
        push_cast
        exact max_le hmax (one_le_pow₀ (by norm_num))
      omega
    have hlM : roundTo digits (maxIterationCount : ℚ)
        ≤ (((max maxIterationCount 1).toNat : Nat) : ℚ) := by
      obtain ⟨m, hm⟩ : ∃ m : Nat, (max maxIterationCount 1).toNat = m + 1 :=
        ⟨(max maxIterationCount 1).toNat - 1, by omega⟩
      rw [hm, roundTo_intCast_le_iff digits hd maxIterationCount hmax m]
      have : maxIterationCount ≤ max maxIterationCount 1 := le_max_left _ _
      omega
    obtain ⟨h1, h2⟩ := icpRun_counter_bound E (roundTo digits (maxIterationCount : ℚ))
      (max maxIterationCount 1).toNat _ hd (by simp [Scalar.ofInt_eq]) hpos hM hlM strategy
      matcher descriptorOutlierFilter errorMinimizer inspector hmem fuel hfuel T0 reading
      reference s
    refine ⟨h1, ?_⟩
    intro r s' hr
    have hle := h2 r s' hr
    have hmax' : (r.iterationCount : Int) ≤ max maxIterationCount 1 := by
      omega
    refine ⟨hmax', ?_⟩
    intro hN
    rw [max_eq_left hN] at hmax'
    exact hmax'

section Progress

variable {σ Quaternion : Type} {k : Nat}

theorem StageM.bind_of_ok {α β : Type} (x : StageM σ α) (f : α → StageM σ β) (s s' : σ) (a : α)
    (h : x s = .ok (a, s')) : (x >>= f) s = f a s' := by
  show (match x s with
        | .ok (a, s') => f a s'
        | .error e => .error e) = _
  rw [h]

theorem StageM.bind_liftExcept {α β : Type} (x : Except Exception α) (f : α → StageM σ β)
    (s : σ) :
    (liftExcept x >>= f) s =
      match x with
      | .ok a => f a s
      | .error e => .error e := by
  cases x <;> rfl

theorem DataPointsFilters.applyPre_ok (fs : List (DataPointsFilter σ k))
    (h : ∀ f ∈ fs, ∀ cloud iterate s, ∃ r s', f.preFilter cloud iterate s = .ok (r, s')) :
    ∀ cloud iterate s, ∃ r s', applyPre fs cloud iterate s = .ok (r, s') := by
  induction fs with
  | nil => intro cloud iterate s; exact ⟨cloud, s, rfl⟩
  | cons f rest ih =>
    intro cloud iterate s
    obtain ⟨⟨c1, it1⟩, s1, h1⟩ := h f (List.mem_cons_self _ _) cloud iterate s
    obtain ⟨r, s', h2⟩ := ih (fun g hg => h g (List.mem_cons_of_mem _ hg)) c1 it1 s1
    refine ⟨r, s', ?_⟩
    unfold applyPre
    rw [StageM.bind_of_ok _ _ _ _ _ h1]
    exact h2

theorem DataPointsFilters.applyStep_ok (fs : List (DataPointsFilter σ k))
    (h : ∀ f ∈ fs, ∀ cloud iterate s, ∃ r s', f.stepFilter cloud iterate s = .ok (r, s')) :
    ∀ cloud iterate s, ∃ r s', applyStep fs cloud iterate s = .ok (r, s') := by
  induction fs with
  | nil => intro cloud iterate s; exact ⟨cloud, s, rfl⟩
  | cons f rest ih =>
    intro cloud iterate s
    obtain ⟨⟨c1, it1⟩, s1, h1⟩ := h f (List.mem_cons_self _ _) cloud iterate s
    obtain ⟨r, s', h2⟩ := ih (fun g hg => h g (List.mem_cons_of_mem _ hg)) c1 it1 s1
    refine ⟨r, s', ?_⟩
    unfold applyStep
    rw [StageM.bind_of_ok _ _ _ _ _ h1]
    exact h2

theorem Transformations.apply_ok (ts : List (Transformation σ k))
    (h : ∀ t ∈ ts, ∀ cloud parameters s, ∃ r s', t.compute cloud parameters s = .ok (r, s')) :
    ∀ cloud parameters s, ∃ r s', apply ts cloud parameters s = .ok (r, s') := by
  induction ts with
  | nil => intro cloud parameters s; exact ⟨cloud, s, rfl⟩
  | cons t rest ih =>
    intro cloud parameters s
    obtain ⟨c1, s1, h1⟩ := h t (List.mem_cons_self _ _) cloud parameters s
    obtain ⟨r, s', h2⟩ := ih (fun g hg => h g (List.mem_cons_of_mem _ hg)) c1 parameters s1
    refine ⟨r, s', ?_⟩
    unfold apply
    rw [StageM.bind_of_ok _ _ _ _ _ h1]
    exact h2

theorem FeatureOutlierFilters.computeFrom_ok (filteredReading filteredReference : DataPoints k)
    (input : Matches) (fs : List (FeatureOutlierFilter σ k))
    (h : ∀ f ∈ fs, ∀ r q input s, ∃ w s', f.compute r q input true s = .ok ((w, true), s')) :
    ∀ w s, ∃ w' s',
      computeFrom filteredReading filteredReference input fs w true s = .ok ((w', true), s') := by
  induction fs with
  | nil => intro w s; exact ⟨w, s, rfl⟩
  | cons f rest ih =>
    intro w s
    obtain ⟨w1, s1, h1⟩ := h f (List.mem_cons_self _ _) filteredReading filteredReference input s
    obtain ⟨w', s', h2⟩ := ih (fun g hg => h g (List.mem_cons_of_mem _ hg))
      (fun i j => w i j * w1 i j) s1
    refine ⟨w', s', ?_⟩
    unfold computeFrom
    rw [StageM.bind_of_ok _ _ _ _ _ h1]
    exact h2

/-- With cooperating stages a run of the loop body entered with `iterate = true` comes down
to the call of the checkers, made with `iterate = true`. -/
theorem loopBody_progress (E : Eigen Quaternion) (strategy : Strategy σ Quaternion k)
    (matcher : Matcher σ k) (descriptorOutlierFilter : DescriptorOutlierFilter σ k)
    (errorMinimizer : ErrorMinimizer σ k) (inspector : Inspector σ Quaternion k)
    (hcoop : Cooperative strategy matcher descriptorOutlierFilter errorMinimizer inspector)
    (tref : TransformationParameters k) (reading reference : DataPoints k)
    (st : LoopState Quaternion k) (s : σ) (hit : st.iterate = true) :
    ∃ correction s',
      loopBody E strategy matcher descriptorOutlierFilter errorMinimizer inspector tref
          reading reference st s =
        match TransformationCheckers.check E (tref * (st.transformationParameters * correction))
            true st.transformationCheckers with
        | .ok (checkers, iterate) =>
          .ok ({ iterate := iterate
                 transformationParameters := st.transformationParameters * correction
                 iterationCount := st.iterationCount + 1
                 transformationCheckers := checkers
                 corrections := st.corrections ++ [correction]
                 checked := st.checked ++ [tref * (st.transformationParameters * correction)] },
               s')
        | .error e => .error e := by
  obtain ⟨r1, s1, h1⟩ := DataPointsFilters.applyStep_ok strategy.readingDataPointsFilters
    (fun f hf c i s => (hcoop.readingFilters f hf c i s).2) reading st.iterate s
  obtain ⟨q1, s2, h2⟩ := DataPointsFilters.applyStep_ok strategy.referenceDataPointsFilters
    (fun f hf c i s => (hcoop.referenceFilters f hf c i s).2) reference st.iterate s1
  obtain ⟨r2, s3, h3⟩ := Transformations.apply_ok strategy.transformations
    hcoop.transformations r1 st.transformationParameters s2
  obtain ⟨m, s4, h4⟩ := hcoop.findClosests r2 q1 s3
  obtain ⟨fw, s5, h5⟩ := FeatureOutlierFilters.computeFrom_ok r2 q1 m
    strategy.featureOutlierFilters hcoop.featureOutlierFilters (fun _ _ => 1) s4
  obtain ⟨dw, s6, h6⟩ := hcoop.descriptorOutlierFilter r2 q1 m s5
  obtain ⟨s7, h7⟩ := hcoop.dumpIteration st.iterationCount st.transformationParameters q1 r2 m
    fw dw st.transformationCheckers s6
  obtain ⟨correction, s8, h8⟩ := hcoop.errorMinimizer r2 q1 m
    (fun i j => fw i j * strategy.outlierMixingWeight +
      dw i j * (1 - strategy.outlierMixingWeight)) s7
  refine ⟨correction, s8, ?_⟩
  unfold loopBody
  rw [StageM.bind_of_ok _ _ _ _ _ h1, StageM.bind_of_ok _ _ _ _ _ h2,
    StageM.bind_of_ok _ _ _ _ _ h3]
  rw [hit, StageM.bind_of_ok _ _ _ _ _ h4]
  simp only
  rw [StageM.bind_of_ok _ _ _ _ _ (show FeatureOutlierFilters.compute
    strategy.featureOutlierFilters r2 q1 m true s4 = .ok ((fw, true), s5) from h5)]
  simp only
  rw [StageM.bind_of_ok _ _ _ _ _ h6]
  simp only
  rw [StageM.bind_of_ok _ _ _ _ _ h7, StageM.bind_of_ok _ _ _ _ _ h8]
  simp only
  rw [StageM.bind_liftExcept]
  cases hc : TransformationCheckers.check E (tref * (st.transformationParameters * correction))
      true st.transformationCheckers with
  | error e => rfl
  | ok p => rfl

end Progress

section CounterOnly

variable {σ Quaternion : Type} {k : Nat}

theorem icpInit_progress (E : Eigen Quaternion) (strategy : Strategy σ Quaternion k)
    (matcher : Matcher σ k) (descriptorOutlierFilter : DescriptorOutlierFilter σ k)
    (errorMinimizer : ErrorMinimizer σ k) (inspector : Inspector σ Quaternion k)
    (hcoop : Cooperative strategy matcher descriptorOutlierFilter errorMinimizer inspector)
    (tref T0 : TransformationParameters k) (reading reference : DataPoints k) (s : σ)
    (checkers : List (TransformationChecker Quaternion k))
    (hc : TransformationCheckers.init E T0 true strategy.transformationCheckers
      = .ok (checkers, true)) :
    ∃ r q s1,
      icpInit E strategy matcher inspector tref T0 reading reference s =
        .ok ({ reading := r
               reference := q
               loop :=
                 { iterate := true
                   transformationParameters := inverse tref * T0
                   iterationCount := 0
                   transformationCheckers := checkers
                   corrections := []
                   checked := [] } }, s1) := by
  obtain ⟨r, s1, h1⟩ := DataPointsFilters.applyPre_ok strategy.readingDataPointsFilters
    (fun f hf c i s => (hcoop.readingFilters f hf c i s).1) reading true s
  obtain ⟨q, s2, h2⟩ := DataPointsFilters.applyPre_ok strategy.referenceDataPointsFilters
    (fun f hf c i s => (hcoop.referenceFilters f hf c i s).1) reference true s1
  obtain ⟨s3, h3⟩ := hcoop.matcherInit r q s2
  obtain ⟨s4, h4⟩ := hcoop.inspectorInit s3
  refine ⟨r, q, s4, ?_⟩
  unfold icpInit
  simp only
  rw [StageM.bind_of_ok _ _ _ _ _ h1, StageM.bind_of_ok _ _ _ _ _ h2,
    StageM.bind_liftExcept, hc]
  simp only
  rw [StageM.bind_of_ok _ _ _ _ _ h3, StageM.bind_of_ok _ _ _ _ _ h4]
  rfl

/-- With cooperating stages and, as the only checker, a counter whose stored limit is the
integer `L`, with `max L 1 ≤ 2 ^ digits`, the loop entered after `j` iterations with
`iterate = true` runs until the count is `max L 1` and stops. -/
theorem icpLoop_counter_only (E : Eigen Quaternion) (strategy : Strategy σ Quaternion k)
    (matcher : Matcher σ k) (descriptorOutlierFilter : DescriptorOutlierFilter σ k)
    (errorMinimizer : ErrorMinimizer σ k) (inspector : Inspector σ Quaternion k)
    (hcoop : Cooperative strategy matcher descriptorOutlierFilter errorMinimizer inspector)
    (tref : TransformationParameters k) (reading reference : DataPoints k) (L : Int)
    (digits : Nat) (hdig : 1 ≤ digits) (hL : (max L 1).toNat ≤ 2 ^ digits) :
    ∀ (n : Nat) (fuel : Nat) (st : LoopState Quaternion k) (s : σ)
      (c : CounterTransformationChecker),
      st.iterate = true → st.transformationCheckers = [TransformationChecker.counter c] →
      c.digits = digits →
      c.values 0 = Scalar.fin (st.iterationCount : ℚ) → c.limits 0 = Scalar.fin (L : ℚ) →
      st.iterationCount + n + 1 = (max L 1).toNat → n + 1 ≤ fuel →
      ∃ st' s' c',
        icpLoop E strategy matcher descriptorOutlierFilter errorMinimizer inspector tref
          reading reference fuel st s = some (.ok (st', s')) ∧
        st'.iterate = false ∧ st'.iterationCount = (max L 1).toNat ∧
        st'.transformationCheckers = [TransformationChecker.counter c'] ∧
        c'.values 0 = Scalar.fin (((max L 1).toNat : Nat) : ℚ) ∧
        st'.corrections.length = st.corrections.length + n + 1 := by
  intro n
  induction n with
  | zero =>
    intro fuel st s c hit hcs hcd hv hl hM hfuel
    obtain ⟨fuel, rfl⟩ : ∃ f, fuel = f + 1 := ⟨fuel - 1, by omega⟩
    obtain ⟨correction, s1, hbody⟩ := loopBody_progress E strategy matcher
      descriptorOutlierFilter errorMinimizer inspector hcoop tref reading reference st s hit
    obtain ⟨c', hcheck, _, hv', hl'⟩ := CounterTransformationChecker.check_counts
      (tref * (st.transformationParameters * correction)) true c (L : ℚ) st.iterationCount
      (by rw [hcd]; exact hdig) (by rw [hcd]; omega) hv hl
    have hN : (L : ℚ) ≤ ((st.iterationCount + 1 : Nat) : ℚ) := by
      have h1 : L ≤ max L 1 := le_max_left _ _
      have h2 : (1 : Int) ≤ max L 1 := le_max_right _ _
      have h3 : L ≤ ((st.iterationCount + 1 : Nat) : Int) := by omega
      exact_mod_cast h3
    rw [if_pos hN] at hcheck
    rw [hcs] at hbody
    simp only [TransformationCheckers.check, TransformationChecker.check, hcheck] at hbody
    refine ⟨{ iterate := false
              transformationParameters := st.transformationParameters * correction
              iterationCount := st.iterationCount + 1
              transformationCheckers := [TransformationChecker.counter c']
              corrections := st.corrections ++ [correction]
              checked := st.checked ++ [tref * (st.transformationParameters * correction)] },
      s1, c', ?_, ?_, ?_, ?_, ?_, ?_⟩
    · simp only [icpLoop, hit, ↓reduceIte, hbody]
      cases fuel <;> simp [icpLoop]
    · rfl
    · simp only; omega
    · rfl
    · have : st.iterationCount + 1 = (max L 1).toNat := by omega
      rw [hv', this]
    · simp
  | succ n ih =>
    intro fuel st s c hit hcs hcd hv hl hM hfuel
    obtain ⟨fuel, rfl⟩ : ∃ f, fuel = f + 1 := ⟨fuel - 1, by omega⟩
    obtain ⟨correction, s1, hbody⟩ := loopBody_progress E strategy matcher
      descriptorOutlierFilter errorMinimizer inspector hcoop tref reading reference st s hit
    obtain ⟨c', hcheck, hcd', hv', hl'⟩ := CounterTransformationChecker.check_counts
      (tref * (st.transformationParameters * correction)) true c (L : ℚ) st.iterationCount
      (by rw [hcd]; exact hdig) (by rw [hcd]; omega) hv hl
    have hN : ¬ (L : ℚ) ≤ ((st.iterationCount + 1 : Nat) : ℚ) := by
      have h1 : max L 1 = L ∨ max L 1 = 1 := by
        rcases le_total L 1 with h | h
        · right; exact max_eq_right h
        · left; exact max_eq_left h
      have h3 : ¬ L ≤ ((st.iterationCount + 1 : Nat) : Int) := by omega
      exact_mod_cast h3
    rw [if_neg hN] at hcheck
    rw [hcs] at hbody
    simp only [TransformationCheckers.check, TransformationChecker.check, hcheck] at hbody
    simp only [icpLoop, hit, ↓reduceIte, hbody]
    obtain ⟨st', s', c'', h1, h2, h3, h4, h5, h6⟩ := ih fuel
      { iterate := true
        transformationParameters := st.transformationParameters * correction
        iterationCount := st.iterationCount + 1
        transformationCheckers := [TransformationChecker.counter c']
        corrections := st.corrections ++ [correction]
        checked := st.checked ++ [tref * (st.transformationParameters * correction)] }
      s1 c' rfl rfl (hcd'.trans hcd) hv' hl' (by simp only; omega) (by omega)
    refine ⟨st', s', c'', h1, h2, h3, h4, h5, ?_⟩
    rw [h6]
    simp only [List.length_append, List.length_singleton]
    omega

/-- With cooperating stages and, as the only checker, a counter whose stored limit is the
integer `L`, with `max L 1 ≤ 2 ^ digits`, `icp` returns after `max L 1` runs of its loop
body, having called `inspector->finish(max L 1)`. -/
theorem icp_counter_only (E : Eigen Quaternion) (strategy : Strategy σ Quaternion k)
    (matcher : Matcher σ k) (descriptorOutlierFilter : DescriptorOutlierFilter σ k)
    (errorMinimizer : ErrorMinimizer σ k) (inspector : Inspector σ Quaternion k)
    (hm : strategy.matcher = some matcher)
    (hd : strategy.descriptorOutlierFilter = some descriptorOutlierFilter)
    (he : strategy.errorMinimizer = some errorMinimizer)
    (hi : strategy.inspector = some inspector)
    (hcoop : Cooperative strategy matcher descriptorOutlierFilter errorMinimizer inspector)
    (N : Int) (c : CounterTransformationChecker) (hdig : 1 ≤ c.digits)
    (hl : c.limits 0 = Scalar.fin (N : ℚ)) (hN : (max N 1).toNat ≤ 2 ^ c.digits)
    (hcs : strategy.transformationCheckers = [TransformationChecker.counter c])
    (fuel : Nat) (hfuel : (max N 1).toNat ≤ fuel)
    (T0 : TransformationParameters k) (reading reference : DataPoints k) (s : σ) :
    ∃ r s2 s',
      icp E fuel T0 reading reference strategy s = some (.ok (r, s')) ∧
      inspector.finish (max N 1).toNat s2 = .ok ((), s') ∧
      r.iterationCount = (max N 1).toNat ∧
      r.corrections.length = r.iterationCount := by
  rw [icp_eq_icpRun E fuel strategy matcher descriptorOutlierFilter errorMinimizer inspector
    hm hd he hi]
  have hinit : TransformationCheckers.init E T0 true strategy.transformationCheckers
      = .ok ([TransformationChecker.counter { c with values := ![Scalar.zero] }], true) := by
    rw [hcs]
    rfl
  obtain ⟨r, q, s1, hi1⟩ := icpInit_progress E strategy matcher descriptorOutlierFilter
    errorMinimizer inspector hcoop (Tref reference) T0 reading (centredReference reference) s
    _ hinit
  have hpos : 0 < (max N 1).toNat := by
    have : (1 : Int) ≤ max N 1 := le_max_right _ _
    omega
  obtain ⟨st', s2, c', hloop, _, hcount, _, _, hlen⟩ := icpLoop_counter_only E strategy matcher
    descriptorOutlierFilter errorMinimizer inspector hcoop (Tref reference) r q N
    c.digits hdig hN ((max N 1).toNat - 1) fuel
    { iterate := true
      transformationParameters := inverse (Tref reference) * T0
      iterationCount := 0
      transformationCheckers := [TransformationChecker.counter { c with values := ![Scalar.zero] }]
      corrections := []
      checked := [] }
    s1 { c with values := ![Scalar.zero] } rfl rfl rfl (by simp [Scalar.zero]) hl
    (by simp only; omega) (by omega)
  obtain ⟨s', hfin⟩ := hcoop.finish st'.iterationCount s2
  refine ⟨{ transformationParameters := Tref reference * st'.transformationParameters
            iterationCount := st'.iterationCount
            transformationCheckers := st'.transformationCheckers
            corrections := st'.corrections
            checked := st'.checked }, s2, s', ?_, ?_, ?_, ?_⟩
  · unfold icpRun
    simp only [hi1, hloop]
    unfold icpFinish
    rw [StageM.bind_of_ok _ _ _ _ _ hfin]
    rfl
  · rw [← hcount]; exact hfin
  · exact hcount
  · simp only [hlen, hcount, List.length_nil]
    omega

end CounterOnly

section CounterStuck

variable {σ Quaternion : Type} {k : Nat}

/-- A `float` counter whose stored limit is above `16777216` never clears `iterate`: its
count stays at or below `16777216`. -/
theorem CounterTransformationChecker.check_saturated (parameters : TransformationParameters k)
    (iterate : Bool) (c : CounterTransformationChecker) (hd : c.digits = 24) (v : Nat)
    (hv : c.values 0 = Scalar.fin (v : ℚ)) (hle : v ≤ 16777216) (l : ℚ)
    (hl : c.limits 0 = Scalar.fin l) (hlim : 16777216 < l) :
    ∃ (c' : CounterTransformationChecker) (v' : Nat),
      check parameters iterate c = .ok (c', iterate) ∧ c'.digits = 24 ∧
      c'.values 0 = Scalar.fin (v' : ℚ) ∧ v' ≤ 16777216 ∧ c'.limits 0 = Scalar.fin l := by
  rcases Nat.lt_or_ge v 16777216 with hlt | hge
  · obtain ⟨c', hcheck, hd', hv', hl'⟩ := CounterTransformationChecker.check_counts parameters
      iterate c l v (by rw [hd]; decide) (by rw [hd]; omega) hv hl
    have hnot : ¬ l ≤ ((v + 1 : Nat) : ℚ) := by
      have : ((v + 1 : Nat) : ℚ) ≤ 16777216 := by exact_mod_cast hlt
      linarith
    rw [if_neg hnot] at hcheck
    exact ⟨c', v + 1, hcheck, hd'.trans hd, hv', hlt, hl'⟩
  · have hv16 : v = 16777216 := le_antisymm hle hge
    subst hv16
    have hround : Scalar.round 24 (Scalar.add (Scalar.fin ((16777216 : Nat) : ℚ)) Scalar.one)
        = Scalar.fin ((16777216 : Nat) : ℚ) := by
      simp only [Scalar.round, Scalar.add, Scalar.one]
      have := roundTo_float_succ
      push_cast
      rw [this]
    refine ⟨{ c with values := ![Scalar.fin ((16777216 : Nat) : ℚ)] }, 16777216, ?_, hd, ?_,
      le_refl _, hl⟩
    · have hnot : ¬ l ≤ ((16777216 : Nat) : ℚ) := by
        push_cast
        linarith
      simp only [check, hv, hl, hd, Matrix.cons_val_zero, hround, Scalar.ge, hnot,
        decide_False, Bool.false_eq_true, ↓reduceIte]
    · simp

/-- With cooperating stages and, as the only checker, a `float` counter whose stored limit is
above `16777216`, the loop has not ended after any number of runs of its body. -/
theorem icpLoop_counter_stuck (E : Eigen Quaternion) (strategy : Strategy σ Quaternion k)
    (matcher : Matcher σ k) (descriptorOutlierFilter : DescriptorOutlierFilter σ k)
    (errorMinimizer : ErrorMinimizer σ k) (inspector : Inspector σ Quaternion k)
    (hcoop : Cooperative strategy matcher descriptorOutlierFilter errorMinimizer inspector)
    (tref : TransformationParameters k) (reading reference : DataPoints k) (l : ℚ)
    (hlim : 16777216 < l) :
    ∀ (fuel : Nat) (st : LoopState Quaternion k) (s : σ) (c : CounterTransformationChecker)
      (v : Nat),
      st.iterate = true → st.transformationCheckers = [TransformationChecker.counter c] →
      c.digits = 24 → c.values 0 = Scalar.fin (v : ℚ) → v ≤ 16777216 →
      c.limits 0 = Scalar.fin l →
      icpLoop E strategy matcher descriptorOutlierFilter errorMinimizer inspector tref
        reading reference fuel st s = none := by
  intro fuel
  induction fuel with
  | zero =>
    intro st s c v hit _ _ _ _ _
    simp only [icpLoop, hit, ↓reduceIte]
  | succ fuel ih =>
    intro st s c v hit hcs hd hv hle hl
    obtain ⟨correction, s1, hbody⟩ := loopBody_progress E strategy matcher
      descriptorOutlierFilter errorMinimizer inspector hcoop tref reading reference st s hit
    obtain ⟨c', v', hcheck, hd', hv', hle', hl'⟩ :=
      CounterTransformationChecker.check_saturated
        (tref * (st.transformationParameters * correction)) true c hd v hv hle l hl hlim
    rw [hcs] at hbody
    simp only [TransformationCheckers.check, TransformationChecker.check, hcheck] at hbody
    simp only [icpLoop, hit, ↓reduceIte, hbody]
    exact ih _ s1 c' v' rfl rfl hd' hv' hle' hl'

/-- With cooperating stages and, as the only checker, a `float` counter whose stored limit is
above `16777216`, `icp` does not return, however many runs of the loop body it is given. -/
theorem icp_counter_stuck (E : Eigen Quaternion) (strategy : Strategy σ Quaternion k)
    (matcher : Matcher σ k) (descriptorOutlierFilter : DescriptorOutlierFilter σ k)
    (errorMinimizer : ErrorMinimizer σ k) (inspector : Inspector σ Quaternion k)
    (hm : strategy.matcher = some matcher)
    (hd : strategy.descriptorOutlierFilter = some descriptorOutlierFilter)
    (he : strategy.errorMinimizer = some errorMinimizer)
    (hi : strategy.inspector = some inspector)
    (hcoop : Cooperative strategy matcher descriptorOutlierFilter errorMinimizer inspector)
    (c : CounterTransformationChecker) (hdig : c.digits = 24) (l : ℚ)
    (hl : c.limits 0 = Scalar.fin l) (hlim : 16777216 < l)
    (hcs : strategy.transformationCheckers = [TransformationChecker.counter c])
    (fuel : Nat) (T0 : TransformationParameters k) (reading reference : DataPoints k) (s : σ) :
    icp E fuel T0 reading reference strategy s = none := by
  rw [icp_eq_icpRun E fuel strategy matcher descriptorOutlierFilter errorMinimizer inspector
    hm hd he hi]
  have hinit : TransformationCheckers.init E T0 true strategy.transformationCheckers
      = .ok ([TransformationChecker.counter { c with values := ![Scalar.zero] }], true) := by
    rw [hcs]
    rfl
  obtain ⟨r, q, s1, hi1⟩ := icpInit_progress E strategy matcher descriptorOutlierFilter
    errorMinimizer inspector hcoop (Tref reference) T0 reading (centredReference reference) s
    _ hinit
  have hloop := icpLoop_counter_stuck E strategy matcher descriptorOutlierFilter errorMinimizer
    inspector hcoop (Tref reference) r q l hlim fuel
    { iterate := true
      transformationParameters := inverse (Tref reference) * T0
      iterationCount := 0
      transformationCheckers := [TransformationChecker.counter { c with values := ![Scalar.zero] }]
      corrections := []
      checked := [] }
    s1 { c with values := ![Scalar.zero] } 0 rfl rfl hdig (by simp [Scalar.zero]) (by omega) hl
  unfold icpRun
  simp only [hi1, hloop]

end CounterStuck

/-- The sample stages cooperate as long as the matcher does not clear `iterate`; the sample
filters may clear it. -/
theorem sampleStrategy_cooperative {Quaternion : Type} {k : Nat}
    (filters : List (DataPointsFilter (List Call) k))
    (hfilters : ∀ f ∈ filters, ∃ clears, f = sampleFilter k clears)
    (correction : TransformationParameters k)
    (checkers : List (TransformationChecker Quaternion k)) :
    Cooperative (sampleStrategy filters false correction checkers) (sampleMatcher k false)
      (sampleDescriptorOutlierFilter k) (sampleErrorMinimizer correction)
      (sampleInspector Quaternion k) where
  readingFilters := by
    intro f hf cloud iterate s
    obtain ⟨clears, rfl⟩ := hfilters f hf
    exact ⟨⟨_, _, rfl⟩, ⟨_, _, rfl⟩⟩
  referenceFilters := by
    intro f hf
    simp [sampleStrategy] at hf
  transformations := by
    intro t ht
    simp [sampleStrategy] at ht
  matcherInit := fun _ _ _ => ⟨_, rfl⟩
  findClosests := fun _ _ _ => ⟨_, _, rfl⟩
  featureOutlierFilters := by
    intro f hf
    simp [sampleStrategy] at hf
  descriptorOutlierFilter := fun _ _ _ _ => ⟨_, _, rfl⟩
  errorMinimizer := fun _ _ _ _ _ => ⟨_, _, rfl⟩
  inspectorInit := fun _ => ⟨_, rfl⟩
  dumpIteration := fun _ _ _ _ _ _ _ _ _ => ⟨_, rfl⟩
  finish := fun _ _ => ⟨_, rfl⟩

/-- Witness of C2: a strategy whose only checker is a `float` counter of limit 3, run with
fuel 3. -/
theorem icp_iterations_le_max_witness :
    (1 : Nat) ≤ 24 ∧ (3 : Int) ≤ 2 ^ 24 ∧
    TransformationChecker.counter
        { digits := 24, values := ![Scalar.zero], limits := ![Scalar.ofInt 24 3] }
      ∈ (sampleStrategy [] false 1
          [(TransformationChecker.counter
            { digits := 24, values := ![Scalar.zero], limits := ![Scalar.ofInt 24 3] } :
              TransformationChecker (Matrix (Fin 3) (Fin 3) ℚ) 1)]).transformationCheckers ∧
    (max (3 : Int) 1).toNat ≤ 3 ∧
    icp sampleEigen 3 (1 : TransformationParameters 1) (sampleCloud 1 0) (sampleCloud 1 2)
      (sampleStrategy [] false 1
        [TransformationChecker.counter
          { digits := 24, values := ![Scalar.zero], limits := ![Scalar.ofInt 24 3] }]) []
      ≠ none :=
  ⟨by decide, by norm_num, List.mem_singleton.mpr rfl, by decide,
    (icp_iterations_le_max sampleEigen 24 (by decide) 3 (by norm_num) ![Scalar.zero]
      (sampleStrategy [] false 1
        [TransformationChecker.counter
          { digits := 24, values := ![Scalar.zero], limits := ![Scalar.ofInt 24 3] }])
      (List.mem_singleton.mpr rfl) 3 (by decide) 1 (sampleCloud 1 0) (sampleCloud 1 2) []).1⟩

/-- Counterexamples to C2 as stated. With a counter of limit 0 as the only checker and stages
that raise nothing, the loop body runs once, and `inspector->finish` receives 1, which is more
than the limit. And in the `float` instantiation with the limit `16777218`, the count stops at
`16777216` and the loop has not ended after any number of runs of its body. -/
theorem icp_iterations_le_max_counterexample :
    (∃ r s',
      icp sampleEigen 1 (1 : TransformationParameters 1) (sampleCloud 1 0) (sampleCloud 1 2)
        (sampleStrategy [] false 1
          [TransformationChecker.counter (CounterTransformationChecker.new 24 0)]) []
        = some (.ok (r, s')) ∧
      r.iterationCount = 1 ∧ ¬ ((r.iterationCount : Int) ≤ 0)) ∧
    ∀ fuel : Nat,
      icp sampleEigen fuel (1 : TransformationParameters 1) (sampleCloud 1 0) (sampleCloud 1 2)
        (sampleStrategy [] false 1
          [TransformationChecker.counter (CounterTransformationChecker.new 24 16777218)]) []
        = none := by
  constructor
  · obtain ⟨r, _, s', h, _, hcount, _⟩ :=
      icp_counter_only sampleEigen
        (sampleStrategy [] false 1
          [TransformationChecker.counter (CounterTransformationChecker.new 24 0)])
        (sampleMatcher 1 false) (sampleDescriptorOutlierFilter 1) (sampleErrorMinimizer 1)
        (sampleInspector _ 1) rfl rfl rfl rfl
        (sampleStrategy_cooperative [] (by simp) 1 _) 0 (CounterTransformationChecker.new 24 0)
        (by decide)
        (CounterTransformationChecker.new_limits 24 (by decide) 0 (by decide) (by norm_num))
        (by norm_num [CounterTransformationChecker.new]) rfl
        1 (by decide) 1 (sampleCloud 1 0) (sampleCloud 1 2) []
    have h1 : r.iterationCount = 1 := by rw [hcount]; decide
    exact ⟨r, s', h, h1, by rw [h1]; decide⟩
  · intro fuel
    have hl : (CounterTransformationChecker.new 24 16777218).limits 0
        = Scalar.fin 16777218 := by
      have h := roundTo_float_even
      have e : (((16777218 : Int)) : ℚ) = 16777218 := by norm_num
      simp only [CounterTransformationChecker.new, Matrix.cons_val_zero, Scalar.ofInt_eq, e, h]
    exact icp_counter_stuck sampleEigen
      (sampleStrategy [] false 1
        [TransformationChecker.counter (CounterTransformationChecker.new 24 16777218)])
      (sampleMatcher 1 false) (sampleDescriptorOutlierFilter 1) (sampleErrorMinimizer 1)
      (sampleInspector _ 1) rfl rfl rfl rfl
      (sampleStrategy_cooperative [] (by simp) 1 _)
      (CounterTransformationChecker.new 24 16777218) rfl 16777218 hl (by norm_num) rfl
      fuel 1 (sampleCloud 1 0) (sampleCloud 1 2) []

/-- C3 (as amended): for a scalar type with `digits ≥ 1` significand bits (24 for `float`,
53 for `double`) and every `N` with `1 ≤ N ≤ 2 ^ digits`, with a counter built with `N` as
the only checker and stages that neither raise nor clear `iterate`, `icp` run with fuel for
`N` runs of its loop body returns normally, has run the body exactly `N` times (one
correction per run) and has called `inspector->finish(N)`. -/
theorem icp_counter_exact {σ Quaternion : Type} {k : Nat} (E : Eigen Quaternion)
    (digits : Nat) (hdig : 1 ≤ digits)
    (N : Nat) (hN : 1 ≤ N) (hN2 : N ≤ 2 ^ digits)
    (values0 : Fin 1 → Scalar) (strategy : Strategy σ Quaternion k)
    (matcher : Matcher σ k) (descriptorOutlierFilter : DescriptorOutlierFilter σ k)
    (errorMinimizer : ErrorMinimizer σ k) (inspector : Inspector σ Quaternion k)
    (hm : strategy.matcher = some matcher)
    (hd : strategy.descriptorOutlierFilter = some descriptorOutlierFilter)
    (he : strategy.errorMinimizer = some errorMinimizer)
    (hi : strategy.inspector = some inspector)
    (hcoop : Cooperative strategy matcher descriptorOutlierFilter errorMinimizer inspector)
    (hcs : strategy.transformationCheckers =
      [TransformationChecker.counter
        { digits := digits, values := values0, limits := ![Scalar.ofInt digits (N : Int)] }])
    (fuel : Nat) (hfuel : N ≤ fuel)
    (T0 : TransformationParameters k) (reading reference : DataPoints k) (s : σ) :
    ∃ r s2 s',
      icp E fuel T0 reading reference strategy s = some (.ok (r, s')) ∧
      inspector.finish N s2 = .ok ((), s') ∧
      r.iterationCount = N ∧ r.corrections.length = N := by
  have hmax : (max (N : Int) 1).toNat = N := by
    rw [max_eq_left (by exact_mod_cast hN)]
    simp
  have hl : roundTo digits (((N : Int) : ℚ)) = ((N : Int) : ℚ) :=
    roundTo_intCast digits hdig (N : Int) (by omega) (by exact_mod_cast hN2)
  obtain ⟨r, s2, s', h, hfin, hcount, hlen⟩ :=
    icp_counter_only E strategy matcher descriptorOutlierFilter errorMinimizer inspector
      hm hd he hi hcoop (N : Int)
      { digits := digits, values := values0, limits := ![Scalar.ofInt digits (N : Int)] }
      hdig (by simp only [Matrix.cons_val_zero, Scalar.ofInt_eq, hl])
      (by rw [hmax]; exact hN2) hcs fuel (by omega) T0 reading reference s
  rw [hmax] at hfin hcount
  exact ⟨r, s2, s', h, hfin, hcount, by rw [hlen, hcount]⟩

/-- Witness of C3 with `N = 5` in `float`: the sample strategy with the counter of limit 5 as
its only checker runs the loop body five times and finishes with 5. -/
theorem icp_counter_exact_witness :
    (1 : Nat) ≤ 24 ∧ (1 : Nat) ≤ 5 ∧ (5 : Nat) ≤ 2 ^ 24 ∧
    ∃ r s2 s',
      icp sampleEigen 5 (1 : TransformationParameters 1) (sampleCloud 1 0) (sampleCloud 1 2)
        (sampleStrategy [] false 1
          [TransformationChecker.counter
            { digits := 24, values := ![Scalar.zero],
              limits := ![Scalar.ofInt 24 ((5 : Nat) : Int)] }]) []
        = some (.ok (r, s')) ∧
      (sampleInspector (Matrix (Fin 3) (Fin 3) ℚ) 1).finish 5 s2 = .ok ((), s') ∧
      r.iterationCount = 5 ∧ r.corrections.length = 5 :=
  ⟨by decide, by decide, by norm_num,
  icp_counter_exact sampleEigen 24 (by decide) 5 (by decide) (by norm_num) ![Scalar.zero]
    (sampleStrategy [] false 1
      [TransformationChecker.counter
        { digits := 24, values := ![Scalar.zero],
          limits := ![Scalar.ofInt 24 ((5 : Nat) : Int)] }])
    (sampleMatcher 1 false) (sampleDescriptorOutlierFilter 1) (sampleErrorMinimizer 1)
    (sampleInspector _ 1) rfl rfl rfl rfl
    (sampleStrategy_cooperative [] (by simp) 1 _) rfl 5 (by decide) 1
    (sampleCloud 1 0) (sampleCloud 1 2) []⟩

/-- C3 as stated fails in the `float` instantiation at `N = 16777217`: the limit is stored
as `16777216`, and with stages that neither raise nor clear `iterate` the loop body runs
`16777216` times, one less than `N`. -/
theorem icp_counter_exact_counterexample :
    ∃ r s',
      icp sampleEigen 16777216 (1 : TransformationParameters 1) (sampleCloud 1 0)
        (sampleCloud 1 2)
        (sampleStrategy [] false 1
          [TransformationChecker.counter (CounterTransformationChecker.new 24 16777217)]) []
        = some (.ok (r, s')) ∧
      r.iterationCount = 16777216 ∧ r.iterationCount ≠ 16777217 := by
  have hl : (CounterTransformationChecker.new 24 16777217).limits 0
      = Scalar.fin (((16777216 : Int)) : ℚ) := by
    simp only [CounterTransformationChecker.new, Matrix.cons_val_zero, Scalar.ofInt_float_succ]
    norm_num
  obtain ⟨r, _, s', h, _, hcount, _⟩ :=
    icp_counter_only sampleEigen
      (sampleStrategy [] false 1
        [TransformationChecker.counter (CounterTransformationChecker.new 24 16777217)])
      (sampleMatcher 1 false) (sampleDescriptorOutlierFilter 1) (sampleErrorMinimizer 1)
      (sampleInspector _ 1) rfl rfl rfl rfl
      (sampleStrategy_cooperative [] (by simp) 1 _) 16777216
      (CounterTransformationChecker.new 24 16777217) (by decide) hl
      (by norm_num [CounterTransformationChecker.new]) rfl
      16777216 (by norm_num) 1 (sampleCloud 1 0) (sampleCloud 1 2) []
  have h1 : r.iterationCount = 16777216 := by rw [hcount]; decide
  exact ⟨r, s', h, h1, by rw [h1]; norm_num⟩

/-- C9 (the code at the failing input): a reading filter that clears `iterate` in `preFilter`
and in every `stepFilter` does not stop the driver: with the counter of limit 3 as the only
checker, the loop body still runs three times. -/
theorem icp_filter_clear_ignored :
    ∃ r s',
      icp sampleEigen 3 (1 : TransformationParameters 1) (sampleCloud 1 0) (sampleCloud 1 2)
        (sampleStrategy [sampleFilter 1 true] false 1
          [TransformationChecker.counter (CounterTransformationChecker.new 24 3)]) []
        = some (.ok (r, s')) ∧
      (sampleFilter 1 true).preFilter (sampleCloud 1 0) true []
        = .ok ((sampleCloud 1 0, false), [Call.preFilter]) ∧
      (sampleFilter 1 true).stepFilter (sampleCloud 1 0) true []
        = .ok ((sampleCloud 1 0, false), [Call.stepFilter]) ∧
      r.iterationCount = 3 ∧ r.corrections.length = 3 := by
  obtain ⟨r, _, s', h, _, hcount, hlen⟩ :=
    icp_counter_only sampleEigen
      (sampleStrategy [sampleFilter 1 true] false 1
        [TransformationChecker.counter (CounterTransformationChecker.new 24 3)])
      (sampleMatcher 1 false) (sampleDescriptorOutlierFilter 1) (sampleErrorMinimizer 1)
      (sampleInspector _ 1) rfl rfl rfl rfl
      (sampleStrategy_cooperative [sampleFilter 1 true]
        (by intro f hf; exact ⟨true, List.mem_singleton.mp hf⟩) 1 _)
      3 (CounterTransformationChecker.new 24 3) (by decide)
      (CounterTransformationChecker.new_limits 24 (by decide) 3 (by decide) (by norm_num))
      (by norm_num [CounterTransformationChecker.new]) rfl
      3 (by decide) 1 (sampleCloud 1 0) (sampleCloud 1 2) []
  have h1 : r.iterationCount = 3 := by rw [hcount]; decide
  exact ⟨r, s', h, rfl, rfl, h1, by rw [hlen, h1]⟩

section Frames

variable {σ Quaternion : Type} {k : Nat}

theorem StageM.bind_apply {α β : Type} (x : StageM σ α) (f : α → StageM σ β) (s : σ) :
    (x >>= f) s =
      match x s with
      | .ok (a, s') => f a s'
      | .error e => .error e := rfl

theorem Tref_det (reference : DataPoints k) : (Tref reference).det = 1 := by
  have h : (Tref reference).BlockTriangular id := by
    intro i j hij
    have hlt : j.val < i.val := hij
    have hne : ¬ (i.val < (k + 3) - 1 ∧ j.val = (k + 3) - 1) := by
      rintro ⟨h1, h2⟩
      omega
    simp only [Tref, if_neg hne]
    exact Matrix.one_apply_ne (by intro h; rw [h] at hlt; exact lt_irrefl _ hlt)
  rw [Matrix.det_of_upperTriangular h]
  apply Finset.prod_eq_one
  intro i _
  have hne : ¬ (i.val < (k + 3) - 1 ∧ i.val = (k + 3) - 1) := by
    rintro ⟨h1, h2⟩
    omega
  simp only [Tref, if_neg hne, Matrix.one_apply_eq]

theorem Tref_mul_inverse (reference : DataPoints k) :
    Tref reference * inverse (Tref reference) = 1 := by
  unfold inverse
  rw [Tref_det, inv_one, one_smul, Matrix.mul_adjugate, Tref_det, one_smul]

theorem inverse_mul_Tref (reference : DataPoints k) :
    inverse (Tref reference) * Tref reference = 1 := by
  unfold inverse
  rw [Tref_det, inv_one, one_smul, Matrix.adjugate_mul, Tref_det, one_smul]

theorem Tref_cancel (reference : DataPoints k) (A : TransformationParameters k) :
    Tref reference * (inverse (Tref reference) * A) = A := by
  rw [← Matrix.mul_assoc, Tref_mul_inverse, Matrix.one_mul]

end Frames

/-- C6: when the initialisation phase of `icp` ends with `iterate = false`, whatever the fuel,
`icp` goes straight from the state the initialisation left the stages in to
`inspector->finish(0)`: no stage and no checker is called in between (the checkers are as
`init` left them, no correction and no checked transformation is recorded), and the value
returned is `Tref * (Tref⁻¹ * T0)`, which is `T0`. -/
theorem icp_no_iteration {σ Quaternion : Type} {k : Nat} (E : Eigen Quaternion)
    (strategy : Strategy σ Quaternion k)
    (matcher : Matcher σ k) (descriptorOutlierFilter : DescriptorOutlierFilter σ k)
    (errorMinimizer : ErrorMinimizer σ k) (inspector : Inspector σ Quaternion k)
    (hm : strategy.matcher = some matcher)
    (hd : strategy.descriptorOutlierFilter = some descriptorOutlierFilter)
    (he : strategy.errorMinimizer = some errorMinimizer)
    (hi : strategy.inspector = some inspector)
    (T0 : TransformationParameters k) (reading reference : DataPoints k) (s s1 : σ)
    (i : InitState Quaternion k) (fuel : Nat)
    (hinit : icpInit E strategy matcher inspector (Tref reference) T0 reading
      (centredReference reference) s = .ok (i, s1))
    (hit : i.loop.iterate = false) :
    icp E fuel T0 reading reference strategy s =
      some (match inspector.finish 0 s1 with
            | .ok ((), s') =>
              .ok ({ transformationParameters :=
                       Tref reference * (inverse (Tref reference) * T0)
                     iterationCount := 0
                     transformationCheckers := i.loop.transformationCheckers
                     corrections := []
                     checked := [] }, s')
            | .error e => .error e) ∧
    Tref reference * (inverse (Tref reference) * T0) = T0 := by
  refine ⟨?_, Tref_cancel reference T0⟩
  obtain ⟨_, hT, hc, hcorr, hchk⟩ := icpInit_ok E strategy matcher inspector _ T0 reading _ s s1 i hinit
  rw [icp_eq_icpRun E fuel strategy matcher descriptorOutlierFilter errorMinimizer inspector
    hm hd he hi]
  unfold icpRun
  simp only [hinit]
  have hloop : icpLoop E strategy matcher descriptorOutlierFilter errorMinimizer inspector
      (Tref reference) i.reading i.reference fuel i.loop s1 = some (.ok (i.loop, s1)) := by
    cases fuel <;> simp [icpLoop, hit]
  simp only [hloop, icpFinish, hT, hc, hcorr, hchk]
  congr 1
  rw [StageM.bind_apply]
  cases inspector.finish 0 s1 with
  | error e => rfl
  | ok p => rfl

/-- Witness of C6: the sample matcher clears `iterate` in `init`; the stages have then
received the calls of the initialisation and `finish(0)`, and nothing else. -/
theorem icp_no_iteration_witness :
    icp sampleEigen 7 (sampleTransformation 0 3) (sampleCloud 1 0) (sampleCloud 1 2)
      (sampleStrategy [sampleFilter 1 false] true 1
        [TransformationChecker.counter (CounterTransformationChecker.new 24 4)]) []
      = some (.ok ({ transformationParameters :=
                       Tref (sampleCloud 1 2) *
                         (inverse (Tref (sampleCloud 1 2)) * sampleTransformation 0 3)
                     iterationCount := 0
                     transformationCheckers :=
                       [TransformationChecker.counter (CounterTransformationChecker.new 24 4)]
                     corrections := []
                     checked := [] },
                   [Call.preFilter, Call.matcherInit, Call.inspectorInit, Call.finish 0])) ∧
    Tref (sampleCloud 1 2) * (inverse (Tref (sampleCloud 1 2)) * sampleTransformation 0 3)
      = sampleTransformation 0 3 :=
  icp_no_iteration sampleEigen
    (sampleStrategy [sampleFilter 1 false] true 1
      [TransformationChecker.counter (CounterTransformationChecker.new 24 4)])
    (sampleMatcher 1 true) (sampleDescriptorOutlierFilter 1) (sampleErrorMinimizer 1)
    (sampleInspector _ 1) rfl rfl rfl rfl (sampleTransformation 0 3) (sampleCloud 1 0)
    (sampleCloud 1 2) [] [Call.preFilter, Call.matcherInit, Call.inspectorInit]
    { reading := sampleCloud 1 0
      reference := centredReference (sampleCloud 1 2)
      loop :=
        { iterate := false
          transformationParameters :=
            inverse (Tref (sampleCloud 1 2)) * sampleTransformation 0 3
          iterationCount := 0
          transformationCheckers :=
            [TransformationChecker.counter (CounterTransformationChecker.new 24 4)]
          corrections := []
          checked := [] } }
    7 rfl rfl

section Invariant

variable {σ Quaternion : Type} {k : Nat}

theorem loopBody_invariant (E : Eigen Quaternion) (strategy : Strategy σ Quaternion k)
    (matcher : Matcher σ k) (descriptorOutlierFilter : DescriptorOutlierFilter σ k)
    (errorMinimizer : ErrorMinimizer σ k) (inspector : Inspector σ Quaternion k)
    (P : TransformationParameters k → Prop)
    (hem : ∀ r q input w it s correction it' s',
      errorMinimizer.compute r q input w it s = .ok ((correction, it'), s') → P correction)
    (tref A : TransformationParameters k) (reading reference : DataPoints k)
    (st st' : LoopState Quaternion k) (s s' : σ)
    (h : loopBody E strategy matcher descriptorOutlierFilter errorMinimizer inspector tref
      reading reference st s = .ok (st', s'))
    (hinv : LoopInvariant P tref A st) : LoopInvariant P tref A st' := by
  obtain ⟨correction, it, _, hT, hcount, hcorr, hchk, r, q, input, w, it0, s0, s0', hcomp⟩ :=
    loopBody_ok E strategy matcher descriptorOutlierFilter errorMinimizer inspector tref
      reading reference st st' s s' h
  obtain ⟨iT, iN, iC, iP⟩ := hinv
  refine ⟨?_, ?_, ?_, ?_⟩
  · rw [hT, hcorr, iT, List.prod_append, List.prod_singleton, Matrix.mul_assoc]
  · rw [hcount, hcorr, iN, List.length_append, List.length_singleton]
  · rw [hchk, hcorr, iC, List.length_append, List.length_singleton, List.range_succ,
      List.map_append, List.map_singleton]
    congr 1
    · apply List.map_congr_left
      intro i hi
      rw [List.mem_range] at hi
      rw [List.take_append_of_le_length (by omega)]
    · rw [iT, ← List.length_singleton correction, ← List.length_append, List.take_length,
        List.prod_append, List.prod_singleton, Matrix.mul_assoc]
  · intro c hc
    rw [hcorr, List.mem_append, List.mem_singleton] at hc
    rcases hc with hc | rfl
    · exact iP c hc
    · exact hem _ _ _ _ _ _ _ _ _ hcomp

theorem icpLoop_invariant (E : Eigen Quaternion) (strategy : Strategy σ Quaternion k)
    (matcher : Matcher σ k) (descriptorOutlierFilter : DescriptorOutlierFilter σ k)
    (errorMinimizer : ErrorMinimizer σ k) (inspector : Inspector σ Quaternion k)
    (P : TransformationParameters k → Prop)
    (hem : ∀ r q input w it s correction it' s',
      errorMinimizer.compute r q input w it s = .ok ((correction, it'), s') → P correction)
    (tref A : TransformationParameters k) (reading reference : DataPoints k) :
    ∀ (fuel : Nat) (st st' : LoopState Quaternion k) (s s' : σ),
      icpLoop E strategy matcher descriptorOutlierFilter errorMinimizer inspector tref
        reading reference fuel st s = some (.ok (st', s')) →
      LoopInvariant P tref A st → LoopInvariant P tref A st' := by
  intro fuel
  induction fuel with
  | zero =>
    intro st st' s s' h hinv
    simp only [icpLoop] at h
    split at h
    · simp at h
    · simp only [Option.some.injEq, Except.ok.injEq, Prod.mk.injEq] at h
      rw [← h.1]
      exact hinv
  | succ fuel ih =>
    intro st st' s s' h hinv
    simp only [icpLoop] at h
    split at h
    · split at h
      · rename_i st1 s1 hb
        exact ih st1 st' s1 s' h
          (loopBody_invariant E strategy matcher descriptorOutlierFilter errorMinimizer
            inspector P hem tref A reading reference st st1 s s1 hb hinv)
      · simp at h
    · simp only [Option.some.injEq, Except.ok.injEq, Prod.mk.injEq] at h
      rw [← h.1]
      exact hinv

/-- What a run of `icp` that returns has computed, in the frame of `T0`; `P` is any property
of the corrections the error minimizer returns. -/
theorem icpRun_result (E : Eigen Quaternion) (fuel : Nat) (strategy : Strategy σ Quaternion k)
    (matcher : Matcher σ k) (descriptorOutlierFilter : DescriptorOutlierFilter σ k)
    (errorMinimizer : ErrorMinimizer σ k) (inspector : Inspector σ Quaternion k)
    (P : TransformationParameters k → Prop)
    (hem : ∀ r q input w it s correction it' s',
      errorMinimizer.compute r q input w it s = .ok ((correction, it'), s') → P correction)
    (T0 : TransformationParameters k) (reading reference : DataPoints k) (s s' : σ)
    (r : IcpResult Quaternion k)
    (h : icpRun E fuel strategy matcher descriptorOutlierFilter errorMinimizer inspector T0
      reading reference s = some (.ok (r, s'))) :
    (∃ checkers iterate, TransformationCheckers.init E T0 true strategy.transformationCheckers
        = .ok (checkers, iterate)) ∧
    r.corrections.length = r.iterationCount ∧
    r.transformationParameters = T0 * r.corrections.prod ∧
    r.checked = (List.range r.iterationCount).map
      (fun i => T0 * (r.corrections.take (i + 1)).prod) ∧
    ∀ correction ∈ r.corrections, P correction := by
  obtain ⟨i, s1, st, s2, hinit, hloop, hfin⟩ := icpRun_ok E fuel strategy matcher
    descriptorOutlierFilter errorMinimizer inspector T0 reading reference s s' r h
  obtain ⟨⟨it, hci⟩, hT, hc, hcorr, hchk⟩ :=
    icpInit_ok E strategy matcher inspector _ T0 reading _ s s1 i hinit
  have hinv0 : LoopInvariant P (Tref reference) (inverse (Tref reference) * T0) i.loop := by
    refine ⟨?_, ?_, ?_, ?_⟩
    · rw [hT, hcorr, List.prod_nil, Matrix.mul_one]
    · rw [hc, hcorr, List.length_nil]
    · rw [hchk, hcorr]; rfl
    · rw [hcorr]; intro c hc; simp at hc
  obtain ⟨iT, iN, iC, iP⟩ := icpLoop_invariant E strategy matcher descriptorOutlierFilter
    errorMinimizer inspector P hem _ _ i.reading i.reference fuel i.loop st s1 s2 hloop hinv0
  obtain ⟨_, rfl⟩ := icpFinish_ok inspector _ st s2 s' r hfin
  refine ⟨⟨_, it, hci⟩, iN.symm, ?_, ?_, iP⟩
  · simp only
    rw [iT, ← Matrix.mul_assoc, ← Matrix.mul_assoc, Tref_mul_inverse, Matrix.one_mul]
  · simp only
    rw [iC, iN]
    apply List.map_congr_left
    intro j _
    rw [← Matrix.mul_assoc, ← Matrix.mul_assoc, Tref_mul_inverse, Matrix.one_mul]

theorem HomogeneousBottomRow.mul {A B : TransformationParameters k}
    (hA : HomogeneousBottomRow A) (hB : HomogeneousBottomRow B) :
    HomogeneousBottomRow (A * B) := by
  intro j
  rw [Matrix.mul_apply, Finset.sum_eq_single (Fin.last (k + 2))]
  · rw [hA, if_pos rfl, one_mul, hB]
  · intro l _ hl
    rw [hA, if_neg hl, zero_mul]
  · intro h
    exact absurd (Finset.mem_univ _) h

theorem HomogeneousBottomRow.prod (l : List (TransformationParameters k))
    (h : ∀ M ∈ l, HomogeneousBottomRow M) : HomogeneousBottomRow l.prod := by
  induction l with
  | nil =>
    intro j
    rw [List.prod_nil, Matrix.one_apply]
    simp only [eq_comm]
  | cons M rest ih =>
    rw [List.prod_cons]
    exact HomogeneousBottomRow.mul (h M (List.mem_cons_self _ _))
      (ih (fun M' hM' => h M' (List.mem_cons_of_mem _ hM')))

end Invariant

theorem sampleTransformation_bottomRow (a t : ℚ) :
    HomogeneousBottomRow (sampleTransformation a t) := by
  intro j
  fin_cases j <;> rfl

/-- C8: when `T0` has the bottom row `(0, …, 0, 1)` and so has every correction the error
minimizer returns, the transformation a run of `icp` returns has the bottom row
`(0, …, 0, 1)`, whatever the clouds (in particular for every non-empty reference) and the
number of iterations (exact arithmetic). -/
theorem icp_bottom_row {σ Quaternion : Type} {k : Nat} (E : Eigen Quaternion)
    (fuel : Nat) (strategy : Strategy σ Quaternion k) (errorMinimizer : ErrorMinimizer σ k)
    (he : strategy.errorMinimizer = some errorMinimizer)
    (hem : ∀ r q input w it s correction it' s',
      errorMinimizer.compute r q input w it s = .ok ((correction, it'), s') →
      HomogeneousBottomRow correction)
    (T0 : TransformationParameters k) (hT0 : HomogeneousBottomRow T0)
    (reading reference : DataPoints k) (s s' : σ) (r : IcpResult Quaternion k)
    (h : icp E fuel T0 reading reference strategy s = some (.ok (r, s'))) :
    HomogeneousBottomRow r.transformationParameters := by
  rcases icp_cases E fuel strategy T0 reading reference s with ⟨what, hfail⟩ | hrun
  · rw [hfail] at h
    simp at h
  · obtain ⟨matcher, descriptorOutlierFilter, errorMinimizer', inspector, _, _, he', _, hrun⟩ :=
      hrun
    rw [he] at he'
    simp only [Option.some.injEq] at he'
    subst he'
    rw [hrun] at h
    obtain ⟨_, _, hT, _, hP⟩ := icpRun_result E fuel strategy matcher
      descriptorOutlierFilter errorMinimizer inspector HomogeneousBottomRow hem T0 reading
      reference s s' r h
    rw [hT]
    exact HomogeneousBottomRow.mul hT0 (HomogeneousBottomRow.prod _ hP)

/-- Witness of C8: a run of two iterations from a translation, with a minimizer that returns
a translation. -/
theorem icp_bottom_row_witness :
    ∃ r s',
      icp sampleEigen 2 (sampleTransformation 0 3) (sampleCloud 1 0) (sampleCloud 1 2)
        (sampleStrategy [] false (sampleTransformation 0 1)
          [TransformationChecker.counter (CounterTransformationChecker.new 24 2)]) []
        = some (.ok (r, s')) ∧
      HomogeneousBottomRow (sampleTransformation 0 3) ∧
      HomogeneousBottomRow r.transformationParameters := by
  obtain ⟨r, _, s', h, _, _, _⟩ :=
    icp_counter_only sampleEigen
      (sampleStrategy [] false (sampleTransformation 0 1)
        [TransformationChecker.counter (CounterTransformationChecker.new 24 2)])
      (sampleMatcher 1 false) (sampleDescriptorOutlierFilter 1)
      (sampleErrorMinimizer (sampleTransformation 0 1))
      (sampleInspector _ 1) rfl rfl rfl rfl
      (sampleStrategy_cooperative [] (by simp) (sampleTransformation 0 1) _)
      2 (CounterTransformationChecker.new 24 2) (by decide)
      (CounterTransformationChecker.new_limits 24 (by decide) 2 (by decide) (by norm_num))
      (by norm_num [CounterTransformationChecker.new]) rfl
      2 (by decide) (sampleTransformation 0 3) (sampleCloud 1 0) (sampleCloud 1 2) []
  refine ⟨r, s', h, sampleTransformation_bottomRow 0 3, ?_⟩
  exact icp_bottom_row sampleEigen 2 _ (sampleErrorMinimizer (sampleTransformation 0 1)) rfl
    (by
      intro _ _ _ _ _ _ correction _ _ hc
      simp only [sampleErrorMinimizer, logCall, Except.ok.injEq, Prod.mk.injEq] at hc
      rw [← hc.1.1]
      exact sampleTransformation_bottomRow 0 1)
    _ (sampleTransformation_bottomRow 0 3) _ _ _ _ r h

section ErrorDivergence

variable {Quaternion : Type} {k : Nat}

theorem Scalar.add_not_lt_zero (a b : Scalar) (ha : Scalar.lt a Scalar.zero = false)
    (hb : Scalar.lt b Scalar.zero = false) : Scalar.lt (Scalar.add a b) Scalar.zero = false := by
  cases a <;> cases b <;>
    simp_all only [Scalar.lt, Scalar.add, Scalar.zero, decide_eq_false_iff_not, not_lt,
      reduceCtorEq]
  exact add_nonneg ha hb

theorem Scalar.divNat_not_lt_zero (a : Scalar) (n : Nat) (ha : Scalar.lt a Scalar.zero = false) :
    Scalar.lt (Scalar.divNat a n) Scalar.zero = false := by
  cases a with
  | fin q =>
    simp only [Scalar.lt, Scalar.zero, decide_eq_false_iff_not, not_lt] at ha
    simp only [Scalar.divNat]
    split
    · split
      · rfl
      · split
        · rfl
        · rename_i h0 hpos
          exact absurd (lt_of_le_of_ne ha (Ne.symm h0)) hpos
    · simp only [Scalar.lt, Scalar.zero, decide_eq_false_iff_not, not_lt]
      exact div_nonneg ha (Nat.cast_nonneg n)
  | posInf => rfl
  | negInf => simp [Scalar.lt, Scalar.zero] at ha
  | nan => rfl

theorem Scalar.not_lt_neg_of_pos (a m : Scalar) (ha : Scalar.lt a Scalar.zero = false)
    (hm : Scalar.lt Scalar.zero m = true) : Scalar.lt a (Scalar.neg m) = false := by
  cases a <;> cases m <;>
    simp_all only [Scalar.lt, Scalar.neg, Scalar.zero, decide_eq_false_iff_not, not_lt,
      decide_eq_true_eq, reduceCtorEq]
  linarith

theorem ErrorTransformationChecker.averagingLoop_rotation_not_lt_zero (E : Eigen Quaternion)
    (hE : ∀ a b, Scalar.lt (E.angularDistance a b) Scalar.zero = false)
    (rotations : List Quaternion) (translations : List (Fin (k + 2) → ℚ)) (lower : Nat) :
    ∀ (i : Nat) (values values' : Fin 4 → Scalar),
      averagingLoop E rotations translations lower i values = some values' →
      Scalar.lt (values 2) Scalar.zero = false → Scalar.lt (values' 2) Scalar.zero = false := by
  intro i
  induction i with
  | zero =>
    intro values values' h hv
    simp only [averagingLoop] at h
    split at h
    · simp at h
    · simp only [Option.some.injEq] at h
      rw [← h]; exact hv
  | succ i ih =>
    intro values values' h hv
    simp only [averagingLoop] at h
    split at h
    · split at h
      · rename_i values1 hstep
        apply ih values1 values' h
        unfold averagingStep at hstep
        split at hstep
        · simp only [Option.some.injEq] at hstep
          rw [← hstep]
          exact Scalar.add_not_lt_zero _ _ hv (hE _ _)
        · simp at hstep
      · simp at h
    · simp only [Option.some.injEq] at h
      rw [← h]; exact hv

/-- With an angular distance that is never negative and a positive `minDeltaRotErr`, no call
to `check` raises "error is increasing": `values(2)` is a mean of angular distances and is
never below `-minDeltaRotErr`. -/
theorem ErrorTransformationChecker.check_never_increasing (E : Eigen Quaternion)
    (hE : ∀ a b, Scalar.lt (E.angularDistance a b) Scalar.zero = false)
    (minDeltaRotErr : Scalar) (hpos : Scalar.lt Scalar.zero minDeltaRotErr = true)
    (c : ErrorTransformationChecker Quaternion k)
    (hl : c.limits 2 = Scalar.neg minDeltaRotErr)
    (parameters : TransformationParameters k) (iterate : Bool) :
    check E parameters iterate c
      ≠ .error (Exception.ConvergenceError "error is increasing") := by
  intro h
  unfold check at h
  split at h
  · simp at h
  · rename_i c' hm
    have hlim : c'.limits = c.limits := (measure_fields E parameters c c' hm).2.2.1
    have hv : Scalar.lt (c'.values 2) Scalar.zero = false := by
      unfold measure at hm
      simp only at hm
      split at hm
      · split at hm
        · rename_i sums hloop
          simp only [Option.some.injEq] at hm
          rw [← hm]
          apply Scalar.divNat_not_lt_zero
          exact averagingLoop_rotation_not_lt_zero E hE _ _ _ _ _ _ hloop (by
            simp [Scalar.lt, Scalar.zero])
        · simp at hm
      · simp only [Option.some.injEq] at hm
        rw [← hm]
        simp [Scalar.lt, Scalar.zero]
    have hnot : Scalar.lt (c'.values 2) (c'.limits 2) = false := by
      rw [hlim, hl]
      exact Scalar.not_lt_neg_of_pos _ _ hv hpos
    simp only [hnot, Bool.false_and] at h
    split at h
    · simp at h
    · split at h
      · simp at h
      · simp at h

end ErrorDivergence

/-- A call whose summary `f` of the returned state and whose returned `iterate` are known has
returned normally. -/
theorem exists_ok_of_summary {α β : Type} (x : Except Exception (α × Bool)) (f : α → β) (b : β)
    (iterate : Bool)
    (h : (match x with
          | .ok r => some (f r.1, r.2)
          | .error _ => none) = some (b, iterate)) : ∃ a, x = .ok (a, iterate) ∧ f a = b := by
  cases x with
  | error e => simp at h
  | ok r =>
    obtain ⟨a, b'⟩ := r
    simp only [Option.some.injEq, Prod.mk.injEq] at h
    exact ⟨a, by rw [h.2], h.1⟩

/-- C11 (the code at the failing input): an error checker with `tail = 2` and both thresholds
`0.001` is fed `init` and two checks whose translation steps grow (1, then 2). The last check
returns normally: `values(2) = 0` and `values(3) = 1.5` are means of distances, not below
the negative limits, so "error is increasing" is not raised. -/
theorem error_increasing_not_raised :
    ∃ c c',
      afterCalls (ErrorTransformationChecker.init sampleEigen)
        (ErrorTransformationChecker.check sampleEigen)
        (ErrorTransformationChecker.new (Scalar.fin (1 / 1000)) (Scalar.fin (1 / 1000)) 2)
        (sampleTransformation 0 0) true [(sampleTransformation 0 1, true)] = some c ∧
      ErrorTransformationChecker.check sampleEigen (sampleTransformation 0 3) true c
        = .ok (c', true) ∧
      (c'.values 2, c'.values 3) = (Scalar.fin 0, Scalar.fin (3 / 2)) := by
  have h1 : afterCalls (ErrorTransformationChecker.init sampleEigen)
        (ErrorTransformationChecker.check sampleEigen)
        (ErrorTransformationChecker.new (Scalar.fin (1 / 1000)) (Scalar.fin (1 / 1000)) 2)
        (sampleTransformation 0 0) true [(sampleTransformation 0 1, true)] =
      some { values := ![Scalar.zero, Scalar.zero, Scalar.zero, Scalar.zero]
             limits := ![Scalar.fin (1 / 1000), Scalar.fin (1 / 1000),
                         Scalar.neg (Scalar.fin (1 / 1000)), Scalar.neg (Scalar.fin (1 / 1000))]
             rotations := [!![1, 0, 0; 0, 1, 0; 0, 0, 1], !![1, 0, 0; 0, 1, 0; 0, 0, 1]]
             translations := [![0, 0, 0], ![1, 0, 0]]
             tail := 2 } := by
    norm_num [afterCalls, ErrorTransformationChecker.init, ErrorTransformationChecker.new,
      ErrorTransformationChecker.check, ErrorTransformationChecker.measure,
      sampleEigen, cornerTopLeft3_sample, cornerTopRight_sample, Scalar.lt, Scalar.zero,
      Scalar.isnan, Scalar.neg]
  obtain ⟨c', hc', hv⟩ := exists_ok_of_summary
    (ErrorTransformationChecker.check sampleEigen (sampleTransformation 0 3) true
      { values := ![Scalar.zero, Scalar.zero, Scalar.zero, Scalar.zero]
        limits := ![Scalar.fin (1 / 1000), Scalar.fin (1 / 1000),
                    Scalar.neg (Scalar.fin (1 / 1000)), Scalar.neg (Scalar.fin (1 / 1000))]
        rotations := [!![1, 0, 0; 0, 1, 0; 0, 0, 1], !![1, 0, 0; 0, 1, 0; 0, 0, 1]]
        translations := [![0, 0, 0], ![1, 0, 0]]
        tail := 2 })
    (fun c => (c.values 2, c.values 3)) (Scalar.fin 0, Scalar.fin (3 / 2)) true
    (by
      norm_num [ErrorTransformationChecker.check, ErrorTransformationChecker.measure,
        ErrorTransformationChecker.averagingLoop, ErrorTransformationChecker.averagingStep,
        sampleEigen, cornerTopLeft3_sample, cornerTopRight_sample, Scalar.lt, Scalar.zero,
        Scalar.add, Scalar.divNat, Scalar.isnan, Scalar.neg, anyabs, Fin.sum_univ_succ])
  exact ⟨_, c', h1, hc', hv⟩

/-- Counterexample to C12 as stated: with both thresholds `-1` and `tail = 5`, the first check
after `init` leaves two entries in the sequences, at most `tail`, and raises
"error is increasing". -/
theorem error_warmup_check_counterexample :
    ∃ c : ErrorTransformationChecker (Matrix (Fin 3) (Fin 3) ℚ) 1,
      afterCalls (ErrorTransformationChecker.init sampleEigen)
        (ErrorTransformationChecker.check sampleEigen)
        (ErrorTransformationChecker.new (Scalar.fin (-1)) (Scalar.fin (-1)) 5)
        (sampleTransformation 0 0) true [] = some c ∧
      c.rotations.length + 1 ≤ c.tail ∧
      ErrorTransformationChecker.check sampleEigen (sampleTransformation 0 1) true c
        = .error (Exception.ConvergenceError "error is increasing") := by
  refine ⟨_, rfl, by decide, ?_⟩
  norm_num [ErrorTransformationChecker.init, ErrorTransformationChecker.new,
    ErrorTransformationChecker.check, ErrorTransformationChecker.measure,
    sampleEigen, cornerTopLeft3_sample, cornerTopRight_sample, Scalar.lt, Scalar.zero,
    Scalar.isnan, Scalar.neg]

/-- C12 (as amended): for every `tail` and every `minDeltaRotErr`, `minDeltaTransErr` that are
not both negative, a call to `check` after which the sequences hold at most `tail` entries
returns normally, with `iterate` as it was on entry, one rotation and one translation appended
and `values` zero. -/
theorem error_warmup_check {Quaternion : Type} {k : Nat} (E : Eigen Quaternion)
    (minDeltaRotErr minDeltaTransErr : Scalar) (tail : Nat)
    (values0 : Fin 4 → Scalar) (rotations : List Quaternion)
    (translations : List (Fin (k + 2) → ℚ))
    (parameters : TransformationParameters k) (iterate : Bool)
    (hwarm : rotations.length + 1 ≤ tail)
    (hsign : ¬ (Scalar.lt minDeltaRotErr Scalar.zero = true ∧
                Scalar.lt minDeltaTransErr Scalar.zero = true)) :
    ErrorTransformationChecker.check E parameters iterate
        { values := values0
          limits := ![minDeltaRotErr, minDeltaTransErr, Scalar.neg minDeltaRotErr,
                      Scalar.neg minDeltaTransErr]
          rotations := rotations
          translations := translations
          tail := tail }
      = .ok ({ values := ![Scalar.zero, Scalar.zero, Scalar.zero, Scalar.zero]
               limits := ![minDeltaRotErr, minDeltaTransErr, Scalar.neg minDeltaRotErr,
                           Scalar.neg minDeltaTransErr]
               rotations := rotations ++ [E.ofMatrix (cornerTopLeft3 parameters)]
               translations := translations ++ [cornerTopRight parameters]
               tail := tail }, iterate) := by
  have hlen : ¬ ((rotations ++ [E.ofMatrix (cornerTopLeft3 parameters)]).length > tail) := by
    rw [List.length_append, List.length_singleton]
    omega
  have hneg : ∀ m : Scalar, Scalar.lt Scalar.zero (Scalar.neg m) = Scalar.lt m Scalar.zero := by
    intro m
    cases m <;> simp [Scalar.lt, Scalar.neg, Scalar.zero]
  have hboth : (Scalar.lt Scalar.zero (Scalar.neg minDeltaRotErr) &&
      Scalar.lt Scalar.zero (Scalar.neg minDeltaTransErr)) = false := by
    rw [hneg, hneg, Bool.and_eq_false_iff]
    by_cases h1 : Scalar.lt minDeltaRotErr Scalar.zero = true
    · right
      by_contra h2
      exact hsign ⟨h1, by simpa using h2⟩
    · left
      simpa using h1
  have hm : ErrorTransformationChecker.measure E parameters
      { values := values0
        limits := ![minDeltaRotErr, minDeltaTransErr, Scalar.neg minDeltaRotErr,
                    Scalar.neg minDeltaTransErr]
        rotations := rotations
        translations := translations
        tail := tail }
      = some { values := ![Scalar.zero, Scalar.zero, Scalar.zero, Scalar.zero]
               limits := ![minDeltaRotErr, minDeltaTransErr, Scalar.neg minDeltaRotErr,
                           Scalar.neg minDeltaTransErr]
               rotations := rotations ++ [E.ofMatrix (cornerTopLeft3 parameters)]
               translations := translations ++ [cornerTopRight parameters]
               tail := tail } := by
    unfold ErrorTransformationChecker.measure
    simp only [if_neg hlen]
  unfold ErrorTransformationChecker.check
  rw [hm]
  simp only [if_neg hlen]
  have hz : Scalar.isnan Scalar.zero = false := rfl
  simp [hz, hboth]

/-- Witness of C12: thresholds `0.001`, `tail = 5`, the first check after `init`. -/
theorem error_warmup_check_witness :
    [sampleEigen.ofMatrix (cornerTopLeft3 (sampleTransformation 0 0))].length + 1 ≤ 5 ∧
    ¬ (Scalar.lt (Scalar.fin (1 / 1000)) Scalar.zero = true ∧
       Scalar.lt (Scalar.fin (1 / 1000)) Scalar.zero = true) ∧
    ErrorTransformationChecker.check sampleEigen (sampleTransformation 0 1) true
        { values := ![Scalar.zero, Scalar.zero, Scalar.zero, Scalar.zero]
          limits := ![Scalar.fin (1 / 1000), Scalar.fin (1 / 1000),
                      Scalar.neg (Scalar.fin (1 / 1000)), Scalar.neg (Scalar.fin (1 / 1000))]
          rotations := [sampleEigen.ofMatrix (cornerTopLeft3 (sampleTransformation 0 0))]
          translations := [cornerTopRight (sampleTransformation 0 0)]
          tail := 5 }
      = .ok ({ values := ![Scalar.zero, Scalar.zero, Scalar.zero, Scalar.zero]
               limits := ![Scalar.fin (1 / 1000), Scalar.fin (1 / 1000),
                           Scalar.neg (Scalar.fin (1 / 1000)),
                           Scalar.neg (Scalar.fin (1 / 1000))]
               rotations := [sampleEigen.ofMatrix (cornerTopLeft3 (sampleTransformation 0 0))]
                 ++ [sampleEigen.ofMatrix (cornerTopLeft3 (sampleTransformation 0 1))]
               translations := [cornerTopRight (sampleTransformation 0 0)]
                 ++ [cornerTopRight (sampleTransformation 0 1)]
               tail := 5 }, true) :=
  have hsign : ¬ (Scalar.lt (Scalar.fin (1 / 1000)) Scalar.zero = true ∧
       Scalar.lt (Scalar.fin (1 / 1000)) Scalar.zero = true) := by
    norm_num [Scalar.lt, Scalar.zero]
  ⟨by decide, hsign,
    error_warmup_check sampleEigen (Scalar.fin (1 / 1000)) (Scalar.fin (1 / 1000)) 5
      ![Scalar.zero, Scalar.zero, Scalar.zero, Scalar.zero]
      [sampleEigen.ofMatrix (cornerTopLeft3 (sampleTransformation 0 0))]
      [cornerTopRight (sampleTransformation 0 0)] (sampleTransformation 0 1) true
      (by decide) hsign⟩

/-- C15 (the code at the failing input): for the 2D transformation with translation `(5, 0)`,
`init` builds its rotation from the identity-padded 2 × 2 block, which is the identity, while
`check` builds the rotation it appends from the top-left 3 × 3 corner, which in 2D is the
whole matrix, translation column included: the two matrices differ. -/
theorem error_check_2d_matrix_differs :
    ∃ c0 c1 : ErrorTransformationChecker (Matrix (Fin 3) (Fin 3) ℚ) 0,
      ErrorTransformationChecker.init sampleEigen (sampleTransformation2D 5) true
        (ErrorTransformationChecker.new (Scalar.fin 1) (Scalar.fin 1) 3) = .ok (c0, true) ∧
      c0.rotations = [ErrorTransformationChecker.identityPadded (sampleTransformation2D 5)] ∧
      ErrorTransformationChecker.measure sampleEigen (sampleTransformation2D 5) c0 = some c1 ∧
      c1.rotations = [ErrorTransformationChecker.identityPadded (sampleTransformation2D 5),
                      cornerTopLeft3 (sampleTransformation2D 5)] ∧
      ErrorTransformationChecker.identityPadded (sampleTransformation2D 5) = 1 ∧
      cornerTopLeft3 (sampleTransformation2D 5) = !![1, 0, 5; 0, 1, 0; 0, 0, 1] ∧
      cornerTopLeft3 (sampleTransformation2D 5)
        ≠ ErrorTransformationChecker.identityPadded (sampleTransformation2D 5) := by
  have hpad : ErrorTransformationChecker.identityPadded (sampleTransformation2D 5) = 1 := by
    ext i j
    fin_cases i <;> fin_cases j <;> rfl
  have hcorner : cornerTopLeft3 (sampleTransformation2D 5) = !![1, 0, 5; 0, 1, 0; 0, 0, 1] := by
    ext i j
    fin_cases i <;> fin_cases j <;> rfl
  refine ⟨_, _, rfl, rfl, rfl, rfl, hpad, hcorner, ?_⟩
  rw [hpad, hcorner]
  intro h
  have h02 := congrFun (congrFun h 0) 2
  rw [Matrix.one_apply_ne (by decide)] at h02
  norm_num at h02

section Averaging

variable {Quaternion : Type} {k : Nat}

open ErrorTransformationChecker

theorem ErrorTransformationChecker.averagingIndices_eq (lower : Nat) (hlower : 1 ≤ lower) :
    ∀ i, averagingIndices lower i = some ((List.range (i + 1 - lower)).map (fun j => i - j)) := by
  intro i
  induction i with
  | zero =>
    have h : ¬ lower ≤ 0 := by omega
    have h0 : 0 + 1 - lower = 0 := by omega
    simp only [averagingIndices, if_neg h, h0, List.range_zero, List.map_nil]
  | succ i ih =>
    by_cases h : lower ≤ i + 1
    · have hm : i + 1 + 1 - lower = (i + 1 - lower) + 1 := by omega
      simp only [averagingIndices, if_pos h, ih, Option.map_some', hm, List.range_succ_eq_map,
        List.map_cons, List.map_map, Nat.sub_zero]
      congr 2
      apply List.map_congr_left
      intro j _
      simp only [Function.comp_apply]
      omega
    · have h0 : i + 1 + 1 - lower = 0 := by omega
      simp only [averagingIndices, if_neg h, h0, List.range_zero, List.map_nil]

theorem ErrorTransformationChecker.averagingLoop_eq_foldlM (E : Eigen Quaternion)
    (rotations : List Quaternion) (translations : List (Fin (k + 2) → ℚ)) (lower : Nat) :
    ∀ (i : Nat) (values : Fin 4 → Scalar),
      averagingLoop E rotations translations lower i values =
        (averagingIndices lower i).bind (fun l =>
          l.foldlM (fun acc j => averagingStep E rotations translations (j - 1) acc) values) := by
  intro i
  induction i with
  | zero =>
    intro values
    by_cases h : lower ≤ 0
    · simp only [averagingLoop, averagingIndices, if_pos h, Option.none_bind]
    · simp only [averagingLoop, averagingIndices, if_neg h, Option.some_bind, List.foldlM_nil]
      rfl
  | succ i ih =>
    intro values
    by_cases h : lower ≤ i + 1
    · simp only [averagingLoop, averagingIndices, if_pos h]
      cases hstep : averagingStep E rotations translations i values with
      | none =>
        cases averagingIndices lower i with
        | none => rfl
        | some l =>
          simp only [Option.map_some', Option.some_bind, List.foldlM_cons,
            Nat.add_sub_cancel, hstep]
          rfl
      | some values' =>
        simp only [ih values']
        cases averagingIndices lower i with
        | none => rfl
        | some l =>
          simp only [Option.map_some', Option.some_bind, List.foldlM_cons,
            Nat.add_sub_cancel, hstep]
          rfl
    · simp only [averagingLoop, averagingIndices, if_neg h, Option.some_bind, List.foldlM_nil]
      rfl

theorem ErrorTransformationChecker.averagingStep_eq (E : Eigen Quaternion)
    (rotations : List Quaternion) (translations : List (Fin (k + 2) → ℚ)) (i : Nat)
    (values : Fin 4 → Scalar) (hi : i + 1 < rotations.length)
    (hsync : translations.length = rotations.length) :
    ∃ values', averagingStep E rotations translations i values = some values' ∧
      ∀ j, values' j = Scalar.add (values j) (stepTerm E rotations translations j (i + 1)) := by
  have h1 : i < rotations.length := by omega
  have h2 : i + 1 < translations.length := by omega
  have h3 : i < translations.length := by omega
  simp only [averagingStep, stepTerm, rotationStep, translationStep, List.get?_eq_getElem?,
    Nat.add_sub_cancel, List.getElem?_eq_getElem hi,
    List.getElem?_eq_getElem h1, List.getElem?_eq_getElem h2, List.getElem?_eq_getElem h3]
  refine ⟨_, rfl, ?_⟩
  intro j
  fin_cases j <;> rfl

end Averaging

section AveragingSum

variable {Quaternion : Type} {k : Nat}

open ErrorTransformationChecker

theorem scalar_add_comm (a b : Scalar) : Scalar.add a b = Scalar.add b a := by
  cases a <;> cases b <;> simp [Scalar.add, add_comm]

/-- The averaging loop, entered at index `i` with the `n` indices `lower, …, i` ahead and all
of them inside the sequences, returns for each value what it had plus the sum of its terms
over `lower, …, i`. -/
theorem ErrorTransformationChecker.averagingLoop_sum (E : Eigen Quaternion)
    (rotations : List Quaternion) (translations : List (Fin (k + 2) → ℚ)) (lower : Nat)
    (hlower : 1 ≤ lower) (hsync : translations.length = rotations.length) :
    ∀ (n i : Nat) (values : Fin 4 → Scalar), i + 1 = lower + n → i < rotations.length →
      ∃ values', averagingLoop E rotations translations lower i values = some values' ∧
        ∀ j, values' j =
          ((List.range' lower n).map (stepTerm E rotations translations j)).foldr Scalar.add
            (values j) := by
  intro n
  induction n with
  | zero =>
    intro i values hi _
    refine ⟨values, ?_, fun j => rfl⟩
    cases i with
    | zero =>
      have h : ¬ lower ≤ 0 := by omega
      simp only [averagingLoop, if_neg h]
    | succ i =>
      have h : ¬ lower ≤ i + 1 := by omega
      simp only [averagingLoop, if_neg h]
  | succ n ih =>
    intro i values hi hlt
    obtain ⟨i, rfl⟩ : ∃ i', i = i' + 1 := ⟨i - 1, by omega⟩
    have h : lower ≤ i + 1 := by omega
    obtain ⟨values1, hstep, hval1⟩ :=
      averagingStep_eq E rotations translations i values hlt hsync
    obtain ⟨values', hloop, hval'⟩ := ih i values1 (by omega) (by omega)
    refine ⟨values', ?_, ?_⟩
    · simp only [averagingLoop, if_pos h, hstep, hloop]
    · intro j
      have hidx : lower + n = i + 1 := by omega
      rw [hval' j, hval1 j, List.range'_concat, List.map_append, List.foldr_append,
        List.map_singleton, List.foldr_cons, List.foldr_nil, Nat.one_mul, hidx,
        scalar_add_comm (values j)]

end AveragingSum

/-- C19: when the averaging loop is entered, that is with `s > tail` entries in the sequences,
and `tail ≥ 1`, the index takes exactly the `tail` values `s-1, s-2, …, s-tail` in this
order and never wraps around; every value `i` it takes has `1 ≤ i ≤ s-1`, so the entries `i`
and `i-1` it reads exist; and the loop reads nothing outside the sequences and returns. -/
theorem averaging_loop_safe (s tail : Nat) (htail : 1 ≤ tail) (hs : tail < s) :
    ErrorTransformationChecker.averagingIndices (s - tail) (s - 1)
      = some ((List.range tail).map (fun j => s - 1 - j)) ∧
    ((List.range tail).map (fun j => s - 1 - j)).length = tail ∧
    (∀ i ∈ (List.range tail).map (fun j => s - 1 - j), 1 ≤ i ∧ i ≤ s - 1) ∧
    ∀ {Quaternion : Type} {k : Nat} (E : Eigen Quaternion) (rotations : List Quaternion)
      (translations : List (Fin (k + 2) → ℚ)) (values : Fin 4 → Scalar),
      rotations.length = s → translations.length = s →
      (∃ values', ErrorTransformationChecker.averagingLoop E rotations translations (s - tail)
          (s - 1) values = some values') ∧
      ErrorTransformationChecker.averagingLoop E rotations translations (s - tail) (s - 1) values
        = ((List.range tail).map (fun j => s - 1 - j)).foldlM
            (fun acc i => ErrorTransformationChecker.averagingStep E rotations translations
              (i - 1) acc) values := by
  have hidx := ErrorTransformationChecker.averagingIndices_eq (s - tail) (by omega) (s - 1)
  have hcount : s - 1 + 1 - (s - tail) = tail := by omega
  rw [hcount] at hidx
  refine ⟨hidx, by simp, ?_, ?_⟩
  · intro i hi
    simp only [List.mem_map, List.mem_range] at hi
    obtain ⟨j, hj, rfl⟩ := hi
    omega
  · intro Quaternion k E rotations translations values hr ht
    constructor
    · obtain ⟨values', h, _⟩ := ErrorTransformationChecker.averagingLoop_sum E rotations
        translations (s - tail) (by omega) (by rw [hr, ht]) tail (s - 1) values (by omega)
        (by omega)
      exact ⟨values', h⟩
    · rw [ErrorTransformationChecker.averagingLoop_eq_foldlM, hidx]
      rfl

/-- Witness of C19: four entries and `tail = 2`: the index takes the values 3 and 2. -/
theorem averaging_loop_safe_witness :
    ErrorTransformationChecker.averagingIndices (4 - 2) (4 - 1)
      = some ((List.range 2).map (fun j => 4 - 1 - j)) ∧
    (List.range 2).map (fun j => 4 - 1 - j) = [3, 2] :=
  ⟨(averaging_loop_safe 4 2 (by decide) (by decide)).1, by decide⟩

section OutlierProduct

variable {σ : Type} {k : Nat}

theorem FeatureOutlierFilters.computeFrom_product (r q : DataPoints k) (input : Matches)
    (fws : List (FeatureOutlierFilter σ k × OutlierWeights input.rows input.cols))
    (h : ∀ p ∈ fws, ∀ iterate s, ∃ iterate' s',
      p.1.compute r q input iterate s = .ok ((p.2, iterate'), s')) :
    ∀ (w0 : OutlierWeights input.rows input.cols) (iterate : Bool) (s : σ), ∃ iterate' s',
      computeFrom r q input (fws.map Prod.fst) w0 iterate s =
        .ok ((fun i j => w0 i j * (fws.map (fun p => p.2 i j)).prod, iterate'), s') := by
  induction fws with
  | nil =>
    intro w0 iterate s
    refine ⟨iterate, s, ?_⟩
    have : (fun i j => w0 i j * (([] : List (FeatureOutlierFilter σ k ×
        OutlierWeights input.rows input.cols)).map (fun p => p.2 i j)).prod) = w0 := by
      funext i j
      simp
    rw [this]
    rfl
  | cons p rest ih =>
    intro w0 iterate s
    obtain ⟨it1, s1, h1⟩ := h p (List.mem_cons_self _ _) iterate s
    obtain ⟨it2, s2, h2⟩ := ih (fun p' hp' => h p' (List.mem_cons_of_mem _ hp'))
      (fun i j => w0 i j * p.2 i j) it1 s1
    refine ⟨it2, s2, ?_⟩
    have : (fun i j => w0 i j * ((p :: rest).map (fun p => p.2 i j)).prod)
        = (fun i j => w0 i j * p.2 i j * (rest.map (fun p => p.2 i j)).prod) := by
      funext i j
      simp [mul_assoc]
    rw [this, List.map_cons]
    unfold computeFrom
    rw [StageM.bind_of_ok _ _ _ _ _ h1]
    exact h2

end OutlierProduct

section OutlierReturned

variable {σ : Type} {k : Nat}

theorem FeatureOutlierFilters.computeFrom_returned (r q : DataPoints k) (input : Matches)
    (filters : List (FeatureOutlierFilter σ k)) :
    ∀ (w0 : OutlierWeights input.rows input.cols) (iterate : Bool) (s : σ),
      computeFrom r q input filters w0 iterate s =
        match returned r q input filters iterate s with
        | .ok ((ws, iterate'), s') =>
          .ok ((fun i j => w0 i j * (ws.map (fun w => w i j)).prod, iterate'), s')
        | .error e => .error e := by
  induction filters with
  | nil =>
    intro w0 iterate s
    simp only [computeFrom, returned, StageM.pure_apply, List.map_nil, List.prod_nil, mul_one]
  | cons f rest ih =>
    intro w0 iterate s
    unfold computeFrom returned
    rw [StageM.bind_apply, StageM.bind_apply]
    cases hf : f.compute r q input iterate s with
    | error e => rfl
    | ok p =>
      obtain ⟨⟨w, it1⟩, s1⟩ := p
      simp only
      rw [ih, StageM.bind_apply]
      cases hr : returned r q input rest it1 s1 with
      | error e => rfl
      | ok p' =>
        obtain ⟨⟨ws, it2⟩, s2⟩ := p'
        simp only [StageM.pure_apply, List.map_cons, List.prod_cons, mul_assoc]

end OutlierReturned

/-- C14 (as amended), in exact arithmetic: for every list of filters,
`FeatureOutlierFilters::compute` returns the matrix whose `(i, j)` entry is the product of the
`(i, j)` weights the filters return in this call, where they are called in registration
order, each with the `iterate` and the stage state the one before left, and it raises when
one of them raises; for no filter at all it returns the all-ones matrix and leaves `iterate`
and the stages alone; and when each filter returns its own weight matrix whatever `iterate`
and the state of the stages, the same filters registered in another order give the same
matrix. -/
theorem feature_outlier_product {σ : Type} {k : Nat} (r q : DataPoints k) (input : Matches) :
    (∀ (filters : List (FeatureOutlierFilter σ k)) iterate s,
      FeatureOutlierFilters.compute filters r q input iterate s =
        match FeatureOutlierFilters.returned r q input filters iterate s with
        | .ok ((ws, iterate'), s') =>
          .ok ((fun i j => (ws.map (fun w => w i j)).prod, iterate'), s')
        | .error e => .error e) ∧
    (∀ iterate s,
      FeatureOutlierFilters.compute ([] : List (FeatureOutlierFilter σ k)) r q input iterate s =
        .ok ((fun _ _ => 1, iterate), s)) ∧
    (∀ fws fws' : List (FeatureOutlierFilter σ k × OutlierWeights input.rows input.cols),
      (∀ p ∈ fws, ∀ iterate s, ∃ iterate' s',
        p.1.compute r q input iterate s = .ok ((p.2, iterate'), s')) →
      fws'.Perm fws → ∀ iterate s, ∃ iterate' s',
        FeatureOutlierFilters.compute (fws'.map Prod.fst) r q input iterate s =
          .ok ((fun i j => (fws.map (fun p => p.2 i j)).prod, iterate'), s')) := by
  have key : ∀ l : List (FeatureOutlierFilter σ k × OutlierWeights input.rows input.cols),
      (∀ p ∈ l, ∀ iterate s, ∃ iterate' s',
        p.1.compute r q input iterate s = .ok ((p.2, iterate'), s')) →
      ∀ iterate s, ∃ iterate' s',
        FeatureOutlierFilters.compute (l.map Prod.fst) r q input iterate s =
          .ok ((fun i j => (l.map (fun p => p.2 i j)).prod, iterate'), s') := by
    intro l hl iterate s
    obtain ⟨it', s', h'⟩ := FeatureOutlierFilters.computeFrom_product r q input l hl
      (fun _ _ => 1) iterate s
    refine ⟨it', s', ?_⟩
    unfold FeatureOutlierFilters.compute
    rw [h']
    simp only [one_mul]
  refine ⟨?_, fun iterate s => rfl, ?_⟩
  · intro filters iterate s
    unfold FeatureOutlierFilters.compute
    rw [FeatureOutlierFilters.computeFrom_returned]
    simp only [one_mul]
  · intro fws fws' h hperm iterate s
    obtain ⟨it', s', h'⟩ := key fws' (fun p hp => h p (hperm.mem_iff.mp hp)) iterate s
    refine ⟨it', s', ?_⟩
    rw [h']
    have : (fun i j => (fws'.map (fun p => p.2 i j)).prod)
        = (fun i j => (fws.map (fun p => p.2 i j)).prod) := by
      funext i j
      exact (hperm.map _).prod_eq
    rw [this]

/-- Witness of C14: the two sample filters of weights `1/2` and `1/3`, registered in the
opposite order, give the product of the weights on the one match. -/
theorem feature_outlier_product_witness :
    ∃ iterate' s',
      FeatureOutlierFilters.compute (sampleWeightedFilters.reverse.map Prod.fst)
        (sampleCloud 1 0) (sampleCloud 1 2) sampleMatches true []
      = .ok ((fun i j => (sampleWeightedFilters.map (fun p => p.2 i j)).prod, iterate'), s') :=
  (feature_outlier_product (sampleCloud 1 0) (sampleCloud 1 2) sampleMatches).2.2
    sampleWeightedFilters sampleWeightedFilters.reverse
    (by
      intro p hp iterate s
      simp only [sampleWeightedFilters, List.mem_cons, List.mem_singleton, List.not_mem_nil,
        or_false] at hp
      rcases hp with rfl | rfl
      · exact ⟨_, _, rfl⟩
      · exact ⟨_, _, rfl⟩)
    (List.reverse_perm _) true []

/-- C14 as stated fails, since the filters share `iterate`: a filter that clears `iterate`
and gives the weight `1/2`, and a filter that gives the weight `1` while `iterate` is set and
`1/3` once it is cleared, give the weight `1/6` registered in this order and the weight
`1/2` registered in the other order. -/
theorem feature_outlier_product_counterexample :
    FeatureOutlierFilters.compute [sampleClearingOutlierFilter 1, sampleIterateOutlierFilter 1]
        (sampleCloud 1 0) (sampleCloud 1 2) sampleMatches true []
      = .ok ((fun _ _ => 1 / 6, false), [Call.featureOutlierFilter, Call.featureOutlierFilter]) ∧
    FeatureOutlierFilters.compute [sampleIterateOutlierFilter 1, sampleClearingOutlierFilter 1]
        (sampleCloud 1 0) (sampleCloud 1 2) sampleMatches true []
      = .ok ((fun _ _ => 1 / 2, false), [Call.featureOutlierFilter, Call.featureOutlierFilter]) ∧
    ((fun _ _ => 1 / 6) : OutlierWeights sampleMatches.rows sampleMatches.cols)
      ≠ (fun _ _ => 1 / 2) := by
  refine ⟨?_, ?_, ?_⟩
  · simp only [FeatureOutlierFilters.compute, FeatureOutlierFilters.computeFrom,
      sampleClearingOutlierFilter, sampleIterateOutlierFilter, logCall, StageM.bind_apply,
      StageM.pure_apply]
    norm_num
  · simp only [FeatureOutlierFilters.compute, FeatureOutlierFilters.computeFrom,
      sampleClearingOutlierFilter, sampleIterateOutlierFilter, logCall, StageM.bind_apply,
      StageM.pure_apply]
    norm_num
  · intro h
    have := congrFun (congrFun h ⟨0, by decide⟩) ⟨0, by decide⟩
    norm_num at this

section Weights

variable {σ Quaternion : Type} {k : Nat}

theorem StageM.bind_assoc {α β γ : Type} (x : StageM σ α) (f : α → StageM σ β)
    (g : β → StageM σ γ) : (x >>= f) >>= g = x >>= fun a => f a >>= g := by
  funext s
  simp only [StageM.bind_apply]
  cases x s with
  | error e => rfl
  | ok p => rfl

theorem StageM.pure_bind {α β : Type} (a : α) (f : α → StageM σ β) :
    (pure a : StageM σ α) >>= f = f a := rfl

/-- The loop body is its first part followed by its second part. -/
theorem loopBody_eq_weighting (E : Eigen Quaternion) (strategy : Strategy σ Quaternion k)
    (matcher : Matcher σ k) (descriptorOutlierFilter : DescriptorOutlierFilter σ k)
    (errorMinimizer : ErrorMinimizer σ k) (inspector : Inspector σ Quaternion k)
    (tref : TransformationParameters k) (reading reference : DataPoints k)
    (st : LoopState Quaternion k) :
    loopBody E strategy matcher descriptorOutlierFilter errorMinimizer inspector tref
        reading reference st =
      weighting strategy matcher descriptorOutlierFilter reading reference st >>=
        minimizing E errorMinimizer inspector tref st := by
  unfold loopBody weighting minimizing
  simp only [StageM.bind_assoc, StageM.pure_bind]

end Weights

section WeightBounds

variable {σ Quaternion : Type} {k : Nat}

theorem FeatureOutlierFilters.computeFrom_unit (r q : DataPoints k) (input : Matches)
    (fs : List (FeatureOutlierFilter σ k))
    (hf : ∀ f ∈ fs, ∀ r q input iterate s w iterate' s',
      f.compute r q input iterate s = .ok ((w, iterate'), s') → UnitWeights w) :
    ∀ (w0 : OutlierWeights input.rows input.cols) (iterate : Bool) (s : σ) w iterate' s',
      UnitWeights w0 → computeFrom r q input fs w0 iterate s = .ok ((w, iterate'), s') →
      UnitWeights w := by
  induction fs with
  | nil =>
    intro w0 iterate s w iterate' s' h0 h
    simp only [computeFrom, StageM.pure_apply, Except.ok.injEq, Prod.mk.injEq] at h
    rw [← h.1.1]
    exact h0
  | cons f rest ih =>
    intro w0 iterate s w iterate' s' h0 h
    unfold computeFrom at h
    rw [StageM.bind_eq_ok] at h
    obtain ⟨⟨w1, it1⟩, s1, h1, h2⟩ := h
    have hw1 := hf f (List.mem_cons_self _ _) r q input iterate s w1 it1 s1 h1
    apply ih (fun g hg => hf g (List.mem_cons_of_mem _ hg)) _ it1 s1 w iterate' s' _ h2
    intro i j
    show 0 ≤ w0 i j * w1 i j ∧ w0 i j * w1 i j ≤ 1
    refine ⟨mul_nonneg (h0 i j).1 (hw1 i j).1, ?_⟩
    have h3 : w0 i j * w1 i j ≤ 1 * w1 i j := mul_le_mul_of_nonneg_right (h0 i j).2 (hw1 i j).1
    have h4 := (hw1 i j).2
    linarith

theorem UnitWeights.mix {rows cols : Nat} (a b : OutlierWeights rows cols) (α : ℚ)
    (hα : 0 ≤ α ∧ α ≤ 1) (ha : UnitWeights a) (hb : UnitWeights b) :
    UnitWeights (fun i j => a i j * α + b i j * (1 - α)) := by
  intro i j
  obtain ⟨ha0, ha1⟩ := ha i j
  obtain ⟨hb0, hb1⟩ := hb i j
  obtain ⟨h0, h1⟩ := hα
  show 0 ≤ a i j * α + b i j * (1 - α) ∧ a i j * α + b i j * (1 - α) ≤ 1
  constructor
  · have := mul_nonneg ha0 h0
    have := mul_nonneg hb0 (sub_nonneg.mpr h1)
    linarith
  · have h2 : a i j * α ≤ 1 * α := mul_le_mul_of_nonneg_right ha1 h0
    have h3 : b i j * (1 - α) ≤ 1 * (1 - α) :=
      mul_le_mul_of_nonneg_right hb1 (sub_nonneg.mpr h1)
    linarith

theorem weighting_ok (strategy : Strategy σ Quaternion k)
    (matcher : Matcher σ k) (descriptorOutlierFilter : DescriptorOutlierFilter σ k)
    (reading reference : DataPoints k) (st : LoopState Quaternion k) (s s' : σ)
    (w : Weighting k)
    (h : weighting strategy matcher descriptorOutlierFilter reading reference st s
      = .ok (w, s')) :
    (∃ r q iterate s0 iterate' s0',
      FeatureOutlierFilters.compute strategy.featureOutlierFilters r q w.matched iterate s0
        = .ok ((w.featureOutlierWeights, iterate'), s0')) ∧
    (∃ r q iterate s0 iterate' s0',
      descriptorOutlierFilter.compute r q w.matched iterate s0
        = .ok ((w.descriptorOutlierWeights, iterate'), s0')) ∧
    w.outlierWeights = fun i j =>
      w.featureOutlierWeights i j * strategy.outlierMixingWeight +
        w.descriptorOutlierWeights i j * (1 - strategy.outlierMixingWeight) := by
  unfold weighting at h
  simp only [StageM.bind_eq_ok, StageM.pure_apply] at h
  obtain ⟨_, _, _, _, _, _, _, _, _, ⟨matched, it1⟩, _, _, ⟨fw, it2⟩, _, hfw, ⟨dw, it3⟩, _,
    hdw, hst⟩ := h
  simp only [Except.ok.injEq, Prod.mk.injEq] at hst
  obtain ⟨hst, _⟩ := hst
  subst hst
  exact ⟨⟨_, _, _, _, _, _, hfw⟩, ⟨_, _, _, _, _, _, hdw⟩, rfl⟩

end WeightBounds

/-- C18: when `outlierMixingWeight` is in `[0, 1]` and every weight matrix a feature-outlier
filter or the descriptor-outlier filter returns is in `[0, 1]`, every entry of the product
`FeatureOutlierFilters::compute` returns is in `[0, 1]`, and so is every entry of the mixed
matrix `W = α·W_feat + (1-α)·W_desc` with which the first part of the loop body ends and which
the second part hands to the error minimizer. -/
theorem outlier_weights_in_unit_interval {σ Quaternion : Type} {k : Nat}
    (E : Eigen Quaternion) (strategy : Strategy σ Quaternion k)
    (matcher : Matcher σ k) (descriptorOutlierFilter : DescriptorOutlierFilter σ k)
    (errorMinimizer : ErrorMinimizer σ k) (inspector : Inspector σ Quaternion k)
    (hα : 0 ≤ strategy.outlierMixingWeight ∧ strategy.outlierMixingWeight ≤ 1)
    (hf : ∀ f ∈ strategy.featureOutlierFilters, ∀ r q input iterate s w iterate' s',
      f.compute r q input iterate s = .ok ((w, iterate'), s') → UnitWeights w)
    (hd : ∀ r q input iterate s w iterate' s',
      descriptorOutlierFilter.compute r q input iterate s = .ok ((w, iterate'), s') →
      UnitWeights w) :
    (∀ r q input iterate s w iterate' s',
      FeatureOutlierFilters.compute strategy.featureOutlierFilters r q input iterate s
        = .ok ((w, iterate'), s') → UnitWeights w) ∧
    (∀ reading reference st s w s',
      weighting strategy matcher descriptorOutlierFilter reading reference st s = .ok (w, s') →
      UnitWeights w.featureOutlierWeights ∧ UnitWeights w.descriptorOutlierWeights ∧
      UnitWeights w.outlierWeights ∧
      w.outlierWeights = fun i j =>
        w.featureOutlierWeights i j * strategy.outlierMixingWeight +
          w.descriptorOutlierWeights i j * (1 - strategy.outlierMixingWeight)) ∧
    (∀ tref reading reference st,
      loopBody E strategy matcher descriptorOutlierFilter errorMinimizer inspector tref
          reading reference st =
        weighting strategy matcher descriptorOutlierFilter reading reference st >>=
          minimizing E errorMinimizer inspector tref st) := by
  have hcompute : ∀ r q input iterate s w iterate' s',
      FeatureOutlierFilters.compute strategy.featureOutlierFilters r q input iterate s
        = .ok ((w, iterate'), s') → UnitWeights w := by
    intro r q input iterate s w iterate' s' h
    exact FeatureOutlierFilters.computeFrom_unit r q input strategy.featureOutlierFilters hf
      (fun _ _ => 1) iterate s w iterate' s' (fun _ _ => ⟨zero_le_one, le_refl 1⟩) h
  refine ⟨hcompute, ?_, ?_⟩
  · intro reading reference st s w s' h
    obtain ⟨⟨r, q, it, s0, it', s0', hfw⟩, ⟨r', q', it2, s2, it2', s2', hdw⟩, hmix⟩ :=
      weighting_ok strategy matcher descriptorOutlierFilter reading reference st s s' w h
    have h1 := hcompute _ _ _ _ _ _ _ _ hfw
    have h2 := hd _ _ _ _ _ _ _ _ hdw
    refine ⟨h1, h2, ?_, hmix⟩
    rw [hmix]
    exact UnitWeights.mix _ _ _ hα h1 h2
  · intro tref reading reference st
    exact loopBody_eq_weighting E strategy matcher descriptorOutlierFilter errorMinimizer
      inspector tref reading reference st

/-- Witness of C18: the sample strategy with one feature-outlier filter of weight `1/2`, the
sample descriptor-outlier filter (weights `1`) and mixing weight `1/2`. -/
theorem outlier_weights_in_unit_interval_witness :
    (0 ≤ sampleWeightingStrategy.outlierMixingWeight ∧
      sampleWeightingStrategy.outlierMixingWeight ≤ 1) ∧
    ∃ w : OutlierWeights sampleMatches.rows sampleMatches.cols,
      FeatureOutlierFilters.compute sampleWeightingStrategy.featureOutlierFilters
        (sampleCloud 1 0) (sampleCloud 1 2) sampleMatches true []
        = .ok ((w, true), [Call.featureOutlierFilter]) ∧
      UnitWeights w := by
  have hα : 0 ≤ sampleWeightingStrategy.outlierMixingWeight ∧
      sampleWeightingStrategy.outlierMixingWeight ≤ 1 := by
    norm_num [sampleWeightingStrategy, sampleStrategy]
  refine ⟨hα, _, rfl, ?_⟩
  refine (outlier_weights_in_unit_interval sampleEigen sampleWeightingStrategy
    (sampleMatcher 1 false) (sampleDescriptorOutlierFilter 1) (sampleErrorMinimizer 1)
    (sampleInspector _ 1) hα ?_ ?_).1 (sampleCloud 1 0) (sampleCloud 1 2) sampleMatches true []
    _ true [Call.featureOutlierFilter] rfl
  · intro f hf r q input iterate s w iterate' s' h
    simp only [sampleWeightingStrategy, List.mem_singleton] at hf
    subst hf
    simp only [sampleFeatureOutlierFilter, logCall, Except.ok.injEq, Prod.mk.injEq] at h
    rw [← h.1.1]
    intro i j
    norm_num
  · intro r q input iterate s w iterate' s' h
    simp only [sampleDescriptorOutlierFilter, logCall, Except.ok.injEq, Prod.mk.injEq] at h
    rw [← h.1.1]
    intro i j
    norm_num

/-- C17: for every reference cloud with at least one point (its number of rows is that of the
reading by the type of `icp`): after the normalisation every spatial row of the reference
features sums to zero; the last row, the number of points and the descriptors are unchanged;
`Tref` is the identity with the reference centroid, the mean of the columns, written in its
last column above the last row; when the last row of the reference features is the constant 1,
`Tref` applied to the normalised features gives back the original features; and the clouds
`icp` goes on with are the reading as it was received and the normalised reference (exact
arithmetic). -/
theorem centroid_normalization {k : Nat} (reference : DataPoints k)
    (hne : 0 < reference.nbPts) :
    (∀ i : Fin (k + 3), i.val < k + 2 →
      ∑ j, (centredReference reference).features i j = 0) ∧
    (∀ j, (centredReference reference).features (Fin.last (k + 2)) j
      = reference.features (Fin.last (k + 2)) j) ∧
    (centredReference reference).nbPts = reference.nbPts ∧
    (centredReference reference).nbDescriptors = reference.nbDescriptors ∧
    (centredReference reference).descriptors = reference.descriptors ∧
    (∀ i, meanReference reference i
      = (∑ j, reference.features i j) / (reference.nbPts : ℚ)) ∧
    (∀ i j, Tref reference i j =
      if i ≠ Fin.last (k + 2) ∧ j = Fin.last (k + 2) then meanReference reference i
      else (1 : TransformationParameters k) i j) ∧
    ((∀ j, reference.features (Fin.last (k + 2)) j = 1) →
      Tref reference * (centredReference reference).features = reference.features) ∧
    (∀ {σ Quaternion : Type} (E : Eigen Quaternion) (fuel : Nat)
      (strategy : Strategy σ Quaternion k) (matcher : Matcher σ k)
      (descriptorOutlierFilter : DescriptorOutlierFilter σ k)
      (errorMinimizer : ErrorMinimizer σ k) (inspector : Inspector σ Quaternion k)
      (T0 : TransformationParameters k) (reading : DataPoints k) (s : σ),
      strategy.matcher = some matcher →
      strategy.descriptorOutlierFilter = some descriptorOutlierFilter →
      strategy.errorMinimizer = some errorMinimizer →
      strategy.inspector = some inspector →
      icp E fuel T0 reading reference strategy s =
        match icpInit E strategy matcher inspector (Tref reference) T0 reading
            (centredReference reference) s with
        | .error e => some (.error e)
        | .ok (i, s1) =>
          match icpLoop E strategy matcher descriptorOutlierFilter errorMinimizer inspector
              (Tref reference) i.reading i.reference fuel i.loop s1 with
          | none => none
          | some (.error e) => some (.error e)
          | some (.ok (st, s2)) => some (icpFinish inspector (Tref reference) st s2)) := by
  have hn : (reference.nbPts : ℚ) ≠ 0 := by exact_mod_cast (Nat.pos_iff_ne_zero.mp hne)
  have hlast : ∀ i : Fin (k + 3), i ≠ Fin.last (k + 2) ↔ i.val < k + 3 - 1 := by
    intro i
    rw [Ne, Fin.ext_iff, Fin.val_last]
    have := i.isLt
    omega
  refine ⟨?_, ?_, rfl, rfl, rfl, fun i => rfl, ?_, ?_, ?_⟩
  · intro i hi
    have hi' : i.val < k + 3 - 1 := by omega
    show ∑ j, (if i.val < k + 3 - 1 then reference.features i j - meanReference reference i
      else reference.features i j) = 0
    simp only [if_pos hi', Finset.sum_sub_distrib, Finset.sum_const, Finset.card_univ,
      Fintype.card_fin, nsmul_eq_mul, meanReference]
    field_simp
  · intro j
    show (if (Fin.last (k + 2)).val < k + 3 - 1 then _ else _) = _
    rw [if_neg (by simp)]
  · intro i j
    show (if i.val < k + 3 - 1 ∧ j.val = k + 3 - 1 then _ else _) = _
    have hj : j.val = k + 3 - 1 ↔ j = Fin.last (k + 2) := by
      rw [Fin.ext_iff, Fin.val_last]
      omega
    simp only [hlast i, hj]
  · intro hhom
    ext i j
    rw [Matrix.mul_apply]
    by_cases hi : i.val < k + 3 - 1
    · have hsplit : ∀ l : Fin (k + 3), Tref reference i l * (centredReference reference).features l j
          = (if l = i then (centredReference reference).features i j else 0) +
            (if l = Fin.last (k + 2) then meanReference reference i *
              (centredReference reference).features (Fin.last (k + 2)) j else 0) := by
        intro l
        have hil : i ≠ Fin.last (k + 2) := (hlast i).mpr hi
        by_cases hl : l = Fin.last (k + 2)
        · subst hl
          have hc : i.val < k + 3 - 1 ∧ (Fin.last (k + 2)).val = k + 3 - 1 := ⟨hi, by simp⟩
          simp only [Tref, if_pos hc, if_neg (Ne.symm hil), if_true, zero_add]
        · have hc : ¬ (i.val < k + 3 - 1 ∧ l.val = k + 3 - 1) := by
            rintro ⟨_, h2⟩
            apply hl
            rw [Fin.ext_iff, Fin.val_last]
            omega
          simp only [Tref, if_neg hc, if_neg hl, add_zero, Matrix.one_apply]
          by_cases hli : l = i
          · subst hli
            simp
          · simp [hli, Ne.symm hli]
      simp only [hsplit, Finset.sum_add_distrib, Finset.sum_ite_eq', Finset.mem_univ, if_true]
      show (if i.val < k + 3 - 1 then reference.features i j - meanReference reference i
          else reference.features i j) +
        meanReference reference i *
          (if (Fin.last (k + 2)).val < k + 3 - 1 then _ else _) = _
      rw [if_pos hi, if_neg (by simp), hhom j]
      ring
    · have hrow : ∀ l : Fin (k + 3), Tref reference i l = (1 : TransformationParameters k) i l := by
        intro l
        have hc : ¬ (i.val < k + 3 - 1 ∧ l.val = k + 3 - 1) := fun h => hi h.1
        simp only [Tref, if_neg hc]
      simp only [hrow, Matrix.one_apply, ite_mul, one_mul, zero_mul, Finset.sum_ite_eq,
        Finset.mem_univ, if_true]
      show (if i.val < k + 3 - 1 then _ else _) = _
      rw [if_neg hi]
  · intro σ Quaternion E fuel strategy matcher descriptorOutlierFilter errorMinimizer inspector
      T0 reading s hm hd he hi
    rw [icp_eq_icpRun E fuel strategy matcher descriptorOutlierFilter errorMinimizer inspector
      hm hd he hi]
    unfold icpRun
    simp only
    cases icpInit E strategy matcher inspector (Tref reference) T0 reading
        (centredReference reference) s with
    | error e => rfl
    | ok p =>
      obtain ⟨i, s1⟩ := p
      simp only
      cases icpLoop E strategy matcher descriptorOutlierFilter errorMinimizer inspector
          (Tref reference) i.reading i.reference fuel i.loop s1 with
      | none => rfl
      | some x =>
        cases x with
        | error e => rfl
        | ok q => rfl

/-- Witness of C17: the sample cloud of one point at `x = 2`. -/
theorem centroid_normalization_witness :
    0 < (sampleCloud 1 2).nbPts ∧
    (∀ i : Fin 4, i.val < 3 → ∑ j, (centredReference (sampleCloud 1 2)).features i j = 0) ∧
    (∀ j, (sampleCloud 1 2).features (Fin.last 3) j = 1) ∧
    Tref (sampleCloud 1 2) * (centredReference (sampleCloud 1 2)).features
      = (sampleCloud 1 2).features :=
  have hhom : ∀ j, (sampleCloud 1 2).features (Fin.last 3) j = 1 := fun _ => rfl
  ⟨by decide, (centroid_normalization (sampleCloud 1 2) (by decide)).1, hhom,
    (centroid_normalization (sampleCloud 1 2) (by decide)).2.2.2.2.2.2.2.1 hhom⟩

section NeverReenable

variable {Quaternion : Type} {k : Nat}

theorem TransformationChecker.init_false (E : Eigen Quaternion)
    (parameters : TransformationParameters k) (c c' : TransformationChecker Quaternion k)
    (iterate' : Bool) (h : init E parameters false c = .ok (c', iterate')) :
    iterate' = false := by
  cases c with
  | counter c =>
    simp only [init, CounterTransformationChecker.init, Except.ok.injEq, Prod.mk.injEq] at h
    exact h.2.symm
  | error c =>
    simp only [init, ErrorTransformationChecker.init, Except.ok.injEq, Prod.mk.injEq] at h
    exact h.2.symm
  | bound c =>
    simp only [init] at h
    split at h
    · rename_i c'' it hc
      simp only [Except.ok.injEq, Prod.mk.injEq] at h
      rw [← h.2]
      exact bound_iterate_eq E parameters false c c'' it (Or.inl hc)
    · simp at h

theorem TransformationCheckers.init_all_false (E : Eigen Quaternion)
    (parameters : TransformationParameters k) (cs : List (TransformationChecker Quaternion k)) :
    ∀ cs' iterate', init E parameters false cs = .ok (cs', iterate') → iterate' = false := by
  induction cs with
  | nil =>
    intro cs' iterate' h
    simp only [init, Except.ok.injEq, Prod.mk.injEq] at h
    exact h.2.symm
  | cons c rest ih =>
    intro cs' iterate' h
    simp only [init] at h
    split at h
    · simp at h
    · rename_i c' it1 hc
      have := TransformationChecker.init_false E parameters c c' it1 hc
      subst this
      split at h
      · simp at h
      · rename_i rest' it2 hrest
        simp only [Except.ok.injEq, Prod.mk.injEq] at h
        rw [← h.2]
        exact ih rest' it2 hrest

end NeverReenable

/-- C20: no convergence checker turns `iterate` back on. For the counter, the error checker and
the bound checker, whatever the state and the transformation, `init` and `check` entered with
`iterate = false` return `false` when they return; hence `TransformationCheckers::init` and
`TransformationCheckers::check` over any list of these checkers, entered with
`iterate = false`, return `false` when they return. -/
theorem checkers_never_reenable {Quaternion : Type} {k : Nat} (E : Eigen Quaternion)
    (parameters : TransformationParameters k) :
    (∀ c c' iterate', CounterTransformationChecker.init parameters false c
        = .ok (c', iterate') → iterate' = false) ∧
    (∀ c c' iterate', CounterTransformationChecker.check parameters false c
        = .ok (c', iterate') → iterate' = false) ∧
    (∀ c c' iterate', ErrorTransformationChecker.init E parameters false c
        = .ok (c', iterate') → iterate' = false) ∧
    (∀ c c' iterate', ErrorTransformationChecker.check E parameters false c
        = .ok (c', iterate') → iterate' = false) ∧
    (∀ c c' iterate', BoundTransformationChecker.init E parameters false c
        = .ok (c', iterate') → iterate' = false) ∧
    (∀ c c' iterate', BoundTransformationChecker.check E parameters false c
        = .ok (c', iterate') → iterate' = false) ∧
    (∀ cs cs' iterate', TransformationCheckers.init E parameters false cs
        = .ok (cs', iterate') → iterate' = false) ∧
    (∀ cs cs' iterate', TransformationCheckers.check E parameters false cs
        = .ok (cs', iterate') → iterate' = false) := by
  refine ⟨?_, ?_, ?_, ?_, ?_, ?_, ?_, ?_⟩
  · intro c c' iterate' h
    simp only [CounterTransformationChecker.init, Except.ok.injEq, Prod.mk.injEq] at h
    exact h.2.symm
  · intro c c' iterate' h
    simp only [CounterTransformationChecker.check, ite_self, Except.ok.injEq,
      Prod.mk.injEq] at h
    exact h.2.symm
  · intro c c' iterate' h
    simp only [ErrorTransformationChecker.init, Except.ok.injEq, Prod.mk.injEq] at h
    exact h.2.symm
  · intro c c' iterate' h
    rw [(ErrorTransformationChecker.check_ok E parameters false iterate' c c' h).2]
    simp
  · intro c c' iterate' h
    exact bound_iterate_eq E parameters false c c' iterate' (Or.inl h)
  · intro c c' iterate' h
    exact bound_iterate_eq E parameters false c c' iterate' (Or.inr h)
  · intro cs cs' iterate' h
    exact TransformationCheckers.init_all_false E parameters cs cs' iterate' h
  · intro cs cs' iterate' h
    exact TransformationCheckers.check_all_false E parameters cs cs' iterate' h

/-- Witness of C20: `init` over a list of the three checkers, entered with `iterate = false`,
returns with `iterate = false`. -/
theorem checkers_never_reenable_witness :
    ∃ cs',
      TransformationCheckers.init sampleEigen (sampleTransformation 0 0) false
        [TransformationChecker.counter (CounterTransformationChecker.new 24 3),
         TransformationChecker.error
           (ErrorTransformationChecker.new (Scalar.fin 1) (Scalar.fin 1) 2),
         TransformationChecker.bound
           { values := ![Scalar.zero, Scalar.zero]
             limits := ![Scalar.fin 1, Scalar.fin 1]
             initialRotation := 0
             initialTranslation := 0 }] = .ok (cs', false) ∧
      false = false :=
  ⟨_, rfl,
    (checkers_never_reenable sampleEigen (sampleTransformation 0 0)).2.2.2.2.2.2.1 _ _ false
      (rfl : TransformationCheckers.init sampleEigen (sampleTransformation 0 0) false
        [TransformationChecker.counter (CounterTransformationChecker.new 24 3),
         TransformationChecker.error
           (ErrorTransformationChecker.new (Scalar.fin 1) (Scalar.fin 1) 2),
         TransformationChecker.bound
           { values := ![Scalar.zero, Scalar.zero]
             limits := ![Scalar.fin 1, Scalar.fin 1]
             initialRotation := 0
             initialTranslation := 0 }] = .ok (_, false))⟩

end PointMatcher
